import Mathlib

/-!
# reone scene graph: animation channel, frame update, walkmesh queries and
shadow cascades

A shallow embedding of `src/scene/animationchannel.cpp`, of
`src/scene/graph.cpp` (roots, the stages of the frame update and the raycast
queries) and of the computation of the light-space matrices in
`src/graphics/pipeline/world.cpp`, together with theorems about them.

Conventions of the embedding.

* `float` values are idealised as rationals (`ℚ`): the arithmetic and the order
  of the source are kept, infinities and NaN are not represented. Where a
  property depends on the rounding of `float` arithmetic (the time of the
  animation channel, the planes of the shadow cascades), the rounding is an
  explicit argument `fl : ℚ → ℚ` of the definition: `id` is exact arithmetic,
  `roundFloat` is IEEE 754 binary32 with round to nearest, ties to even.
* Pointers to scene nodes are natural-number identities; a null pointer is
  `none`.
* A `void` member function becomes a function from the state before the call to
  the state after it; calls made on collaborators (`signalEvent`) are returned
  as an output list, in call order.
* A member function that can throw returns the state after the call together
  with `Except.error (.invalid_argument msg)` or `Except.ok ()`.
-/

namespace reone

/-! ## Rounding of `float` arithmetic -/

/-- Rounding of a rational to the nearest integer, a tie going to the even
one. -/
def roundHalfEven (q : ℚ) : ℤ :=
  let f := ⌊q⌋
  if q - f < 1 / 2 then f
  else if 1 / 2 < q - f then f + 1
  else if f % 2 = 0 then f
  else f + 1

/-- The `float` nearest to a rational (IEEE 754 binary32, round to nearest, ties
to even): 24 significant bits from the exponent `-126` on, multiples of
`2^-149` below it. Overflow is not represented: this is the rounding of the
machine for magnitudes up to `numeric_limits<float>::max()`. -/
def roundFloat (x : ℚ) : ℚ :=
  let e := max (Int.log 2 |x|) (-126)
  let ulp : ℚ := 2 ^ (e - 23)
  roundHalfEven (x / ulp) * ulp

/-! ## glm values -/

/-- Two-component vector (`glm::vec2`). -/
structure Vec2 where
  x : ℚ
  y : ℚ
  deriving DecidableEq

/-- Three-component vector (`glm::vec3`). -/
structure Vec3 where
  x : ℚ
  y : ℚ
  z : ℚ
  deriving DecidableEq

/-- Four-component vector (`glm::vec4`). -/
structure Vec4 where
  x : ℚ
  y : ℚ
  z : ℚ
  w : ℚ
  deriving DecidableEq

/-- Quaternion (`glm::quat`). -/
structure Quat where
  w : ℚ
  x : ℚ
  y : ℚ
  z : ℚ
  deriving DecidableEq

/-- Column-major 4x4 matrix (`glm::mat4`): `c0 .. c3` are the columns. -/
structure Mat4 where
  c0 : Vec4
  c1 : Vec4
  c2 : Vec4
  c3 : Vec4
  deriving DecidableEq

namespace Vec3

/-- Component-wise sum. -/
def add (a b : Vec3) : Vec3 := ⟨a.x + b.x, a.y + b.y, a.z + b.z⟩

/-- Component-wise difference. -/
def sub (a b : Vec3) : Vec3 := ⟨a.x - b.x, a.y - b.y, a.z - b.z⟩

/-- Scalar multiple `s * v`. -/
def smul (s : ℚ) (v : Vec3) : Vec3 := ⟨s * v.x, s * v.y, s * v.z⟩

/-- Dot product (`glm::dot`). -/
def dot (a b : Vec3) : ℚ := a.x * b.x + a.y * b.y + a.z * b.z

/-- Squared distance (`glm::distance2`). -/
def distance2 (a b : Vec3) : ℚ := dot (sub a b) (sub a b)

end Vec3

namespace Vec2

/-- Squared distance of two planar points (`glm::distance2`). -/
def distance2 (a b : Vec2) : ℚ := (a.x - b.x) * (a.x - b.x) + (a.y - b.y) * (a.y - b.y)

end Vec2

namespace Vec4

/-- Component-wise sum. -/
def add (a b : Vec4) : Vec4 := ⟨a.x + b.x, a.y + b.y, a.z + b.z, a.w + b.w⟩

/-- Scalar multiple `v * s`. -/
def smul (s : ℚ) (v : Vec4) : Vec4 := ⟨s * v.x, s * v.y, s * v.z, s * v.w⟩

/-- Conversion `glm::vec4(v, w)`. -/
def ofVec3 (v : Vec3) (w : ℚ) : Vec4 := ⟨v.x, v.y, v.z, w⟩

/-- Conversion `glm::vec3(v)`: drops the last component. -/
def toVec3 (v : Vec4) : Vec3 := ⟨v.x, v.y, v.z⟩

end Vec4

namespace Mat4

/-- Identity matrix, `glm::mat4(1.0f)`. -/
def identity : Mat4 := ⟨⟨1, 0, 0, 0⟩, ⟨0, 1, 0, 0⟩, ⟨0, 0, 1, 0⟩, ⟨0, 0, 0, 1⟩⟩

/-- Matrix times column vector, `m * v`. -/
def mulVec (m : Mat4) (v : Vec4) : Vec4 :=
  Vec4.add (Vec4.add (Vec4.smul v.x m.c0) (Vec4.smul v.y m.c1))
    (Vec4.add (Vec4.smul v.z m.c2) (Vec4.smul v.w m.c3))

/-- Matrix product, `a * b`. -/
def mul (a b : Mat4) : Mat4 := ⟨mulVec a b.c0, mulVec a b.c1, mulVec a b.c2, mulVec a b.c3⟩

/-- Scaling `glm::scale(m, v)`: the first three columns are scaled. -/
def scale (m : Mat4) (v : Vec3) : Mat4 :=
  ⟨Vec4.smul v.x m.c0, Vec4.smul v.y m.c1, Vec4.smul v.z m.c2, m.c3⟩

/-- Translation `glm::translate(m, v)`: only the last column changes. -/
def translate (m : Mat4) (v : Vec3) : Mat4 :=
  ⟨m.c0, m.c1, m.c2, mulVec m ⟨v.x, v.y, v.z, 1⟩⟩

/-- Rotation matrix of a quaternion, `glm::mat4_cast(q)`. -/
def ofQuat (q : Quat) : Mat4 :=
  ⟨⟨1 - 2 * (q.y * q.y + q.z * q.z), 2 * (q.x * q.y + q.w * q.z), 2 * (q.x * q.z - q.w * q.y), 0⟩,
   ⟨2 * (q.x * q.y - q.w * q.z), 1 - 2 * (q.x * q.x + q.z * q.z), 2 * (q.y * q.z + q.w * q.x), 0⟩,
   ⟨2 * (q.x * q.z + q.w * q.y), 2 * (q.y * q.z - q.w * q.x), 1 - 2 * (q.x * q.x + q.y * q.y), 0⟩,
   ⟨0, 0, 0, 1⟩⟩

end Mat4

/-! ## Animation assets -/

/-- Node of a model or animation tree (`render::ModelNode`). Its declaration is
not part of the source tree; the fields are the accessors that
`AnimationChannel::computeLocalTransform` calls. The three key accessors take
the time (and, for the translation, the scale factor) and give the
interpolated key when the node has one. -/
inductive ModelNode where
  | mk (name : String) (nodeNumber : Nat) (position : Vec3) (orientation : Quat)
      (getScale : ℚ → Option ℚ) (getTranslation : ℚ → ℚ → Option Vec3)
      (getOrientation : ℚ → Option Quat) (children : List ModelNode)

namespace ModelNode

/-- Accessor `name()`. -/
def name : ModelNode → String
  | mk n _ _ _ _ _ _ _ => n

/-- Accessor `nodeNumber()`. -/
def nodeNumber : ModelNode → Nat
  | mk _ n _ _ _ _ _ _ => n

/-- Accessor `position()`. -/
def position : ModelNode → Vec3
  | mk _ _ p _ _ _ _ _ => p

/-- Accessor `orientation()`. -/
def orientation : ModelNode → Quat
  | mk _ _ _ o _ _ _ _ => o

/-- Accessor `getScale(time, out)`. -/
def getScale : ModelNode → ℚ → Option ℚ
  | mk _ _ _ _ f _ _ _ => f

/-- Accessor `getTranslation(time, out, scale)`. -/
def getTranslation : ModelNode → ℚ → ℚ → Option Vec3
  | mk _ _ _ _ _ f _ _ => f

/-- Accessor `getOrientation(time, out)`. -/
def getOrientation : ModelNode → ℚ → Option Quat
  | mk _ _ _ _ _ _ f _ => f

/-- Accessor `children()`. -/
def children : ModelNode → List ModelNode
  | mk _ _ _ _ _ _ _ c => c

end ModelNode

mutual

/-- The nodes of a model or animation tree, every node before its children. -/
def ModelNode.nodes : ModelNode → List ModelNode
  | .mk name nodeNumber position orientation getScale getTranslation getOrientation children =>
    .mk name nodeNumber position orientation getScale getTranslation getOrientation children ::
      ModelNode.nodesOfList children

/-- The nodes of a list of trees, tree after tree. -/
def ModelNode.nodesOfList : List ModelNode → List ModelNode
  | [] => []
  | child :: rest => ModelNode.nodes child ++ ModelNode.nodesOfList rest

end

/-- Named event on the time line of an animation. -/
structure AnimationEvent where
  time : ℚ
  name : String
  deriving DecidableEq

/-- Animation asset (`render::Animation`), read-only. -/
structure Animation where
  length : ℚ
  transitionTime : ℚ
  events : List AnimationEvent
  rootNode : ModelNode

/-- Modelled from the spec: the declaration of `AnimationFlags` is not part of
the source tree; the loop flag is taken to be the lowest bit of the flag word. -/
def AnimationFlags.loop : Nat := 1

/-- Playback properties of an animation (`AnimationProperties`). -/
structure AnimationProperties where
  flags : Nat
  speed : ℚ
  scale : ℚ
  duration : ℚ
  deriving DecidableEq

/-! ### Scene nodes below a model -/

/-- Light definition of a model node, the value of `modelNode().light()`. Its
declaration is not part of the source tree; the fields are the ones read by
`graph.cpp`. -/
structure ModelNodeLight where
  shadow : Bool
  flareRadius : ℚ
  flares : List String
  ambientOnly : Bool
  dynamicType : Nat
  deriving DecidableEq

/-- A `LightSceneNode`: `id` stands for the address of the node, `model` for the
address of the model it belongs to, `origin` for the translation of its
absolute transform, `modelEnabled` for the value of `model().isEnabled()`. -/
structure LightSceneNode where
  id : Nat
  model : Nat
  origin : Vec3
  radius : ℚ
  isDirectional : Bool
  light : ModelNodeLight
  active : Bool
  strength : ℚ
  modelEnabled : Bool := true
  deriving DecidableEq

/-- The type tag of a scene node (`SceneNodeType`). -/
inductive SceneNodeType where
  | Camera
  | Dummy
  | Emitter
  | Grass
  | GrassCluster
  | Light
  | Mesh
  | Model
  | Particle
  | Sound
  | Trigger
  | Walkmesh
  deriving DecidableEq

/-- A scene node seen through a `SceneNode *`: `id` stands for its address,
`parent` for the address returned by `parent()`, `origin` for `getOrigin()`;
for a mesh node `model` stands for the address of the node that `model()`
returns. -/
structure SceneNode where
  id : Nat
  type : SceneNodeType
  parent : Nat
  origin : Vec3
  model : Nat := 0
  deriving DecidableEq

/-- A `MeshSceneNode`: `model` stands for the address of the node that `model()`
returns, the three flags for the values of `shouldRender()`, `isTransparent()`
and `shouldCastShadows()`. -/
structure MeshSceneNode where
  id : Nat
  parent : Nat
  origin : Vec3
  model : Nat
  shouldRender : Bool := true
  isTransparent : Bool := true
  shouldCastShadows : Bool := false
  deriving DecidableEq

/-- A mesh node seen through a `SceneNode *`; its type tag is `Mesh`. -/
def MeshSceneNode.toSceneNode (mesh : MeshSceneNode) : SceneNode :=
  { id := mesh.id, type := .Mesh, parent := mesh.parent, origin := mesh.origin,
    model := mesh.model }

/-- An `EmitterSceneNode` with its children. -/
structure EmitterSceneNode where
  id : Nat
  children : List SceneNode
  deriving DecidableEq

/-- What `refreshFromNode` reads of a scene node after the downcast that its
type tag selects: the culled flag of a model, the mesh, light or emitter node
itself, or nothing but the tag for a node of another type. -/
inductive NodeData where
  | model (culled : Bool)
  | mesh (node : MeshSceneNode)
  | light (node : LightSceneNode)
  | emitter (node : EmitterSceneNode)
  | other (type : SceneNodeType)
  deriving DecidableEq

/-- A scene node together with the nodes below it (`children()`). -/
inductive SceneTree where
  | mk (data : NodeData) (children : List SceneTree)

/-- Scene node of one model node (`ModelNodeSceneNode`). -/
structure ModelNodeSceneNode where
  modelNode : ModelNode

/-- A `ModelSceneNode`. The animation channel reads the lookup of a model node
by name; the scene graph reads and writes the other members of a model root:
`id` stands for the address of the node, `origin` for the translation of its
absolute transform, `children` for the nodes below it. -/
structure ModelSceneNode where
  getModelNode : String → Option ModelNodeSceneNode
  id : Nat := 0
  enabled : Bool := true
  origin : Vec3 := ⟨0, 0, 0⟩
  drawDistance : ℚ := 0
  cullable : Bool := false
  culled : Bool := false
  children : List SceneTree := []

/-- Errors raised by the embedded code. -/
inductive Error where
  | invalid_argument (msg : String)
  deriving DecidableEq

/-! ## AnimationChannel -/

/-- The map `_transformByNodeNumber` as an association list. -/
abbrev TransformMap := List (Nat × Mat4)

/-- Insertion `std::unordered_map::insert`: an existing key keeps its value. -/
def TransformMap.insert (m : TransformMap) (k : Nat) (v : Mat4) : TransformMap :=
  if m.any (fun e => e.1 == k) then m else m ++ [(k, v)]

/-- Lookup `std::unordered_map::find`. -/
def TransformMap.find (m : TransformMap) (k : Nat) : Option Mat4 :=
  (List.find? (fun e => e.1 == k) m).map Prod.snd

/-- State of an `AnimationChannel`. -/
structure AnimationChannel where
  _modelSceneNode : ModelSceneNode
  _ignoreNodes : List String
  _animation : Option Animation
  _properties : AnimationProperties
  _time : ℚ
  _freeze : Bool
  _finished : Bool
  _transformByNodeNumber : TransformMap

namespace AnimationChannel

/-- The no-argument `reset()`: back to the idle state without animation. -/
def resetIdle (c : AnimationChannel) : AnimationChannel :=
  { c with _animation := none, _time := 0, _freeze := false, _finished := false }

/-- The overload `reset(anim, properties)`: the state after the call and its
outcome. It throws when `anim` is null, before any member is written, and
installs the animation at time 0 otherwise. -/
def reset (c : AnimationChannel) (anim : Option Animation) (properties : AnimationProperties) :
    AnimationChannel × Except Error Unit :=
  match anim with
  | none => (c, .error (.invalid_argument "anim must not be null"))
  | some a =>
    ({ c with
        _animation := some a
        _properties := properties
        _time := 0
        _freeze := false
        _finished := false }, .ok ())

/-- The transform written for one animation node that is not ignored and has a
model node, when a key changed it. -/
def nodeTransform (c : AnimationChannel) (animNode modelNode : ModelNode) : Option Mat4 :=
  let transform := Mat4.identity
  let transformChanged := false
  let (transform, transformChanged) :=
    match animNode.getScale c._time with
    | some scale => (Mat4.scale transform ⟨scale, scale, scale⟩, true)
    | none => (transform, transformChanged)
  let (transform, transformChanged) :=
    match animNode.getTranslation c._time c._properties.scale with
    | some translation => (Mat4.translate transform (Vec3.add modelNode.position translation), true)
    | none => (Mat4.translate transform modelNode.position, transformChanged)
  let (transform, transformChanged) :=
    match animNode.getOrientation c._time with
    | some orientation => (Mat4.mul transform (Mat4.ofQuat orientation), true)
    | none => (Mat4.mul transform (Mat4.ofQuat modelNode.orientation), transformChanged)
  if transformChanged then some transform else none

mutual

/-- The recursion `computeLocalTransform(animNode)`, threading the transform map. -/
def computeLocalTransform (c : AnimationChannel) (animNode : ModelNode) (m : TransformMap) :
    TransformMap :=
  match animNode with
  | .mk name nodeNumber position orientation getScale getTranslation getOrientation children =>
    let animNode := ModelNode.mk name nodeNumber position orientation getScale getTranslation
      getOrientation children
    let m :=
      if c._ignoreNodes.contains name then m
      else
        match c._modelSceneNode.getModelNode name with
        | none => m
        | some modelNodeSceneNode =>
          let modelNode := modelNodeSceneNode.modelNode
          match nodeTransform c animNode modelNode with
          | some transform => TransformMap.insert m modelNode.nodeNumber transform
          | none => m
    computeLocalTransformChildren c children m

/-- The loop over `animNode.children()`. -/
def computeLocalTransformChildren (c : AnimationChannel) (children : List ModelNode)
    (m : TransformMap) : TransformMap :=
  match children with
  | [] => m
  | child :: rest => computeLocalTransformChildren c rest (computeLocalTransform c child m)

end

/-- The call `computeLocalTransforms()`: clears the map and walks the animation tree. -/
def computeLocalTransforms (c : AnimationChannel) (anim : Animation) : AnimationChannel :=
  { c with _transformByNodeNumber := computeLocalTransform c anim.rootNode [] }

/-- The names passed to `signalEvent` by the event loop of `update`, in order. -/
def signaledEvents (events : List AnimationEvent) (time newTime : ℚ) : List String :=
  (events.filter (fun event => decide (time < event.time) && decide (event.time ≤ newTime))).map
    (fun event => event.name)

/-- The member `update(dt)`: the state after the call and the events signaled to
the model during it. -/
def update (c : AnimationChannel) (dt : ℚ) : AnimationChannel × List String :=
  match c._animation with
  | none => (c, [])
  | some anim =>
    if c._freeze || c._finished then (c, [])
    else
      let newTime := min (c._time + c._properties.speed * dt) anim.length
      let signaled := signaledEvents anim.events c._time newTime
      let c := computeLocalTransforms c anim
      let c := { c with _time := newTime }
      if c._time = anim.length then
        let loop := c._properties.flags &&& AnimationFlags.loop != 0
        if loop then ({ c with _time := 0 }, signaled)
        else ({ c with _finished := true }, signaled)
      else (c, signaled)

/-- The member `freeze()`. -/
def freeze (c : AnimationChannel) : AnimationChannel := { c with _freeze := true }

/-- The member `isActive()`. -/
def isActive (c : AnimationChannel) : Bool := c._animation.isSome && !c._finished

/-- The member `isFinished()`. -/
def isFinished (c : AnimationChannel) : Bool := c._animation.isSome && c._finished

/-- The member `isPastTransitionTime()`. -/
def isPastTransitionTime (c : AnimationChannel) : Bool :=
  match c._animation with
  | some anim => decide (c._time > anim.transitionTime)
  | none => false

/-- The member `getTransformByNodeNumber(nodeNumber, out)`. -/
def getTransformByNodeNumber (c : AnimationChannel) (nodeNumber : Nat) : Option Mat4 :=
  TransformMap.find c._transformByNodeNumber nodeNumber

/-- The member `getTransitionTime()`. -/
def getTransitionTime (c : AnimationChannel) : ℚ :=
  match c._animation with
  | some anim => anim.transitionTime
  | none => 0

/-- The member `setTime(time)`. -/
def setTime (c : AnimationChannel) (time : ℚ) : AnimationChannel := { c with _time := time }

/-- The updated time computed by `update`: `min(time + speed * dt, length)`. -/
def newTime (c : AnimationChannel) (anim : Animation) (dt : ℚ) : ℚ :=
  min (c._time + c._properties.speed * dt) anim.length

/-- Repeated `update` calls, one per element of `dts`: the final state and the
events signaled by each call. -/
def updates (c : AnimationChannel) : List ℚ → AnimationChannel × List (List String)
  | [] => (c, [])
  | dt :: dts =>
    let r := update c dt
    let rs := updates r.1 dts
    (rs.1, r.2 :: rs.2)

/-- The member `update(dt)` with the rounding of its `float` arithmetic made
explicit: the product `_properties.speed * dt` and the sum `_time + ...` are
each rounded by `fl`; `glm::min`, the comparisons and the assignments do not
round. With `fl = id` this is `update`. -/
def updateRounded (fl : ℚ → ℚ) (c : AnimationChannel) (dt : ℚ) : AnimationChannel × List String :=
  match c._animation with
  | none => (c, [])
  | some anim =>
    if c._freeze || c._finished then (c, [])
    else
      let newTime := min (fl (c._time + fl (c._properties.speed * dt))) anim.length
      let signaled := signaledEvents anim.events c._time newTime
      let c := computeLocalTransforms c anim
      let c := { c with _time := newTime }
      if c._time = anim.length then
        let loop := c._properties.flags &&& AnimationFlags.loop != 0
        if loop then ({ c with _time := 0 }, signaled)
        else ({ c with _finished := true }, signaled)
      else (c, signaled)

/-- Repeated `updateRounded` calls, one per element of `dts`: the final state
and the events signaled by each call. -/
def updatesRounded (fl : ℚ → ℚ) (c : AnimationChannel) :
    List ℚ → AnimationChannel × List (List String)
  | [] => (c, [])
  | dt :: dts =>
    let r := updateRounded fl c dt
    let rs := updatesRounded fl r.1 dts
    (rs.1, r.2 :: rs.2)

/-- Invariant of a non-looping, unfrozen channel playing forward inside its animation. -/
def Forward (c : AnimationChannel) (a : Animation) : Prop :=
  c._animation = some a ∧ c._properties.flags &&& AnimationFlags.loop = 0 ∧
    0 ≤ c._properties.speed ∧ c._time ≤ a.length ∧ c._freeze = false

/-- The condition under which an animation node accounts for the entry of the
skeleton node number `n`: its name is not in the ignore set, the model has a
node of that name whose number is `n`, and the animation node has a scale,
translation or orientation key at the time of the channel. -/
def Animates (c : AnimationChannel) (animNode : ModelNode) (n : Nat) : Prop :=
  animNode.name ∉ c._ignoreNodes ∧
    ∃ modelNodeSceneNode, c._modelSceneNode.getModelNode animNode.name = some modelNodeSceneNode ∧
      modelNodeSceneNode.modelNode.nodeNumber = n ∧
      ((animNode.getScale c._time).isSome = true ∨
        (animNode.getTranslation c._time c._properties.scale).isSome = true ∨
        (animNode.getOrientation c._time).isSome = true)

/-- A call made on a channel after `reset(anim, properties)`: `update(dt)` or
`freeze()`. -/
inductive ChannelOp where
  | update (dt : ℚ)
  | freeze
  deriving DecidableEq

/-- The effect of one call on the channel state. -/
def applyOp (c : AnimationChannel) : ChannelOp → AnimationChannel
  | .update dt => (update c dt).1
  | .freeze => freeze c

/-- The effect of a sequence of calls, first call first. -/
def applyOps (c : AnimationChannel) (ops : List ChannelOp) : AnimationChannel :=
  ops.foldl applyOp c

end AnimationChannel

/-! ## Scene nodes -/

/-- A `CameraSceneNode`, reduced to the translation of its absolute transform. -/
structure CameraSceneNode where
  origin : Vec3
  deriving DecidableEq

/-- Modelled from the spec: `SceneNode::getSquareDistanceTo(other)` is not part
of the source tree; it is the squared distance between the origins of the two
nodes. -/
def LightSceneNode.getSquareDistanceTo (light : LightSceneNode) (camera : CameraSceneNode) : ℚ :=
  Vec3.distance2 light.origin camera.origin

/-- Modelled from the spec: `LightSceneNode::setActive` is not part of the
source tree; it stores the flag in the node. -/
def LightSceneNode.setActive (light : LightSceneNode) (active : Bool) : LightSceneNode :=
  { light with active := active }

/-- Face of a walkmesh, as returned by a raycast. -/
structure Face where
  material : Nat
  normal : Vec3
  deriving DecidableEq

/-- Walkmesh asset. Its class is not part of the source tree; `raycast surfaces
origin dir maxDistance` is the call `raycast(surfaces, origin, dir, maxDistance,
outDistance)`: the face that was hit and the distance of the hit, or nothing. -/
structure Walkmesh where
  isAreaWalkmesh : Bool
  raycast : List Nat → Vec3 → Vec3 → ℚ → Option (Face × ℚ)

/-- A `WalkmeshSceneNode`; `user` is the owner pointer (`IUser *`), `id` stands
for the address of the node. -/
structure WalkmeshSceneNode where
  enabled : Bool
  user : Option Nat
  walkmesh : Walkmesh
  absoluteTransform : Mat4
  absoluteTransformInverse : Mat4
  id : Nat := 0

namespace WalkmeshSceneNode

/-- Modelled from the spec: `SceneNode::getOrigin()` is not part of the source
tree; it is the translation column of the absolute transform. -/
def getOrigin (root : WalkmeshSceneNode) : Vec3 := Vec4.toVec3 root.absoluteTransform.c3

/-- Modelled from the spec: `SceneNode::getSquareDistanceTo(point)` is not part
of the source tree; it is the squared distance from the node origin. -/
def getSquareDistanceTo (root : WalkmeshSceneNode) (point : Vec3) : ℚ :=
  Vec3.distance2 root.getOrigin point

/-- Modelled from the spec: `SceneNode::getSquareDistanceTo2D(point)` is not part
of the source tree; it is the squared planar distance from the node origin. -/
def getSquareDistanceTo2D (root : WalkmeshSceneNode) (point : Vec2) : ℚ :=
  Vec2.distance2 ⟨root.getOrigin.x, root.getOrigin.y⟩ point

end WalkmeshSceneNode

/-- A `GrassSceneNode` root with its children. -/
structure GrassSceneNode where
  id : Nat
  enabled : Bool
  children : List SceneNode
  deriving DecidableEq

/-- A `TriggerSceneNode` root. -/
structure TriggerSceneNode where
  id : Nat
  deriving DecidableEq

/-- A `SoundSceneNode` root: `origin` stands for the translation of its
absolute transform. -/
structure SoundSceneNode where
  id : Nat
  enabled : Bool
  origin : Vec3
  maxDistance : ℚ
  priority : Int
  audible : Bool
  deriving DecidableEq

/-- Modelled from the spec: `SceneNode::getSquareDistanceTo(point)` is not part
of the source tree; it is the squared distance from the node origin. -/
def SoundSceneNode.getSquareDistanceTo (root : SoundSceneNode) (point : Vec3) : ℚ :=
  Vec3.distance2 root.origin point

/-- Modelled from the spec: `SceneNode::getSquareDistanceTo(other)` is not part
of the source tree; it is the squared distance between the origins of the two
nodes. -/
def ModelSceneNode.getSquareDistanceTo (root : ModelSceneNode) (camera : CameraSceneNode) : ℚ :=
  Vec3.distance2 root.origin camera.origin

/-- Result of a collision query (`Collision`). -/
structure Collision where
  user : Option Nat
  intersection : Vec3
  normal : Vec3
  material : Nat
  deriving DecidableEq

/-- Length of a vector, `glm::length`, over a square-root function. -/
def Vec3.length (sqrt : ℚ → ℚ) (v : Vec3) : ℚ := sqrt (Vec3.dot v v)

/-- Normalised vector, `glm::normalize`: `v * inversesqrt(dot(v, v))`. -/
def Vec3.normalize (sqrt : ℚ → ℚ) (v : Vec3) : Vec3 := Vec3.smul (1 / sqrt (Vec3.dot v v)) v

/-! ## SceneGraph -/

/-- Constant `kMaxFlareLights`. -/
def kMaxFlareLights : Nat := 4

/-- Constant `kMaxSoundCount`. -/
def kMaxSoundCount : Nat := 4

/-- Constant `kLightRadiusBias`. -/
def kLightRadiusBias : ℚ := 64

/-- Constant `kLightRadiusBias2`. -/
def kLightRadiusBias2 : ℚ := kLightRadiusBias * kLightRadiusBias

/-- Constant `kShadowFadeSpeed`. -/
def kShadowFadeSpeed : ℚ := 2

/-- Constant `kElevationTestZ`. -/
def kElevationTestZ : ℚ := 1024

/-- Constant `kMaxCollisionDistanceWalk`. -/
def kMaxCollisionDistanceWalk : ℚ := 8

/-- Constant `kMaxCollisionDistanceWalk2`. -/
def kMaxCollisionDistanceWalk2 : ℚ := kMaxCollisionDistanceWalk * kMaxCollisionDistanceWalk

/-- The value `numeric_limits<float>::max()`, `(2 - 2^-23) * 2^127`. -/
def floatMax : ℚ := (2 ^ 24 - 1) * 2 ^ 104

/-- The members of `SceneGraph` read or written by the embedded functions.
The root sets (`_modelRoots`, `_walkmeshRoots`, ...) are listed in their
iteration order, `_lights`, the three mesh lists and `_emitters` are the lists
collected by `refresh`, `_shadowLight` holds the `id` of the shadow light. A
leaf bucket is the `id` of its parent node (`none` for a null pointer) with its
leafs. -/
structure SceneGraph where
  _walkmeshRoots : List WalkmeshSceneNode
  _lights : List LightSceneNode
  _activeCamera : Option CameraSceneNode
  _shadowLight : Option Nat
  _shadowActive : Bool
  _shadowStrength : ℚ
  _walkableSurfaces : List Nat
  _walkcheckSurfaces : List Nat
  _lineOfSightSurfaces : List Nat
  _modelRoots : List ModelSceneNode := []
  _triggerRoots : List TriggerSceneNode := []
  _grassRoots : List GrassSceneNode := []
  _soundRoots : List SoundSceneNode := []
  _activeLights : List LightSceneNode := []
  _flareLights : List LightSceneNode := []
  _transparentMeshes : List MeshSceneNode := []
  _opaqueMeshes : List MeshSceneNode := []
  _shadowMeshes : List MeshSceneNode := []
  _emitters : List EmitterSceneNode := []
  _opaqueLeafs : List (Nat × List SceneNode) := []
  _transparentLeafs : List (Option Nat × List SceneNode) := []
  _updateRoots : Bool := true

namespace SceneGraph

/-- The comparator of the sort in `computeClosestLights`: directional lights
first, then by ascending squared distance. -/
def lightLess (a b : LightSceneNode × ℚ) : Bool :=
  let aLight := a.1
  let bLight := b.1
  if aLight.isDirectional && !bLight.isDirectional then true
  else if !aLight.isDirectional && bLight.isDirectional then false
  else
    let aDistance := a.2
    let bDistance := b.2
    decide (aDistance < bDistance)

/-- The order handed to the sort: `a` may stand before `b` when `b` is not less
than `a`. -/
def lightLe (a b : LightSceneNode × ℚ) : Prop := lightLess b a = false

instance : DecidableRel lightLe := fun a b => inferInstanceAs (Decidable (lightLess b a = false))

/-- The member `computeClosestLights(count, pred)`, for the camera node that
`_activeCamera` points to. The call of `std::sort` is an insertion sort that
keeps lights of equal rank in their order of collection (the source leaves
their order open). -/
def computeClosestLights (g : SceneGraph) (camera : CameraSceneNode) (count : Nat)
    (pred : LightSceneNode → ℚ → Bool) : List LightSceneNode :=
  let distances :=
    g._lights.filterMap (fun light =>
      let distance2 := light.getSquareDistanceTo camera
      if !pred light distance2 then none else some (light, distance2))
  let distances := distances.insertionSort lightLe
  let distances := if distances.length > count then distances.take count else distances
  distances.map (fun light => light.1)

/-- The predicate that `updateShadowLight` hands to `computeClosestLights`. -/
def shadowPred (light : LightSceneNode) (distance2 : ℚ) : Bool :=
  if !light.light.shadow then false
  else
    let radius := light.radius
    decide (distance2 < radius * radius)

/-- The member `updateShadowLight(dt)`, for the camera node that `_activeCamera`
points to. -/
def updateShadowLight (g : SceneGraph) (camera : CameraSceneNode) (dt : ℚ) : SceneGraph :=
  let closestLights := computeClosestLights g camera 1 shadowPred
  let g :=
    match g._shadowLight with
    | some shadowLight =>
      let g :=
        if closestLights.isEmpty || some shadowLight != closestLights.head?.map (fun (l : LightSceneNode) => l.id)
        then { g with _shadowActive := false }
        else g
      if g._shadowActive then
        { g with _shadowStrength := min 1 (g._shadowStrength + kShadowFadeSpeed * dt) }
      else
        let g := { g with _shadowStrength := max 0 (g._shadowStrength - kShadowFadeSpeed * dt) }
        if g._shadowStrength = 0 then { g with _shadowLight := none } else g
    | none => g
  match g._shadowLight, closestLights.head? with
  | none, some front => { g with _shadowLight := some front.id, _shadowActive := true }
  | _, _ => g

/-- One frame of shadow-light selection: the light list collected by `refresh`
and the camera of the frame are put in place, then `updateShadowLight(dt)` runs. -/
def shadowFrame (g : SceneGraph) (frame : List LightSceneNode × CameraSceneNode × ℚ) :
    SceneGraph :=
  updateShadowLight { g with _lights := frame.1, _activeCamera := some frame.2.1 } frame.2.1
    frame.2.2

/-- A sequence of frames of shadow-light selection. -/
def shadowFrames (g : SceneGraph) (frames : List (List LightSceneNode × CameraSceneNode × ℚ)) :
    SceneGraph :=
  frames.foldl shadowFrame g

/-- The collision written to `outCollision` for a hit of `root` at `distance`
along the ray from `origin` in direction `dir`. -/
def collisionAt (root : WalkmeshSceneNode) (face : Face) (origin dir : Vec3) (distance : ℚ) :
    Collision :=
  { user := root.user
    intersection := Vec3.add origin (Vec3.smul distance dir)
    normal := Vec4.toVec3 (Mat4.mulVec root.absoluteTransform (Vec4.ofVec3 face.normal 0))
    material := face.material }

/-- The loop of `testElevation` over the walkmesh roots still to be visited. -/
def testElevationLoop (g : SceneGraph) (position : Vec2) (outCollision : Collision) :
    List WalkmeshSceneNode → Bool × Collision
  | [] => (false, outCollision)
  | root :: rest =>
    let down : Vec3 := ⟨0, 0, -1⟩
    let origin : Vec3 := ⟨position.x, position.y, kElevationTestZ⟩
    if !root.enabled then testElevationLoop g position outCollision rest
    else if !root.walkmesh.isAreaWalkmesh &&
        decide (root.getSquareDistanceTo2D position > kMaxCollisionDistanceWalk2) then
      testElevationLoop g position outCollision rest
    else
      let objSpaceOrigin :=
        Vec4.toVec3 (Mat4.mulVec root.absoluteTransformInverse (Vec4.ofVec3 origin 1))
      match root.walkmesh.raycast g._walkcheckSurfaces objSpaceOrigin down
          (2 * kElevationTestZ) with
      | some (face, distance) =>
        if !g._walkableSurfaces.contains face.material then (false, outCollision)
        else (true, collisionAt root face origin down distance)
      | none => testElevationLoop g position outCollision rest

/-- The member `testElevation(position, outCollision)`: the returned flag and
the value of `outCollision` after the call. -/
def testElevation (g : SceneGraph) (position : Vec2) (outCollision : Collision) :
    Bool × Collision :=
  testElevationLoop g position outCollision g._walkmeshRoots

/-- The loop of `testWalk`: `st` holds `outCollision` and `minDistance`. -/
def testWalkLoop (g : SceneGraph) (origin dir : Vec3) (maxDistance : ℚ)
    (excludeUser : Option Nat) : List WalkmeshSceneNode → Collision × ℚ → Collision × ℚ
  | [], st => st
  | root :: rest, st =>
    if !root.enabled || root.user == excludeUser then
      testWalkLoop g origin dir maxDistance excludeUser rest st
    else if !root.walkmesh.isAreaWalkmesh &&
        decide (root.getSquareDistanceTo origin > kMaxCollisionDistanceWalk2) then
      testWalkLoop g origin dir maxDistance excludeUser rest st
    else
      let objSpaceOrigin :=
        Vec4.toVec3 (Mat4.mulVec root.absoluteTransformInverse (Vec4.ofVec3 origin 1))
      let objSpaceDir :=
        Vec4.toVec3 (Mat4.mulVec root.absoluteTransformInverse (Vec4.ofVec3 dir 0))
      match root.walkmesh.raycast g._walkcheckSurfaces objSpaceOrigin objSpaceDir
          kMaxCollisionDistanceWalk with
      | none => testWalkLoop g origin dir maxDistance excludeUser rest st
      | some (face, distance) =>
        if distance > maxDistance || distance > st.2 then
          testWalkLoop g origin dir maxDistance excludeUser rest st
        else
          testWalkLoop g origin dir maxDistance excludeUser rest
            (collisionAt root face origin dir distance, distance)

/-- The member `testWalk(origin, dest, excludeUser, outCollision)`: the returned
flag and the value of `outCollision` after the call. -/
def testWalk (sqrt : ℚ → ℚ) (g : SceneGraph) (origin dest : Vec3) (excludeUser : Option Nat)
    (outCollision : Collision) : Bool × Collision :=
  let originToDest := Vec3.sub dest origin
  let dir := Vec3.normalize sqrt originToDest
  let maxDistance := Vec3.length sqrt originToDest
  let minDistance := floatMax
  let st := testWalkLoop g origin dir maxDistance excludeUser g._walkmeshRoots
    (outCollision, minDistance)
  (decide (st.2 ≠ floatMax), st.1)

/-- The qualifying hit that one walkmesh root contributes to `testWalk`, if any:
the root is enabled, not owned by `excludeUser`, passes the distance pre-filter
and its raycast finds a face no farther than the segment length. -/
def walkHit (g : SceneGraph) (origin dir : Vec3) (maxDistance : ℚ) (excludeUser : Option Nat)
    (root : WalkmeshSceneNode) : Option (Collision × ℚ) :=
  if root.enabled && root.user != excludeUser && (root.walkmesh.isAreaWalkmesh ||
      decide (root.getSquareDistanceTo origin ≤ kMaxCollisionDistanceWalk2)) then
    ((root.walkmesh.raycast g._walkcheckSurfaces
      (Vec4.toVec3 (Mat4.mulVec root.absoluteTransformInverse (Vec4.ofVec3 origin 1)))
      (Vec4.toVec3 (Mat4.mulVec root.absoluteTransformInverse (Vec4.ofVec3 dir 0)))
      kMaxCollisionDistanceWalk).filter (fun hit => decide (hit.2 ≤ maxDistance))).map
      (fun hit => (collisionAt root hit.1 origin dir hit.2, hit.2))
  else none

/-- Keeping the nearest hit: a hit replaces the one held unless it is farther. -/
def keepNearest (st : Collision × ℚ) (hit : Collision × ℚ) : Collision × ℚ :=
  if hit.2 > st.2 then st else hit

/-- The shape shared by `testLineOfSight` and `testWalk`: the nearest of the hits
of the roots is kept, starting from the largest float, and the flag tells
whether the distance held at the end differs from it. -/
def nearestQuery (hitOf : WalkmeshSceneNode → Option (Collision × ℚ)) (outCollision : Collision)
    (roots : List WalkmeshSceneNode) : Bool × Collision :=
  (decide (((roots.filterMap hitOf).foldl keepNearest (outCollision, floatMax)).2 ≠ floatMax),
    ((roots.filterMap hitOf).foldl keepNearest (outCollision, floatMax)).1)

/-- The overload `addRoot(shared_ptr<ModelSceneNode>)`: insertion into the set of
model roots, which holds a node once. -/
def addRootModel (g : SceneGraph) (node : ModelSceneNode) : SceneGraph :=
  if g._modelRoots.any (fun r => r.id == node.id) then g
  else { g with _modelRoots := g._modelRoots ++ [node] }

/-- The overload `addRoot(shared_ptr<WalkmeshSceneNode>)`. -/
def addRootWalkmesh (g : SceneGraph) (node : WalkmeshSceneNode) : SceneGraph :=
  if g._walkmeshRoots.any (fun r => r.id == node.id) then g
  else { g with _walkmeshRoots := g._walkmeshRoots ++ [node] }

/-- The overload `addRoot(shared_ptr<TriggerSceneNode>)`. -/
def addRootTrigger (g : SceneGraph) (node : TriggerSceneNode) : SceneGraph :=
  if g._triggerRoots.any (fun r => r.id == node.id) then g
  else { g with _triggerRoots := g._triggerRoots ++ [node] }

/-- The overload `addRoot(shared_ptr<GrassSceneNode>)`. -/
def addRootGrass (g : SceneGraph) (node : GrassSceneNode) : SceneGraph :=
  if g._grassRoots.any (fun r => r.id == node.id) then g
  else { g with _grassRoots := g._grassRoots ++ [node] }

/-- The overload `addRoot(shared_ptr<SoundSceneNode>)`. -/
def addRootSound (g : SceneGraph) (node : SoundSceneNode) : SceneGraph :=
  if g._soundRoots.any (fun r => r.id == node.id) then g
  else { g with _soundRoots := g._soundRoots ++ [node] }

/-- The overload `removeRoot(const shared_ptr<ModelSceneNode> &)`, for the node
with address `node`: the active lights of the model are erased, then the model
is erased from the model roots. -/
def removeRootModel (g : SceneGraph) (node : Nat) : SceneGraph :=
  { g with
    _activeLights := g._activeLights.filter (fun light => !(light.model == node))
    _modelRoots := g._modelRoots.filter (fun r => !(r.id == node)) }

/-- The overload `removeRoot(const shared_ptr<WalkmeshSceneNode> &)`. -/
def removeRootWalkmesh (g : SceneGraph) (node : Nat) : SceneGraph :=
  { g with _walkmeshRoots := g._walkmeshRoots.filter (fun r => !(r.id == node)) }

/-- The overload `removeRoot(const shared_ptr<TriggerSceneNode> &)`. -/
def removeRootTrigger (g : SceneGraph) (node : Nat) : SceneGraph :=
  { g with _triggerRoots := g._triggerRoots.filter (fun r => !(r.id == node)) }

/-- The overload `removeRoot(const shared_ptr<GrassSceneNode> &)`. -/
def removeRootGrass (g : SceneGraph) (node : Nat) : SceneGraph :=
  { g with _grassRoots := g._grassRoots.filter (fun r => !(r.id == node)) }

/-- The overload `removeRoot(const shared_ptr<SoundSceneNode> &)`. -/
def removeRootSound (g : SceneGraph) (node : Nat) : SceneGraph :=
  { g with _soundRoots := g._soundRoots.filter (fun r => !(r.id == node)) }

/-- The member `clear()`. -/
def clear (g : SceneGraph) : SceneGraph :=
  { g with
    _modelRoots := []
    _walkmeshRoots := []
    _soundRoots := []
    _grassRoots := []
    _activeLights := [] }

/-- The member `cullRoots()`, for the camera node that `_activeCamera` points
to; `isInFrustum` is the frustum test `_activeCamera->isInFrustum(*root)`, whose
code is not part of the source tree. -/
def cullRoots (g : SceneGraph) (camera : CameraSceneNode) (isInFrustum : ModelSceneNode → Bool) :
    SceneGraph :=
  { g with
    _modelRoots := g._modelRoots.map (fun root =>
      let culled :=
        !root.enabled ||
        decide (root.getSquareDistanceTo camera > root.drawDistance * root.drawDistance) ||
        (root.cullable && !isInFrustum root)
      { root with culled := culled }) }

/-! ### Lighting -/

/-- The predicate that `updateLighting` hands to `computeClosestLights`. -/
def lightingPred (light : LightSceneNode) (distance2 : ℚ) : Bool :=
  let radius2 := light.radius * light.radius
  decide (distance2 < radius2 * radius2 + kLightRadiusBias2)

/-- The predicate that `updateFlareLights` hands to `computeClosestLights`. -/
def flarePred (light : LightSceneNode) (distance2 : ℚ) : Bool :=
  if light.light.flares.isEmpty then false
  else
    let radius := light.light.flareRadius
    decide (distance2 < radius * radius)

/-- The call `light->setActive(active)` for the node with address `id`: every
list that points to the node sees the new flag. -/
def setLightActive (g : SceneGraph) (id : Nat) (active : Bool) : SceneGraph :=
  { g with
    _lights := g._lights.map (fun l => if l.id = id then l.setActive active else l)
    _activeLights := g._activeLights.map (fun l => if l.id = id then l.setActive active else l)
    _flareLights := g._flareLights.map (fun l => if l.id = id then l.setActive active else l) }

/-- Insertion into the `std::set<LightSceneNode *>` named `lookup`: the set is
kept in ascending order of addresses and holds a pointer once. -/
def lookupInsert (lookup : List LightSceneNode) (light : LightSceneNode) : List LightSceneNode :=
  if lookup.any (fun l => l.id == light.id) then lookup
  else lookup.orderedInsert (fun a b => a.id ≤ b.id) light

/-- The second loop of `updateLighting`, over the active lights still to be
visited: a light that is not in `lookup` is de-activated, a light that is in it
is erased from it. -/
def deactivateLoop : List LightSceneNode → SceneGraph × List LightSceneNode →
    SceneGraph × List LightSceneNode
  | [], st => st
  | light :: rest, (g, lookup) =>
    if !lookup.any (fun l => l.id == light.id) then
      deactivateLoop rest (setLightActive g light.id false, lookup)
    else deactivateLoop rest (g, lookup.filter (fun l => !(l.id == light.id)))

/-- The addresses of the lights that the de-activation loop of `updateLighting`
de-activates, for the active lights still to be visited and the current
`lookup`. -/
def deactivatedIds : List LightSceneNode → List LightSceneNode → List Nat
  | [], _ => []
  | light :: rest, lookup =>
    if !lookup.any (fun l => l.id == light.id) then light.id :: deactivatedIds rest lookup
    else deactivatedIds rest (lookup.filter (fun l => !(l.id == light.id)))

/-- A light node after the lights with the addresses `ids` were de-activated. -/
def deactivated (ids : List Nat) (light : LightSceneNode) : LightSceneNode :=
  if light.id ∈ ids then light.setActive false else light

/-- The last loop of `updateLighting`, over the lights left in `lookup`: it
stops at the first light that finds the active list full. -/
def activateLoop (kMaxLights : Nat) : List LightSceneNode → SceneGraph → SceneGraph
  | [], g => g
  | light :: rest, g =>
    if g._activeLights.length ≥ kMaxLights then g
    else
      let g := setLightActive g light.id true
      activateLoop kMaxLights rest
        { g with _activeLights := g._activeLights ++ [light.setActive true] }

/-- The member `updateLighting()`, for the camera node that `_activeCamera`
points to. The constant `kMaxLights` is not part of the source tree and is a
parameter. -/
def updateLighting (kMaxLights : Nat) (g : SceneGraph) (camera : CameraSceneNode) : SceneGraph :=
  let closestLights := computeClosestLights g camera kMaxLights lightingPred
  let lookup := closestLights.foldl lookupInsert []
  let (g, lookup) := deactivateLoop g._activeLights (g, lookup)
  let g :=
    { g with
      _activeLights := g._activeLights.filter (fun light =>
        !((!light.active && decide (light.strength = 0)) || !light.modelEnabled)) }
  activateLoop kMaxLights lookup g

/-- The member `updateFlareLights()`, for the camera node that `_activeCamera`
points to. -/
def updateFlareLights (g : SceneGraph) (camera : CameraSceneNode) : SceneGraph :=
  { g with _flareLights := computeClosestLights g camera kMaxFlareLights flarePred }

/-- The order of the claim about `computeClosestLights`: light `a` ranks no later
than light `b` for a camera when `a` is directional if `b` is, and, the two
being of the same kind, `a` is no farther from the camera than `b`. -/
def RanksNoLater (camera : CameraSceneNode) (a b : LightSceneNode) : Prop :=
  (b.isDirectional = true → a.isDirectional = true) ∧
    (a.isDirectional = b.isDirectional →
      a.getSquareDistanceTo camera ≤ b.getSquareDistanceTo camera)

/-! ### Leaf buckets -/

/-- A list split, in order, into consecutive pieces of `k` elements, the last
one possibly shorter; nothing for the empty list (and for `k = 0`). -/
def chunks {α : Type} (k : Nat) (l : List α) : List (List α) :=
  if _h : l.isEmpty = true ∨ k = 0 then [] else l.take k :: chunks k (l.drop k)
termination_by l.length
decreasing_by
  simp only [not_or, List.isEmpty_iff] at _h
  have hl : 0 < l.length := List.length_pos.mpr _h.1
  simp only [List.length_drop]
  omega

/-- The grass clusters of a grass root that `prepareOpaqueLeafs` draws: its
children of type `GrassCluster` whose origin is inside the frustum. -/
def visibleClusters (isInFrustum : Vec3 → Bool) (grass : GrassSceneNode) : List SceneNode :=
  grass.children.filter (fun child =>
    child.type == SceneNodeType.GrassCluster && isInFrustum child.origin)


/-- The inner loop of `prepareOpaqueLeafs` over the children of one grass root
still to be visited: the state is `_opaqueLeafs` and the bucket being filled. -/
def opaqueLeafsChildren (kMaxGrassClusters : Nat) (isInFrustum : Vec3 → Bool)
    (grass : GrassSceneNode) :
    List SceneNode → List (Nat × List SceneNode) × List SceneNode →
      List (Nat × List SceneNode) × List SceneNode
  | [], st => st
  | child :: rest, (opaqueLeafs, bucket) =>
    if child.type != SceneNodeType.GrassCluster then
      opaqueLeafsChildren kMaxGrassClusters isInFrustum grass rest (opaqueLeafs, bucket)
    else if !isInFrustum child.origin then
      opaqueLeafsChildren kMaxGrassClusters isInFrustum grass rest (opaqueLeafs, bucket)
    else if bucket.length ≥ kMaxGrassClusters then
      opaqueLeafsChildren kMaxGrassClusters isInFrustum grass rest
        (opaqueLeafs ++ [(grass.id, bucket)], [child])
    else
      opaqueLeafsChildren kMaxGrassClusters isInFrustum grass rest
        (opaqueLeafs, bucket ++ [child])

/-- The outer loop of `prepareOpaqueLeafs` over the grass roots still to be
visited. -/
def opaqueLeafsRoots (kMaxGrassClusters : Nat) (isInFrustum : Vec3 → Bool) :
    List GrassSceneNode → List (Nat × List SceneNode) × List SceneNode →
      List (Nat × List SceneNode) × List SceneNode
  | [], st => st
  | grass :: rest, st =>
    if !grass.enabled then opaqueLeafsRoots kMaxGrassClusters isInFrustum rest st
    else
      let st := opaqueLeafsChildren kMaxGrassClusters isInFrustum grass grass.children st
      if !st.2.isEmpty then
        opaqueLeafsRoots kMaxGrassClusters isInFrustum rest (st.1 ++ [(grass.id, st.2)], [])
      else opaqueLeafsRoots kMaxGrassClusters isInFrustum rest st

/-- The member `prepareOpaqueLeafs()`; `isInFrustum` is the frustum test of the
camera of `_activeCamera` on a point. The constant `kMaxGrassClusters` and the
frustum test are not part of the source tree and are parameters. -/
def prepareOpaqueLeafs (kMaxGrassClusters : Nat) (g : SceneGraph) (isInFrustum : Vec3 → Bool) :
    SceneGraph :=
  { g with _opaqueLeafs := (opaqueLeafsRoots kMaxGrassClusters isInFrustum g._grassRoots ([], [])).1 }

/-- The leafs collected by the first part of `prepareTransparentLeafs`: the
transparent meshes, then the particles of each emitter that are in the frustum. -/
def transparentLeafList (g : SceneGraph) (isInFrustum : Vec3 → Bool) : List SceneNode :=
  g._transparentMeshes.map MeshSceneNode.toSceneNode ++
    g._emitters.flatMap (fun emitter =>
      emitter.children.filter (fun child =>
        !(child.type != SceneNodeType.Particle) && !(!isInFrustum child.origin)))

/-- The parent that `prepareTransparentLeafs` groups a leaf by: the model of a
mesh, the parent node of any other leaf. -/
def leafParent (leaf : SceneNode) : Nat :=
  if leaf.type == SceneNodeType.Mesh then leaf.model else leaf.parent

/-- The bucket limit that `prepareTransparentLeafs` takes from the type of a parent. -/
def leafMaxCount (kMaxParticles kMaxGrassClusters : Nat) (parentType : SceneNodeType) : Nat :=
  if parentType == SceneNodeType.Emitter then kMaxParticles
  else if parentType == SceneNodeType.Grass then kMaxGrassClusters
  else 1

/-- The grouping loop of `prepareTransparentLeafs` over the leafs still to be
visited: the state is `_transparentLeafs`, `bucketParent` and the bucket being
filled; `typeOf` gives the type tag of the node at an address. -/
def transparentLeafsLoop (kMaxParticles kMaxGrassClusters : Nat) (typeOf : Nat → SceneNodeType) :
    List SceneNode → List (Option Nat × List SceneNode) × Option Nat × List SceneNode →
      List (Option Nat × List SceneNode) × Option Nat × List SceneNode
  | [], st => st
  | leaf :: rest, (transparentLeafs, bucketParent, bucket) =>
    let parent := leafParent leaf
    if !bucket.isEmpty &&
        (bucketParent != some parent ||
          decide (bucket.length ≥ leafMaxCount kMaxParticles kMaxGrassClusters (typeOf parent)))
    then
      transparentLeafsLoop kMaxParticles kMaxGrassClusters typeOf rest
        (transparentLeafs ++ [(bucketParent, bucket)], some parent, [leaf])
    else
      transparentLeafsLoop kMaxParticles kMaxGrassClusters typeOf rest
        (transparentLeafs, some parent, bucket ++ [leaf])

/-- The member `prepareTransparentLeafs()`. The constants `kMaxParticles` and
`kMaxGrassClusters`, the frustum test and the type tags of the parents are not
part of the source tree and are parameters. -/
def prepareTransparentLeafs (kMaxParticles kMaxGrassClusters : Nat) (g : SceneGraph)
    (isInFrustum : Vec3 → Bool) (typeOf : Nat → SceneNodeType) : SceneGraph :=
  let leafs := transparentLeafList g isInFrustum
  let st := transparentLeafsLoop kMaxParticles kMaxGrassClusters typeOf leafs ([], none, [])
  if st.2.1.isSome && !st.2.2.isEmpty then
    { g with _transparentLeafs := st.1 ++ [(st.2.1, st.2.2)] }
  else { g with _transparentLeafs := st.1 }

/-- The comparator of the sort in `updateSounds`: lower priority value first,
then by ascending squared distance. -/
def soundLess (left right : SoundSceneNode × ℚ) : Bool :=
  let leftPriority := left.1.priority
  let rightPriority := right.1.priority
  if leftPriority < rightPriority then true
  else if leftPriority > rightPriority then false
  else decide (left.2 < right.2)

/-- The order handed to the sort: `a` may stand before `b` when `b` is not less
than `a`. -/
def soundLe (a b : SoundSceneNode × ℚ) : Prop := soundLess b a = false

instance : DecidableRel soundLe := fun a b => inferInstanceAs (Decidable (soundLess b a = false))

/-- The candidates that the first loop of `updateSounds` collects, with their
squared distance to the camera, in the order of the roots. -/
def soundCandidates (roots : List SoundSceneNode) (cameraPos : Vec3) :
    List (SoundSceneNode × ℚ) :=
  roots.filterMap (fun root =>
    if !root.enabled then none
    else
      let dist2 := root.getSquareDistanceTo cameraPos
      let maxDist2 := root.maxDistance * root.maxDistance
      if dist2 > maxDist2 then none else some (root, dist2))

/-- The call `root->setAudible(audible)` for the node with address `id`. -/
def setSoundAudible (roots : List SoundSceneNode) (id : Nat) (audible : Bool) :
    List SoundSceneNode :=
  roots.map (fun r => if r.id = id then { r with audible := audible } else r)

/-- The vector `distances` of `updateSounds` after the sort and the `erase` of
everything behind the first `kMaxSoundCount` entries. The call of `std::sort`
is an insertion sort that keeps candidates of equal rank in their order of
collection. -/
def soundSelection (roots : List SoundSceneNode) (cameraPos : Vec3) :
    List (SoundSceneNode × ℚ) :=
  let distances := soundCandidates roots cameraPos
  let distances := distances.insertionSort soundLe
  if distances.length > kMaxSoundCount then distances.take kMaxSoundCount else distances

/-- The member `updateSounds()`; `cameraPos` is the translation column of the
local transform of `_activeCamera`. The call of `std::sort` is an insertion
sort that keeps candidates of equal rank in their order of collection. -/
def updateSounds (g : SceneGraph) (cameraPos : Vec3) : SceneGraph :=
  let roots := g._soundRoots.map (fun root => { root with audible := false })
  let distances := soundSelection roots cameraPos
  { g with
    _soundRoots := distances.foldl (fun roots pair => setSoundAudible roots pair.1.id true) roots }

/-! ### Sequences of calls -/

/-- A call on the scene graph: one of the `addRoot` and `removeRoot` overloads,
`clear` or `updateLighting`. An `updateLighting` call comes with the light list
that `refresh` has collected and the camera of its frame; `updateNodes` stands
for the light nodes running their own update between two calls. -/
inductive SceneOp where
  | addRootModel (node : ModelSceneNode)
  | addRootWalkmesh (node : WalkmeshSceneNode)
  | addRootTrigger (node : TriggerSceneNode)
  | addRootGrass (node : GrassSceneNode)
  | addRootSound (node : SoundSceneNode)
  | removeRootModel (node : Nat)
  | removeRootWalkmesh (node : Nat)
  | removeRootTrigger (node : Nat)
  | removeRootGrass (node : Nat)
  | removeRootSound (node : Nat)
  | clear
  | updateLighting (lights : List LightSceneNode) (camera : CameraSceneNode)
  | updateNodes (f : LightSceneNode → LightSceneNode)

/-- The effect of one call. -/
def applyOp (kMaxLights : Nat) (g : SceneGraph) : SceneOp → SceneGraph
  | .addRootModel node => addRootModel g node
  | .addRootWalkmesh node => addRootWalkmesh g node
  | .addRootTrigger node => addRootTrigger g node
  | .addRootGrass node => addRootGrass g node
  | .addRootSound node => addRootSound g node
  | .removeRootModel node => removeRootModel g node
  | .removeRootWalkmesh node => removeRootWalkmesh g node
  | .removeRootTrigger node => removeRootTrigger g node
  | .removeRootGrass node => removeRootGrass g node
  | .removeRootSound node => removeRootSound g node
  | .clear => clear g
  | .updateLighting lights camera =>
    updateLighting kMaxLights { g with _lights := lights, _activeCamera := some camera } camera
  | .updateNodes f => { g with _activeLights := g._activeLights.map f }

/-- The effect of a sequence of calls. -/
def applyOps (kMaxLights : Nat) (g : SceneGraph) (ops : List SceneOp) : SceneGraph :=
  ops.foldl (applyOp kMaxLights) g

/-! ### Refresh and the frame update -/

mutual

/-- The member `refreshFromNode(node)`. -/
def refreshFromNode : SceneTree → SceneGraph → SceneGraph
  | .mk data children, g =>
    let propagate := true
    let (g, propagate) :=
      match data with
      | .model culled => (g, if culled then false else propagate)
      | .mesh modelNode =>
        let g :=
          if modelNode.shouldRender then
            if modelNode.isTransparent then
              { g with _transparentMeshes := g._transparentMeshes ++ [modelNode] }
            else { g with _opaqueMeshes := g._opaqueMeshes ++ [modelNode] }
          else g
        let g :=
          if modelNode.shouldCastShadows then
            { g with _shadowMeshes := g._shadowMeshes ++ [modelNode] }
          else g
        (g, propagate)
      | .light light => ({ g with _lights := g._lights ++ [light] }, propagate)
      | .emitter emitter => ({ g with _emitters := g._emitters ++ [emitter] }, propagate)
      | .other _ => (g, propagate)
    if propagate then refreshFromNodes children g else g

/-- The loop over `node->children()` in `refreshFromNode`. -/
def refreshFromNodes : List SceneTree → SceneGraph → SceneGraph
  | [], g => g
  | child :: rest, g => refreshFromNodes rest (refreshFromNode child g)

end

/-- A model root seen through a `SceneNode *`: its type tag is `Model`. -/
def rootTree (root : ModelSceneNode) : SceneTree := .mk (.model root.culled) root.children

/-- The member `refresh()`. -/
def refresh (g : SceneGraph) : SceneGraph :=
  let g :=
    { g with
      _opaqueMeshes := []
      _transparentMeshes := []
      _shadowMeshes := []
      _lights := []
      _emitters := [] }
  g._modelRoots.foldl (fun g root => refreshFromNode (rootTree root) g) g

mutual

/-- The nodes that a depth-first walk from a node reaches when it does not
descend below a culled model node, every node before its children. -/
def reached : SceneTree → List NodeData
  | .mk data children =>
    data :: (if data = NodeData.model true then [] else reachedOfList children)

/-- The nodes that the walk reaches from a list of nodes, node after node. -/
def reachedOfList : List SceneTree → List NodeData
  | [] => []
  | child :: rest => reached child ++ reachedOfList rest

end

/-- The mesh nodes among `nodes` that go to the opaque list. -/
def opaqueAmong (nodes : List NodeData) : List MeshSceneNode :=
  nodes.filterMap (fun data =>
    match data with
    | .mesh node => if node.shouldRender && !node.isTransparent then some node else none
    | _ => none)

/-- The mesh nodes among `nodes` that go to the transparent list. -/
def transparentAmong (nodes : List NodeData) : List MeshSceneNode :=
  nodes.filterMap (fun data =>
    match data with
    | .mesh node => if node.shouldRender && node.isTransparent then some node else none
    | _ => none)

/-- The mesh nodes among `nodes` that go to the shadow list. -/
def shadowAmong (nodes : List NodeData) : List MeshSceneNode :=
  nodes.filterMap (fun data =>
    match data with
    | .mesh node => if node.shouldCastShadows then some node else none
    | _ => none)

/-- The light nodes among `nodes`. -/
def lightsAmong (nodes : List NodeData) : List LightSceneNode :=
  nodes.filterMap (fun data =>
    match data with
    | .light node => some node
    | _ => none)

/-- The emitter nodes among `nodes`. -/
def emittersAmong (nodes : List NodeData) : List EmitterSceneNode :=
  nodes.filterMap (fun data =>
    match data with
    | .emitter node => some node
    | _ => none)

/-- The constants and the members of other classes that `SceneGraph::update`
relies on and that are not part of the source tree: the three limits, the
frustum tests of the camera, the translation of its local transform, the type
tag of the node at an address, and the `update(dt)` members of the nodes. -/
structure Externals where
  kMaxLights : Nat
  kMaxGrassClusters : Nat
  kMaxParticles : Nat
  isInFrustumModel : CameraSceneNode → ModelSceneNode → Bool
  isInFrustumPoint : CameraSceneNode → Vec3 → Bool
  cameraPos : CameraSceneNode → Vec3
  typeOf : Nat → SceneNodeType
  updateModel : ℚ → ModelSceneNode → ModelSceneNode
  updateGrass : ℚ → GrassSceneNode → GrassSceneNode
  updateSound : ℚ → SoundSceneNode → SoundSceneNode
  updateLight : ℚ → LightSceneNode → LightSceneNode

/-- The three loops of `update` that call `root->update(dt)`. The light nodes
below the model roots are updated with their roots; the entries of the light
lists stand for these nodes, so they follow (`updateLight`). -/
def updateRoots (X : Externals) (g : SceneGraph) (dt : ℚ) : SceneGraph :=
  { g with
    _modelRoots := g._modelRoots.map (X.updateModel dt)
    _grassRoots := g._grassRoots.map (X.updateGrass dt)
    _soundRoots := g._soundRoots.map (X.updateSound dt)
    _lights := g._lights.map (X.updateLight dt)
    _activeLights := g._activeLights.map (X.updateLight dt)
    _flareLights := g._flareLights.map (X.updateLight dt) }

/-- The member `update(dt)`. -/
def update (X : Externals) (g : SceneGraph) (dt : ℚ) : SceneGraph :=
  let g := if g._updateRoots then updateRoots X g dt else g
  match g._activeCamera with
  | none => g
  | some camera =>
    let g := cullRoots g camera (X.isInFrustumModel camera)
    let g := refresh g
    let g := updateLighting X.kMaxLights g camera
    let g := updateShadowLight g camera dt
    let g := updateFlareLights g camera
    let g := updateSounds g (X.cameraPos camera)
    let g := prepareOpaqueLeafs X.kMaxGrassClusters g (X.isInFrustumPoint camera)
    prepareTransparentLeafs X.kMaxParticles X.kMaxGrassClusters g (X.isInFrustumPoint camera)
      X.typeOf

/-- The per-frame lists that `update` recomputes without reading them: the
state with these lists emptied. -/
def forgetDerived (g : SceneGraph) : SceneGraph :=
  { g with
    _opaqueMeshes := []
    _transparentMeshes := []
    _shadowMeshes := []
    _lights := []
    _emitters := []
    _flareLights := []
    _opaqueLeafs := []
    _transparentLeafs := [] }

/-- The five lists of `refresh` after the nodes `nodes` were visited in order:
every list is extended by the visited nodes that belong in it. -/
def listed (nodes : List NodeData) (g : SceneGraph) : SceneGraph :=
  { g with
    _opaqueMeshes := g._opaqueMeshes ++ opaqueAmong nodes
    _transparentMeshes := g._transparentMeshes ++ transparentAmong nodes
    _shadowMeshes := g._shadowMeshes ++ shadowAmong nodes
    _lights := g._lights ++ lightsAmong nodes
    _emitters := g._emitters ++ emittersAmong nodes }

/-- The state with the lists emptied that are still to be recomputed after
`refresh`: the flare lights and the leaf buckets. -/
def forgetFlaresAndLeafs (g : SceneGraph) : SceneGraph :=
  { g with _flareLights := [], _opaqueLeafs := [], _transparentLeafs := [] }

/-- The state with the leaf buckets emptied. -/
def forgetLeafs (g : SceneGraph) : SceneGraph :=
  { g with _opaqueLeafs := [], _transparentLeafs := [] }

end SceneGraph

/-- Modelled from the spec: `Walkmesh::raycast` is not part of the source tree.
This is the walkmesh made of one horizontal face plane at `height`, tagged with
`material` and facing up: the raycast goes against the material-filtered face
set, so it hits when the material passes the filter and the ray meets the plane
at a distance between 0 and `maxDistance`. -/
def Walkmesh.flatFloor (isAreaWalkmesh : Bool) (height : ℚ) (material : Nat) : Walkmesh :=
  { isAreaWalkmesh := isAreaWalkmesh
    raycast := fun surfaces origin dir maxDistance =>
      if surfaces.contains material && decide (dir.z ≠ 0) then
        let distance := (height - origin.z) / dir.z
        if 0 ≤ distance ∧ distance ≤ maxDistance then some (⟨material, ⟨0, 0, 1⟩⟩, distance)
        else none
      else none }

/-! ## World pipeline: light-space matrices -/

/-- The value `numeric_limits<float>::min()`: the smallest positive normal
`float`, `2^-126`. -/
def floatMin : ℚ := 1 / 2 ^ 126

/-- The functions of glm that `world.cpp` calls and that are not part of the
source tree. -/
structure Glm where
  radians : ℚ → ℚ
  sqrt : ℚ → ℚ
  perspective : ℚ → ℚ → ℚ → ℚ → Mat4
  inverse : Mat4 → Mat4
  lookAt : Vec3 → Vec3 → Vec3 → Mat4
  ortho : ℚ → ℚ → ℚ → ℚ → ℚ → ℚ → Mat4

/-- A `PerspectiveCamera`, reduced to the accessors read by
`computeLightSpaceMatrices`. -/
structure PerspectiveCamera where
  position : Vec3
  fovy : ℚ
  aspect : ℚ
  zNear : ℚ
  zFar : ℚ
  view : Mat4
  deriving DecidableEq

/-- The scene as the pipeline sees it (`_scene`), reduced to the accessors read
by `computeLightSpaceMatrices`. -/
structure Scene where
  hasShadowLight : Bool
  isShadowLightDirectional : Bool
  shadowLightPosition : Vec3
  camera : PerspectiveCamera
  deriving DecidableEq

/-- The members of `WorldPipeline` read or written by
`computeLightSpaceMatrices`: `_shadowLightSpace i` is the array element
`_shadowLightSpace[i]`, `_shadowCascadeFarPlanes j k` is the component
`_shadowCascadeFarPlanes[j][k]`. -/
structure WorldPipeline where
  _scene : Scene
  _shadowLightSpace : Nat → Mat4
  _shadowCascadeFarPlanes : Nat → Nat → ℚ

/-- The bounds collected by `computeDirectionalLightSpaceMatrix`: the local
variables `minX .. maxZ`. -/
structure Bounds where
  minX : ℚ
  maxX : ℚ
  minY : ℚ
  maxY : ℚ
  minZ : ℚ
  maxZ : ℚ
  deriving DecidableEq

namespace WorldPipeline

/-- Constant `kPointLightShadowsFOV`, `glm::radians(90.0f)`. -/
def kPointLightShadowsFOV (glm : Glm) : ℚ := glm.radians 90

/-- Constant `kPointLightShadowsNearPlane`. -/
def kPointLightShadowsNearPlane : ℚ := 0.1

/-- Constant `kPointLightShadowsFarPlane`. -/
def kPointLightShadowsFarPlane : ℚ := 10000

/-- The table `g_shadowCascadeDivisors`: the `float` literals `0.005f` to
`0.635f`, each the decimal rounded by `fl`. -/
def g_shadowCascadeDivisors (fl : ℚ → ℚ) : List ℚ :=
  [fl 0.005, fl 0.015, fl 0.035, fl 0.075, fl 0.155, fl 0.315, fl 0.635]

/-- The function `computeFrustumCornersWorldSpace(projection, view)`. -/
def computeFrustumCornersWorldSpace (glm : Glm) (projection view : Mat4) : List Vec4 :=
  let inv := glm.inverse (Mat4.mul projection view)
  (List.range 2).flatMap (fun x =>
    (List.range 2).flatMap (fun y =>
      (List.range 2).map (fun z =>
        let pt := Mat4.mulVec inv ⟨2 * (x : ℚ) - 1, 2 * (y : ℚ) - 1, 2 * (z : ℚ) - 1, 1⟩
        (⟨pt.x / pt.w, pt.y / pt.w, pt.z / pt.w, pt.w / pt.w⟩ : Vec4))))

/-- One pass of the loop of `computeDirectionalLightSpaceMatrix` that collects
the bounds: the corner is taken to light space and each bound is updated. -/
def boundsStep (lightView : Mat4) (b : Bounds) (v : Vec4) : Bounds :=
  let trf := Mat4.mulVec lightView v
  { minX := min b.minX trf.x
    maxX := max b.maxX trf.x
    minY := min b.minY trf.y
    maxY := max b.maxY trf.y
    minZ := min b.minZ trf.z
    maxZ := max b.maxZ trf.z }

/-- The bounds that `computeDirectionalLightSpaceMatrix` collects over the
corners: the minima start at `numeric_limits<float>::max()`, the maxima at
`numeric_limits<float>::min()`. -/
def cornerBounds (lightView : Mat4) (corners : List Vec4) : Bounds :=
  corners.foldl (boundsStep lightView)
    { minX := floatMax, maxX := floatMin, minY := floatMax, maxY := floatMin,
      minZ := floatMax, maxZ := floatMin }

/-- The expansion of the Z range in `computeDirectionalLightSpaceMatrix`. -/
def expandZ (b : Bounds) : Bounds :=
  let zMult : ℚ := 10
  let b := if b.minZ < 0 then { b with minZ := b.minZ * zMult } else { b with minZ := b.minZ / zMult }
  if b.maxZ < 0 then { b with maxZ := b.maxZ / zMult } else { b with maxZ := b.maxZ * zMult }

/-- The function `computeDirectionalLightSpaceMatrix`. -/
def computeDirectionalLightSpaceMatrix (glm : Glm) (fov aspect near far : ℚ) (lightDir : Vec3)
    (cameraView : Mat4) : Mat4 :=
  let projection := glm.perspective fov aspect near far
  let corners := computeFrustumCornersWorldSpace glm projection cameraView
  let center := corners.foldl (fun center v => Vec3.add center (Vec4.toVec3 v)) ⟨0, 0, 0⟩
  let center : Vec3 :=
    ⟨center.x / corners.length, center.y / corners.length, center.z / corners.length⟩
  let lightView := glm.lookAt (Vec3.sub center lightDir) center ⟨0, 1, 0⟩
  let b := expandZ (cornerBounds lightView corners)
  let lightProjection := glm.ortho b.minX b.maxX b.minY b.maxY b.minZ b.maxZ
  Mat4.mul lightProjection lightView

/-- The function `getPointLightView(lightPos, face)`; `face` is the number of
the cube face. It throws for a number that is no face. -/
def getPointLightView (glm : Glm) (lightPos : Vec3) (face : Nat) : Except Error Mat4 :=
  match face with
  | 0 => .ok (glm.lookAt lightPos (Vec3.add lightPos ⟨1, 0, 0⟩) ⟨0, -1, 0⟩)
  | 1 => .ok (glm.lookAt lightPos (Vec3.add lightPos ⟨-1, 0, 0⟩) ⟨0, -1, 0⟩)
  | 2 => .ok (glm.lookAt lightPos (Vec3.add lightPos ⟨0, 1, 0⟩) ⟨0, 0, 1⟩)
  | 3 => .ok (glm.lookAt lightPos (Vec3.add lightPos ⟨0, -1, 0⟩) ⟨0, 0, -1⟩)
  | 4 => .ok (glm.lookAt lightPos (Vec3.add lightPos ⟨0, 0, 1⟩) ⟨0, -1, 0⟩)
  | 5 => .ok (glm.lookAt lightPos (Vec3.add lightPos ⟨0, 0, -1⟩) ⟨0, -1, 0⟩)
  | _ => .error (.invalid_argument "side is invalid")

/-- The near distance of cascade `i` in `computeLightSpaceMatrices`: the camera
near plane for the first cascade, the `float` product of the far plane and the
divisor before `i` for the others (`near = camera->zFar() *
g_shadowCascadeDivisors[i - 1]`, rounded by `fl`). An index outside the table
reads 0. -/
def cascadeNear (fl : ℚ → ℚ) (cameraNear cameraFar : ℚ) (i : Nat) : ℚ :=
  let near := cameraNear
  if i > 0 then fl (cameraFar * (g_shadowCascadeDivisors fl).getD (i - 1) 0) else near

/-- The far distance of cascade `i` in `computeLightSpaceMatrices`: the camera
far plane, and for every cascade but the last its `float` product with the
divisor at `i` (`far *= g_shadowCascadeDivisors[i]`, rounded by `fl`). An index
outside the table reads 0. -/
def cascadeFar (fl : ℚ → ℚ) (kNumShadowCascades : Nat) (cameraFar : ℚ) (i : Nat) : ℚ :=
  let far := cameraFar
  if i < kNumShadowCascades - 1 then fl (far * (g_shadowCascadeDivisors fl).getD i 0) else far

/-- One pass of the cascade loop of `computeLightSpaceMatrices`. -/
def cascadeStep (fl : ℚ → ℚ) (glm : Glm) (kNumShadowCascades : Nat) (lightDir : Vec3)
    (w : WorldPipeline) (i : Nat) : WorldPipeline :=
  let camera := w._scene.camera
  let near := cascadeNear fl camera.zNear camera.zFar i
  let far := cascadeFar fl kNumShadowCascades camera.zFar i
  { w with
    _shadowLightSpace := Function.update w._shadowLightSpace i
      (computeDirectionalLightSpaceMatrix glm camera.fovy camera.aspect near far lightDir
        camera.view)
    _shadowCascadeFarPlanes := Function.update w._shadowCascadeFarPlanes (i / 4)
      (Function.update (w._shadowCascadeFarPlanes (i / 4)) (i % 4) far) }

/-- The loop over the cube faces in `computeLightSpaceMatrices`, from face `i`
on: it stops at the first face for which `getPointLightView` throws. -/
def cubeFaceLoop (glm : Glm) (projection : Mat4) :
    List Nat → WorldPipeline → WorldPipeline × Except Error Unit
  | [], w => (w, .ok ())
  | i :: rest, w =>
    match getPointLightView glm w._scene.shadowLightPosition i with
    | .error e => (w, .error e)
    | .ok lightView =>
      cubeFaceLoop glm projection rest
        { w with
          _shadowLightSpace := Function.update w._shadowLightSpace i
            (Mat4.mul projection lightView) }

/-- The member `computeLightSpaceMatrices()`: the state after the call and its
outcome. The constants `kNumShadowCascades` and `kNumCubeFaces` are not part of
the source tree; `fl` is the rounding of the products of the cascade loop. -/
def computeLightSpaceMatrices (fl : ℚ → ℚ) (glm : Glm) (kNumShadowCascades kNumCubeFaces : Nat)
    (w : WorldPipeline) : WorldPipeline × Except Error Unit :=
  if !w._scene.hasShadowLight then (w, .ok ())
  else if w._scene.isShadowLightDirectional then
    let camera := w._scene.camera
    let lightDir := Vec3.normalize glm.sqrt (Vec3.sub camera.position w._scene.shadowLightPosition)
    ((List.range kNumShadowCascades).foldl (cascadeStep fl glm kNumShadowCascades lightDir) w,
      .ok ())
  else
    let projection := glm.perspective (kPointLightShadowsFOV glm) 1 kPointLightShadowsNearPlane
      kPointLightShadowsFarPlane
    cubeFaceLoop glm projection (List.range kNumCubeFaces) w

end WorldPipeline

/-! ## Example data -/

namespace Example

/-- A single animation node without keys or children. -/
def rootNode : ModelNode :=
  .mk "rootdummy" 0 ⟨0, 0, 0⟩ ⟨1, 0, 0, 0⟩ (fun _ => none) (fun _ _ => none) (fun _ => none) []

/-- A model scene node that knows the root node only. -/
def model : ModelSceneNode :=
  { getModelNode := fun name => if name = "rootdummy" then some ⟨rootNode⟩ else none }

/-- An animation of length 4 with one event at time 2. -/
def walk : Animation :=
  { length := 4, transitionTime := 1 / 4, events := [⟨2, "snd_footstep"⟩], rootNode := rootNode }

/-- An animation of length 1 without events. -/
def pause : Animation :=
  { length := 1, transitionTime := 1 / 4, events := [], rootNode := rootNode }

/-- An idle channel: no animation installed. -/
def idle : AnimationChannel :=
  { _modelSceneNode := model, _ignoreNodes := [], _animation := none,
    _properties := ⟨0, 1, 1, 0⟩, _time := 0, _freeze := false, _finished := false,
    _transformByNodeNumber := [] }

/-- The channel playing `walk` once at speed 1, as left by `reset`. -/
def walking : AnimationChannel := (idle.reset (some walk) ⟨0, 1, 1, 0⟩).1

/-- The channel playing `pause` in a loop at speed 1, as left by `reset`. -/
def pausing : AnimationChannel := (idle.reset (some pause) ⟨AnimationFlags.loop, 1, 1, 0⟩).1

/-- The channel playing `walk` in a loop at speed 1, as left by `reset`. -/
def strolling : AnimationChannel := (idle.reset (some walk) ⟨AnimationFlags.loop, 1, 1, 0⟩).1

/-- Four positive frame times, each a `float`, whose sum is exactly 1: the sum
`1/2 + 2^-25` lies halfway between the neighbouring floats `1/2` and
`1/2 + 2^-24`. -/
def unevenSteps : List ℚ := [1 / 2, 1 / 2 ^ 25, 1 / 2 ^ 25, 1 / 2 - 1 / 2 ^ 24]

/-- The channel playing `walk` once at speed -1 (backwards), as left by `reset`. -/
def rewinding : AnimationChannel := (idle.reset (some walk) ⟨0, -1, 1, 0⟩).1

/-- A positional shadow-casting light of radius 20 at the world origin. -/
def lightA : LightSceneNode :=
  { id := 1, model := 10, origin := ⟨0, 0, 0⟩, radius := 20, isDirectional := false,
    light := { shadow := true, flareRadius := 0, flares := [], ambientOnly := false,
               dynamicType := 1 },
    active := false, strength := 0 }

/-- A positional shadow-casting light of radius 10 at `(15, 0, 0)`. -/
def lightB : LightSceneNode :=
  { id := 2, model := 11, origin := ⟨15, 0, 0⟩, radius := 10, isDirectional := false,
    light := { shadow := true, flareRadius := 0, flares := [], ambientOnly := false,
               dynamicType := 1 },
    active := false, strength := 0 }

/-- A scene graph without roots, lights, camera or shadow light. -/
def emptyGraph : SceneGraph :=
  { _walkmeshRoots := [], _lights := [], _activeCamera := none, _shadowLight := none,
    _shadowActive := false, _shadowStrength := 0, _walkableSurfaces := [1],
    _walkcheckSurfaces := [1, 7], _lineOfSightSurfaces := [1, 7] }

/-- The scene graph after two frames with the camera at the world origin, 1/2 s
and 1/4 s long: only `lightA` is in range. -/
def litGraph : SceneGraph :=
  SceneGraph.shadowFrames emptyGraph
    [([lightA, lightB], ⟨⟨0, 0, 0⟩⟩, 1 / 2), ([lightA, lightB], ⟨⟨0, 0, 0⟩⟩, 1 / 4)]

/-- A square root on the rationals that is exact on squares of rationals. -/
def sqrt (q : ℚ) : ℚ := (Nat.sqrt q.num.toNat : ℚ) / (Nat.sqrt q.den : ℚ)

/-- The value of `outCollision` before a query. -/
def noCollision : Collision :=
  { user := none, intersection := ⟨0, 0, 0⟩, normal := ⟨0, 0, 0⟩, material := 0 }

/-- An area walkmesh root: a floor at height 0 with the walkable material 1. -/
def floorRoot : WalkmeshSceneNode :=
  { enabled := true, user := some 100, walkmesh := Walkmesh.flatFloor true 0 1,
    absoluteTransform := Mat4.identity, absoluteTransformInverse := Mat4.identity, id := 1 }

/-- An area walkmesh root: a platform at height 2 with the non-walkable material 7. -/
def platformRoot : WalkmeshSceneNode :=
  { enabled := true, user := some 200, walkmesh := Walkmesh.flatFloor true 2 7,
    absoluteTransform := Mat4.identity, absoluteTransformInverse := Mat4.identity, id := 2 }

/-- A walkmesh root that is not an area walkmesh: a floor at height 0 with material 1. -/
def placeableRoot : WalkmeshSceneNode :=
  { enabled := true, user := some 300, walkmesh := Walkmesh.flatFloor false 0 1,
    absoluteTransform := Mat4.identity, absoluteTransformInverse := Mat4.identity, id := 3 }

/-- A scene with the floor visited before the platform above it. Material 1 is
walkable; materials 1 and 7 take part in walk checks and block the line of sight. -/
def floorThenPlatform : SceneGraph := { emptyGraph with _walkmeshRoots := [floorRoot, platformRoot] }

/-- The same scene with the platform visited before the floor. -/
def platformThenFloor : SceneGraph := { emptyGraph with _walkmeshRoots := [platformRoot, floorRoot] }

/-- A scene with the floor only, whose material 1 is walkable but not among the
walk-check surfaces. -/
def uncheckedFloor : SceneGraph :=
  { emptyGraph with _walkmeshRoots := [floorRoot], _walkcheckSurfaces := [7] }

/-- A scene with only the floor that is not an area walkmesh. -/
def placeableFloor : SceneGraph := { emptyGraph with _walkmeshRoots := [placeableRoot] }

/-- A model root at `(1, 0, 0)` with the draw distance -5, enabled, not cullable. -/
def backdrop : ModelSceneNode :=
  { model with id := 20, enabled := true, origin := ⟨1, 0, 0⟩, drawDistance := -5,
               cullable := false, culled := false }

/-- A model root at `(3, 4, 0)` with the draw distance 4, enabled, not cullable. -/
def crate : ModelSceneNode :=
  { model with id := 21, enabled := true, origin := ⟨3, 4, 0⟩, drawDistance := 4,
               cullable := false, culled := false }

/-- A scene whose model roots are `backdrop` and `crate`. -/
def propsGraph : SceneGraph := { emptyGraph with _modelRoots := [backdrop, crate] }

/-- The model that `lightA` belongs to, as a root. -/
def lamp : ModelSceneNode := { model with id := 10 }

/-- The scene of `litGraph` with the model of `lightA` among the roots and
`lightA` in the active list: `lightA` is the shadow light. -/
def lampGraph : SceneGraph :=
  { litGraph with _modelRoots := [lamp], _activeLights := [lightA] }

/-- A scene in which `lightA` and `lightB` were collected and `lightA` is in the
active list. -/
def twoLights : SceneGraph :=
  { emptyGraph with _lights := [lightA, lightB], _activeLights := [lightA] }

/-- A grass cluster of the grass root 40. -/
def cluster (id : Nat) (x : ℚ) : SceneNode :=
  { id := id, type := .GrassCluster, parent := 40, origin := ⟨x, 0, 0⟩ }

/-- A grass root with three clusters at `x = 1, 2, 3` and a dummy child. -/
def meadow : GrassSceneNode :=
  { id := 40, enabled := true,
    children := [cluster 41 1, { id := 44, type := .Dummy, parent := 40, origin := ⟨0, 0, 0⟩ },
      cluster 42 2, cluster 43 3] }

/-- A scene whose only grass root is `meadow`. -/
def meadowGraph : SceneGraph := { emptyGraph with _grassRoots := [meadow] }

/-- The type tags of the nodes at the addresses used in the examples. -/
def typeOf (id : Nat) : SceneNodeType :=
  if id = 50 then .Emitter else if id = 40 then .Grass else if id = 10 then .Model else .Dummy

/-- The skeleton nodes of a model with a torso, a head and a jaw, without keys. -/
def bone (name : String) (nodeNumber : Nat) : ModelNode :=
  .mk name nodeNumber ⟨0, 0, 0⟩ ⟨1, 0, 0, 0⟩ (fun _ => none) (fun _ _ => none) (fun _ => none) []

/-- A model scene node with the skeleton nodes `torso` (1), `head` (2) and `jaw` (3). -/
def skeleton : ModelSceneNode :=
  { getModelNode := fun name =>
      if name = "torso" then some ⟨bone "torso" 1⟩
      else if name = "head" then some ⟨bone "head" 2⟩
      else if name = "jaw" then some ⟨bone "jaw" 3⟩
      else none }

/-- An animation tree: `torso` without a key, below it `head` with an
orientation key, below it `jaw` with a translation key. -/
def nodTree : ModelNode :=
  .mk "torso" 1 ⟨0, 0, 0⟩ ⟨1, 0, 0, 0⟩ (fun _ => none) (fun _ _ => none) (fun _ => none)
    [.mk "head" 2 ⟨0, 0, 0⟩ ⟨1, 0, 0, 0⟩ (fun _ => none) (fun _ _ => none)
      (fun _ => some ⟨1, 0, 0, 0⟩)
      [.mk "jaw" 3 ⟨0, 0, 0⟩ ⟨1, 0, 0, 0⟩ (fun _ => none) (fun _ s => some ⟨0, 0, s⟩)
        (fun _ => none) []]]

/-- An animation of length 2 over `nodTree`. -/
def nod : Animation :=
  { length := 2, transitionTime := 1 / 4, events := [], rootNode := nodTree }

/-- A channel of `skeleton` that ignores `head` and plays `nod`; its map holds
a stale entry for node 2. -/
def nodding : AnimationChannel :=
  { _modelSceneNode := skeleton, _ignoreNodes := ["head"], _animation := some nod,
    _properties := ⟨0, 1, 1, 0⟩, _time := 0, _freeze := false, _finished := false,
    _transformByNodeNumber := [(2, Mat4.identity)] }

/-- A stand-in for glm whose matrices are all the identity; the cascade ranges
do not depend on them. -/
def flatGlm : Glm :=
  { radians := fun d => d, sqrt := sqrt, perspective := fun _ _ _ _ => Mat4.identity,
    inverse := fun m => m, lookAt := fun _ _ _ => Mat4.identity,
    ortho := fun _ _ _ _ _ _ => Mat4.identity }

/-- A pipeline over a scene with a directional shadow light and a camera with
near plane 1/10 and far plane 1000. -/
def sunlit : WorldPipeline :=
  { _scene :=
      { hasShadowLight := true, isShadowLightDirectional := true,
        shadowLightPosition := ⟨0, 0, 5⟩,
        camera := { position := ⟨0, 0, 0⟩, fovy := 1, aspect := 1, zNear := 1 / 10,
                    zFar := 1000, view := Mat4.identity } }
    _shadowLightSpace := fun _ => Mat4.identity
    _shadowCascadeFarPlanes := fun _ _ => 0 }

/-- The corners of a box around the point `(0, 0, -1)`: with the light direction
`(0, 0, -1)` the light looks from the origin at the centre of the box and the
light view is the identity. -/
def boxCorners : List Vec4 :=
  [⟨-1, -1, -3 / 2, 1⟩, ⟨-1, -1, -1 / 2, 1⟩, ⟨-1, 1, -3 / 2, 1⟩, ⟨-1, 1, -1 / 2, 1⟩,
   ⟨1, -1, -3 / 2, 1⟩, ⟨1, -1, -1 / 2, 1⟩, ⟨1, 1, -3 / 2, 1⟩, ⟨1, 1, -1 / 2, 1⟩]

/-- The light `lightA` while it fades out: inactive, with strength 1/2. -/
def fading : LightSceneNode := { lightA with strength := 1 / 2 }

/-- A scene in which the fading light was collected and is still in the active
list. -/
def fadingGraph : SceneGraph :=
  { emptyGraph with _lights := [fading], _activeLights := [fading] }

/-- Stand-ins for the members that are not part of the source tree: limits of
8 lights and 2 leafs per bucket, a frustum that holds everything, the camera
position taken from the camera origin, and node updates that change nothing. -/
def externals : SceneGraph.Externals :=
  { kMaxLights := 8, kMaxGrassClusters := 2, kMaxParticles := 2,
    isInFrustumModel := fun _ _ => true, isInFrustumPoint := fun _ _ => true,
    cameraPos := fun camera => camera.origin, typeOf := typeOf,
    updateModel := fun _ root => root, updateGrass := fun _ root => root,
    updateSound := fun _ root => root, updateLight := fun _ light => light }

/-- A light of radius 1 at `(100, 0, 0)`, inactive, with strength 1/2. -/
def farLight : LightSceneNode :=
  { id := 5, model := 30, origin := ⟨100, 0, 0⟩, radius := 1, isDirectional := false,
    light := { shadow := false, flareRadius := 0, flares := [], ambientOnly := false,
               dynamicType := 1 },
    active := false, strength := 1 / 2 }

/-- A model root at the world origin with draw distance 1000 whose only child
is `farLight`. -/
def lampPost : ModelSceneNode :=
  { model with id := 30, drawDistance := 1000, children := [.mk (.light farLight) []] }

/-- A scene with the camera at the world origin and the root `lampPost`; no
light is in the active list. -/
def yard : SceneGraph :=
  { emptyGraph with _activeCamera := some ⟨⟨0, 0, 0⟩⟩, _modelRoots := [lampPost] }

/-- The scene `yard` with `farLight` in the active list, as it is while the
light fades out. -/
def yardFading : SceneGraph := { yard with _activeLights := [farLight] }

/-- The scene `yard` with stale entries in the flare lights and the opaque leaf
buckets. -/
def yardStale : SceneGraph :=
  { yard with _flareLights := [farLight], _opaqueLeafs := [(40, [cluster 41 1])] }

/-- The light `farLight` while it is lit. -/
def farLit : LightSceneNode := { farLight with active := true }

/-- A scene in which `lightA` and the lit `farLit` were collected and `farLit`
is in the active list. -/
def leavingGraph : SceneGraph :=
  { emptyGraph with _lights := [lightA, farLit], _activeLights := [farLit] }

end Example

/-! ## Theorems: rounding of float arithmetic -/

/-- A rational less than half a unit away from an integer rounds to it. -/
theorem roundHalfEven_of_lt (q : ℚ) (n : ℤ) (h1 : (n : ℚ) - 1 / 2 < q)
    (h2 : q < n + 1 / 2) : roundHalfEven q = n := by
  unfold roundHalfEven
  simp only
  by_cases hq : (n : ℚ) ≤ q
  · have hf : ⌊q⌋ = n := by
      rw [Int.floor_eq_iff]
      constructor
      · exact hq
      · linarith
    rw [hf, if_pos (by linarith)]
  · have hf : ⌊q⌋ = n - 1 := by
      rw [Int.floor_eq_iff]
      push_cast
      constructor
      · linarith
      · push_neg at hq; linarith
    rw [hf]
    push_cast
    rw [if_neg (by linarith), if_pos (by linarith)]
    ring

/-- The midpoint above an even integer rounds down to it. -/
theorem roundHalfEven_tie_even (n : ℤ) (hn : n % 2 = 0) :
    roundHalfEven ((n : ℚ) + 1 / 2) = n := by
  unfold roundHalfEven
  simp only
  have hf : ⌊(n : ℚ) + 1 / 2⌋ = n := by
    rw [Int.floor_eq_iff]
    constructor <;> linarith
  rw [hf, if_neg (by linarith), if_neg (by linarith), if_pos hn]

/-- Rounding to an integer moves a rational by at most one half. -/
theorem abs_roundHalfEven_sub_le (q : ℚ) : |(roundHalfEven q : ℚ) - q| ≤ 1 / 2 := by
  unfold roundHalfEven
  simp only
  have h1 := Int.floor_le q
  have h2 := Int.lt_floor_add_one q
  rw [abs_le]
  split_ifs with a b c
  · constructor <;> linarith
  · push_cast; constructor <;> linarith
  · constructor <;> linarith
  · push_cast; constructor <;> linarith

/-- The binary exponent of a positive rational between two powers of two. -/
theorem log_abs_eq (x : ℚ) (e : ℤ) (h1 : (2 : ℚ) ^ e ≤ x) (h2 : x < 2 ^ (e + 1)) :
    Int.log 2 |x| = e := by
  have hpos : 0 < x := lt_of_lt_of_le (by positivity) h1
  rw [abs_of_pos hpos]
  have ha : e ≤ Int.log 2 x := by
    rw [← Int.zpow_le_iff_le_log (by norm_num) hpos]
    exact_mod_cast h1
  have hb : Int.log 2 x < e + 1 := by
    rw [← Int.lt_zpow_iff_log_lt (by norm_num) hpos]
    exact_mod_cast h2
  omega

/-- The value of `roundFloat` on a positive normal number: with `x` in the
binade of `2^e` and less than half a unit in the last place away from
`n * 2^(e-23)`, that multiple is the rounded value. -/
theorem roundFloat_of_lt (x : ℚ) (e n : ℤ) (he : -126 ≤ e) (h1 : (2 : ℚ) ^ e ≤ x)
    (h2 : x < 2 ^ (e + 1)) (h3 : ((n : ℚ) - 1 / 2) * 2 ^ (e - 23) < x)
    (h4 : x < (n + 1 / 2) * 2 ^ (e - 23)) : roundFloat x = n * 2 ^ (e - 23) := by
  unfold roundFloat
  simp only
  rw [log_abs_eq x e h1 h2, max_eq_left he]
  have hu : (0 : ℚ) < 2 ^ (e - 23) := by positivity
  rw [roundHalfEven_of_lt (x / 2 ^ (e - 23)) n]
  · rw [lt_div_iff₀ hu]; exact h3
  · rw [div_lt_iff₀ hu]; exact h4

/-- The value of `roundFloat` halfway between two neighbouring floats of a
binade: the one with the even significand. -/
theorem roundFloat_tie_even (x : ℚ) (e n : ℤ) (he : -126 ≤ e) (h1 : (2 : ℚ) ^ e ≤ x)
    (h2 : x < 2 ^ (e + 1)) (hn : n % 2 = 0) (hx : x = (n + 1 / 2) * 2 ^ (e - 23)) :
    roundFloat x = n * 2 ^ (e - 23) := by
  unfold roundFloat
  simp only
  rw [log_abs_eq x e h1 h2, max_eq_left he]
  have hu : (0 : ℚ) < 2 ^ (e - 23) := by positivity
  have : x / 2 ^ (e - 23) = (n : ℚ) + 1 / 2 := by
    rw [hx]; field_simp; ring
  rw [this, roundHalfEven_tie_even n hn]

/-- Zero is a float. -/
theorem roundFloat_zero : roundFloat 0 = 0 := by
  unfold roundFloat roundHalfEven
  simp

/-- The rounding error of a positive normal number is at most `2^-24` of it. -/
theorem abs_roundFloat_sub_le (x : ℚ) (hx : 1 / 2 ^ 126 ≤ x) :
    |roundFloat x - x| ≤ x / 2 ^ 24 := by
  have hpos : 0 < x := lt_of_lt_of_le (by positivity) hx
  have habs : |x| = x := abs_of_pos hpos
  have hx' : (2 : ℚ) ^ (-126 : ℤ) ≤ x := by
    rw [zpow_neg]
    norm_num
    norm_num at hx
    exact hx
  unfold roundFloat
  simp only
  have hlog : -126 ≤ Int.log 2 |x| := by
    rw [← Int.zpow_le_iff_le_log (by norm_num) (by rw [habs]; exact hpos)]
    rw [habs]; exact_mod_cast hx'
  rw [max_eq_left hlog]
  have hle : (2 : ℚ) ^ (Int.log 2 |x|) ≤ x := by
    have := Int.zpow_log_le_self (b := 2) (r := |x|) (by norm_num) (by rw [habs]; exact hpos)
    rw [habs] at this ⊢
    exact_mod_cast this
  generalize Int.log 2 |x| = e at hle hlog
  have hu : (0 : ℚ) < 2 ^ (e - 23) := by positivity
  have hr := abs_roundHalfEven_sub_le (x / 2 ^ (e - 23))
  have hsplit : (roundHalfEven (x / 2 ^ (e - 23)) : ℚ) * 2 ^ (e - 23) - x
      = ((roundHalfEven (x / 2 ^ (e - 23)) : ℚ) - x / 2 ^ (e - 23)) * 2 ^ (e - 23) := by
    field_simp
  rw [hsplit, abs_mul, abs_of_pos hu]
  have h24 : (2 : ℚ) ^ (e - 23) = 2 ^ e / 2 ^ 23 := by
    rw [zpow_sub₀ (by norm_num)]; norm_num
  calc |(roundHalfEven (x / 2 ^ (e - 23)) : ℚ) - x / 2 ^ (e - 23)| * 2 ^ (e - 23)
      ≤ 1 / 2 * 2 ^ (e - 23) := by
        exact mul_le_mul_of_nonneg_right hr hu.le
    _ = 2 ^ e / 2 ^ 24 := by rw [h24]; ring
    _ ≤ x / 2 ^ 24 := by
        apply div_le_div_of_nonneg_right hle (by positivity)

/-- A positive normal number and its float differ by a factor between
`1 - 2^-24` and `1 + 2^-24`. -/
theorem roundFloat_bounds (x : ℚ) (hx : 1 / 2 ^ 126 ≤ x) :
    x * (1 - 1 / 2 ^ 24) ≤ roundFloat x ∧ roundFloat x ≤ x * (1 + 1 / 2 ^ 24) := by
  have h := abs_le.mp (abs_roundFloat_sub_le x hx)
  constructor <;> linarith [h.1, h.2]

/-- Some floats: values that `roundFloat` leaves unchanged, one midpoint that
rounds to the even neighbour, and one sum that is a float. -/
theorem roundFloat_examples :
    roundFloat 1 = 1 ∧ roundFloat 2 = 2 ∧ roundFloat 4 = 4 ∧ roundFloat (1 / 2) = 1 / 2 ∧
      roundFloat (1 / 2 ^ 25) = 1 / 2 ^ 25 ∧ roundFloat (1 / 2 - 1 / 2 ^ 24) = 1 / 2 - 1 / 2 ^ 24 ∧
      roundFloat (1 / 2 + 1 / 2 ^ 25) = 1 / 2 ∧
      roundFloat (1 / 2 + (1 / 2 - 1 / 2 ^ 24)) = 1 - 1 / 2 ^ 24 := by
  refine ⟨?_, ?_, ?_, ?_, ?_, ?_, ?_, ?_⟩
  · rw [roundFloat_of_lt 1 0 8388608 (by norm_num) (by norm_num) (by norm_num)
      (by norm_num) (by norm_num)]
    norm_num
  · rw [roundFloat_of_lt 2 1 8388608 (by norm_num) (by norm_num) (by norm_num)
      (by norm_num) (by norm_num)]
    norm_num
  · rw [roundFloat_of_lt 4 2 8388608 (by norm_num) (by norm_num) (by norm_num)
      (by norm_num) (by norm_num)]
    norm_num
  · rw [roundFloat_of_lt (1 / 2) (-1) 8388608 (by norm_num) (by norm_num) (by norm_num)
      (by norm_num) (by norm_num)]
    norm_num
  · rw [roundFloat_of_lt (1 / 2 ^ 25) (-25) 8388608 (by norm_num) (by norm_num) (by norm_num)
      (by norm_num) (by norm_num)]
    norm_num
  · rw [roundFloat_of_lt (1 / 2 - 1 / 2 ^ 24) (-2) 16777214 (by norm_num) (by norm_num)
      (by norm_num) (by norm_num) (by norm_num)]
    norm_num
  · rw [roundFloat_tie_even (1 / 2 + 1 / 2 ^ 25) (-1) 8388608 (by norm_num) (by norm_num)
      (by norm_num) (by decide) (by norm_num)]
    norm_num
  · rw [roundFloat_of_lt (1 / 2 + (1 / 2 - 1 / 2 ^ 24)) (-1) 16777215 (by norm_num)
      (by norm_num) (by norm_num) (by norm_num) (by norm_num)]
    norm_num

/-! ## Theorems: AnimationChannel -/

namespace AnimationChannel

/-- An `update` on an active channel that does not reach the length only moves
the time and recomputes the transforms. -/
theorem update_active_before_end (c : AnimationChannel) (a : Animation) (dt : ℚ)
    (ha : c._animation = some a) (hfr : c._freeze = false) (hfi : c._finished = false)
    (hne : newTime c a dt ≠ a.length) :
    update c dt = ({ computeLocalTransforms c a with _time := newTime c a dt },
      signaledEvents a.events c._time (newTime c a dt)) := by
  unfold newTime at hne
  simp [update, ha, hfr, hfi, computeLocalTransforms, newTime, hne]

/-- An `update` on an active channel that reaches the length either restarts
the cycle (loop flag) or finishes the channel. -/
theorem update_active_at_end (c : AnimationChannel) (a : Animation) (dt : ℚ)
    (ha : c._animation = some a) (hfr : c._freeze = false) (hfi : c._finished = false)
    (heq : newTime c a dt = a.length) :
    update c dt =
      (if c._properties.flags &&& AnimationFlags.loop != 0 then
        { computeLocalTransforms c a with _time := 0 }
       else { computeLocalTransforms c a with _time := newTime c a dt, _finished := true },
      signaledEvents a.events c._time (newTime c a dt)) := by
  unfold newTime at heq
  by_cases hl : (c._properties.flags &&& AnimationFlags.loop != 0) = true
  · simp [update, ha, hfr, hfi, computeLocalTransforms, newTime, heq, hl]
  · simp [update, ha, hfr, hfi, computeLocalTransforms, newTime, heq, hl]

/-- An `update` on a channel without animation, frozen or finished changes nothing. -/
theorem update_inactive (c : AnimationChannel) (dt : ℚ)
    (h : c._animation = none ∨ c._freeze = true ∨ c._finished = true) :
    update c dt = (c, []) := by
  unfold update
  cases ha : c._animation with
  | none => rfl
  | some a =>
    rcases h with h | h | h
    · simp [ha] at h
    · simp [h]
    · simp [h]

/-- Repeated updates over a concatenated list run the first part, then the second. -/
theorem updates_append (c : AnimationChannel) (xs ys : List ℚ) :
    updates c (xs ++ ys) =
      ((updates (updates c xs).1 ys).1, (updates c xs).2 ++ (updates (updates c xs).1 ys).2) := by
  induction xs generalizing c with
  | nil => simp [updates]
  | cons x xs ih => simp [updates, ih]

/-- One update of a forward channel: the invariant is kept, time does not
decrease, and a channel whose time is the length afterwards is finished. -/
theorem Forward.update_step {c : AnimationChannel} {a : Animation} (h : Forward c a) (dt : ℚ)
    (hdt : 0 ≤ dt) :
    Forward (update c dt).1 a ∧ c._time ≤ (update c dt).1._time ∧
      ((update c dt).1._time = a.length → (update c dt).1._finished = true) := by
  obtain ⟨ha, hl, hs, ht, hfr⟩ := h
  by_cases hfi : c._finished = true
  · rw [update_inactive c dt (Or.inr (Or.inr hfi))]
    exact ⟨⟨ha, hl, hs, ht, hfr⟩, le_refl _, fun _ => hfi⟩
  · have hfi' : c._finished = false := by simpa using hfi
    have hmono : c._time ≤ newTime c a dt := by
      unfold newTime
      exact le_min (le_add_of_nonneg_right (mul_nonneg hs hdt)) ht
    have hle : newTime c a dt ≤ a.length := min_le_right _ _
    by_cases hend : newTime c a dt = a.length
    · rw [update_active_at_end c a dt ha hfr hfi' hend]
      have hloop : (c._properties.flags &&& AnimationFlags.loop != 0) = false := by simp [hl]
      simp only [hloop, Bool.false_eq_true, if_false]
      exact ⟨⟨ha, hl, hs, hle, hfr⟩, hmono, fun _ => trivial⟩
    · rw [update_active_before_end c a dt ha hfr hfi' hend]
      exact ⟨⟨ha, hl, hs, hle, hfr⟩, hmono, fun h' => absurd h' hend⟩

/-- Repeated updates keep the invariant of a forward channel. -/
theorem Forward.after_updates {c : AnimationChannel} {a : Animation} (h : Forward c a) (dts : List ℚ)
    (hpos : ∀ dt ∈ dts, 0 < dt) : Forward (updates c dts).1 a := by
  induction dts generalizing c with
  | nil => simpa [AnimationChannel.updates] using h
  | cons dt dts ih =>
    simp only [AnimationChannel.updates]
    exact ih (h.update_step dt (le_of_lt (hpos dt (List.mem_cons_self _ _)))).1
      (fun d hd => hpos d (List.mem_cons_of_mem _ hd))

/-- After at least one update, a forward channel whose time is the length is finished. -/
theorem Forward.finished_of_updates {c : AnimationChannel} {a : Animation} (h : Forward c a)
    (dts : List ℚ) (hpos : ∀ dt ∈ dts, 0 < dt) (hne : dts ≠ [])
    (hlen : (updates c dts).1._time = a.length) : (updates c dts).1._finished = true := by
  obtain ⟨pre, dt, rfl⟩ : ∃ pre dt, dts = pre ++ [dt] :=
    ⟨dts.dropLast, dts.getLast hne, (List.dropLast_append_getLast hne).symm⟩
  have hpre : Forward (AnimationChannel.updates c pre).1 a :=
    h.after_updates pre (fun d hd => hpos d (List.mem_append_left _ hd))
  have hdt : 0 < dt := hpos dt (by simp)
  rw [updates_append] at hlen ⊢
  simp only [AnimationChannel.updates] at hlen ⊢
  exact (hpre.update_step dt (le_of_lt hdt)).2.2 hlen

/-- Updates of a finished channel change nothing. -/
theorem updates_finished (c : AnimationChannel) (dts : List ℚ) (hfi : c._finished = true) :
    (updates c dts).1 = c := by
  induction dts with
  | nil => rfl
  | cons dt dts ih =>
    simp only [updates]
    rw [update_inactive c dt (Or.inr (Or.inr hfi))]
    exact ih

/-- State of a channel in the middle of a playback cycle at positive speed. -/
theorem update_active_preserved (c : AnimationChannel) (a : Animation) (dt : ℚ)
    (ha : c._animation = some a) (hfr : c._freeze = false) (hfi : c._finished = false)
    (hne : newTime c a dt ≠ a.length) :
    (update c dt).1._animation = some a ∧ (update c dt).1._freeze = false ∧
      (update c dt).1._finished = false ∧ (update c dt).1._properties = c._properties ∧
      (update c dt).1._time = c._time + c._properties.speed * dt := by
  rw [update_active_before_end c a dt ha hfr hfi hne]
  refine ⟨ha, hfr, hfi, rfl, ?_⟩
  show newTime c a dt = _
  unfold newTime at hne ⊢
  rcases min_choice (c._time + c._properties.speed * dt) a.length with h | h
  · exact h
  · exact absurd h hne

/-- The events of two adjacent intervals are, together, the events of their union. -/
theorem signaledEvents_split (events : List AnimationEvent) (t0 t1 t2 : ℚ) (h01 : t0 ≤ t1)
    (h12 : t1 ≤ t2) :
    (signaledEvents events t0 t1 ++ signaledEvents events t1 t2).Perm
      (signaledEvents events t0 t2) := by
  induction events with
  | nil => simp [signaledEvents]
  | cons e es ih =>
    unfold signaledEvents at ih ⊢
    by_cases h1 : e.time ≤ t1
    · have h2 : e.time ≤ t2 := le_trans h1 h12
      have h3 : ¬ t1 < e.time := not_lt.mpr h1
      by_cases h0 : t0 < e.time
      · simp only [List.filter_cons, h0, h1, h2, h3, decide_True, decide_False, Bool.and_self,
          Bool.false_and, if_true, List.map_cons, List.cons_append, Bool.false_eq_true, if_false]
        exact List.Perm.cons _ ih
      · simp only [List.filter_cons, h0, h1, h2, h3, decide_True, decide_False,
          Bool.false_and, Bool.false_eq_true, if_false]
        exact ih
    · have h3 : t1 < e.time := not_le.mp h1
      have h0 : t0 < e.time := lt_of_le_of_lt h01 h3
      by_cases h2 : e.time ≤ t2
      · simp only [List.filter_cons, h0, h1, h2, h3, decide_True, decide_False, Bool.and_self,
          Bool.and_false, Bool.false_eq_true, if_false, if_true, List.map_cons]
        exact List.perm_middle.trans (List.Perm.cons _ ih)
      · simp only [List.filter_cons, h0, h1, h2, h3, decide_True, decide_False,
          Bool.and_false, Bool.false_eq_true, if_false]
        exact ih

/-- Looping playback at speed 1: updates whose steps add up to the remaining
time of the cycle end at time 0, not finished. -/
theorem updates_loop_cycle (a : Animation) (dts : List ℚ) :
    ∀ c : AnimationChannel, c._animation = some a → c._freeze = false → c._finished = false →
      c._properties.flags &&& AnimationFlags.loop ≠ 0 → c._properties.speed = 1 →
      dts ≠ [] → (∀ d ∈ dts, 0 < d) → c._time + dts.sum = a.length →
      (updates c dts).1._time = 0 ∧ (updates c dts).1._finished = false := by
  induction dts with
  | nil => intro c _ _ _ _ _ hne; exact absurd rfl hne
  | cons dt rest ih =>
    intro c ha hfr hfi hl hs _ hpos hsum
    simp only [updates]
    by_cases hrest : rest = []
    · subst hrest
      have hend : newTime c a dt = a.length := by
        unfold newTime
        rw [hs]
        simp at hsum
        rw [one_mul, hsum, min_self]
      rw [update_active_at_end c a dt ha hfr hfi hend]
      have hloop : (c._properties.flags &&& AnimationFlags.loop != 0) = true := by simpa using hl
      simp [hloop, updates, computeLocalTransforms, hfi]
    · have hrpos : ∀ d ∈ rest, 0 < d := fun d hd => hpos d (List.mem_cons_of_mem _ hd)
      have hsumpos : 0 < rest.sum := List.sum_pos _ hrpos hrest
      have hsum' : c._time + dt + rest.sum = a.length := by
        rw [List.sum_cons] at hsum
        linarith
      have hne : newTime c a dt ≠ a.length := by
        unfold newTime
        rw [hs, one_mul]
        have : c._time + dt < a.length := by linarith
        rw [min_eq_left (le_of_lt this)]
        exact ne_of_lt this
      obtain ⟨ha', hfr', hfi', hp', ht'⟩ := update_active_preserved c a dt ha hfr hfi hne
      refine ih (update c dt).1 ha' hfr' hfi' (by rw [hp']; exact hl) (by rw [hp']; exact hs)
        hrest hrpos ?_
      rw [ht', hs, one_mul]
      exact hsum'

/-- One playback cycle at non-negative speed: the events signaled by all the
updates together are the events of the interval from the start time to the
length. -/
theorem updates_cycle_events (a : Animation) (dts : List ℚ) :
    ∀ c : AnimationChannel, c._animation = some a → c._freeze = false → c._finished = false →
      0 < c._properties.speed → dts ≠ [] → (∀ d ∈ dts, 0 < d) →
      c._time + c._properties.speed * dts.dropLast.sum < a.length →
      a.length ≤ c._time + c._properties.speed * dts.sum →
      ((updates c dts).2.flatten).Perm (signaledEvents a.events c._time a.length) := by
  induction dts with
  | nil => intro c _ _ _ _ hne; exact absurd rfl hne
  | cons dt rest ih =>
    intro c ha hfr hfi hs _ hpos hbefore hreach
    simp only [updates, List.flatten_cons]
    by_cases hrest : rest = []
    · subst hrest
      have hend : newTime c a dt = a.length := by
        unfold newTime
        simp at hreach
        exact min_eq_right hreach
      rw [update_active_at_end c a dt ha hfr hfi hend]
      simp [updates, hend]
    · have hrpos : ∀ d ∈ rest, 0 < d := fun d hd => hpos d (List.mem_cons_of_mem _ hd)
      have hdt : 0 < dt := hpos dt (List.mem_cons_self _ _)
      have hdl : (dt :: rest).dropLast = dt :: rest.dropLast := by
        cases rest with
        | nil => exact absurd rfl hrest
        | cons r rs => rfl
      have hdlpos : 0 ≤ rest.dropLast.sum :=
        List.sum_nonneg (fun d hd => le_of_lt (hrpos d (List.dropLast_subset _ hd)))
      rw [hdl, List.sum_cons, mul_add] at hbefore
      have hlt : c._time + c._properties.speed * dt < a.length := by
        have := mul_nonneg (le_of_lt hs) hdlpos
        linarith
      have hne : newTime c a dt ≠ a.length := by
        unfold newTime
        rw [min_eq_left (le_of_lt hlt)]
        exact ne_of_lt hlt
      have hnt : newTime c a dt = c._time + c._properties.speed * dt := by
        unfold newTime
        exact min_eq_left (le_of_lt hlt)
      obtain ⟨ha', hfr', hfi', hp', ht'⟩ := update_active_preserved c a dt ha hfr hfi hne
      have hrec := ih (update c dt).1 ha' hfr' hfi' (by rw [hp']; exact hs) hrest hrpos
        (by rw [hp', ht']; linarith)
        (by rw [hp', ht']; rw [List.sum_cons, mul_add] at hreach; linarith)
      rw [ht'] at hrec
      have hout : (update c dt).2 = signaledEvents a.events c._time
          (c._time + c._properties.speed * dt) := by
        rw [update_active_before_end c a dt ha hfr hfi hne, hnt]
      rw [hout]
      exact (List.Perm.append_left _ hrec).trans
        (signaledEvents_split a.events _ _ _
          (le_add_of_nonneg_right (mul_nonneg (le_of_lt hs) (le_of_lt hdt))) (le_of_lt hlt))

/-- C1: `reset(animation, properties)` fails, with an invalid-argument error,
exactly when the animation is null; the failed call leaves the whole channel as
it was, and a successful call leaves the given animation and properties
installed at time 0 with the freeze and finished flags cleared. -/
theorem reset_contract (c : AnimationChannel) (properties : AnimationProperties) :
    (∀ anim, (∃ msg, (reset c anim properties).2 = .error (.invalid_argument msg)) ↔
      anim = none) ∧
    reset c none properties = (c, .error (.invalid_argument "anim must not be null")) ∧
    (∀ a, (reset c (some a) properties).2 = .ok () ∧
      (reset c (some a) properties).1._animation = some a ∧
      (reset c (some a) properties).1._properties = properties ∧
      (reset c (some a) properties).1._time = 0 ∧
      (reset c (some a) properties).1._freeze = false ∧
      (reset c (some a) properties).1._finished = false) := by
  refine ⟨fun anim => ?_, rfl, fun a => ⟨rfl, rfl, rfl, rfl, rfl, rfl⟩⟩
  cases anim with
  | none => exact ⟨fun _ => rfl, fun _ => ⟨_, rfl⟩⟩
  | some a =>
    constructor
    · rintro ⟨msg, h⟩
      simp [reset] at h
    · intro h
      cases h

/-- C2: when no animation is installed, or the channel is frozen, or it is
finished, `update(dt)` returns the channel unchanged (time, flags and transform
map included) and signals no event. -/
theorem update_noop_when_inactive (c : AnimationChannel) (dt : ℚ)
    (h : c._animation = none ∨ c._freeze = true ∨ c._finished = true) :
    (update c dt).1 = c ∧ (update c dt).2 = [] := by
  rw [update_inactive c dt h]
  exact ⟨rfl, rfl⟩

/-- Witness for C2: a frozen channel in the middle of an animation. -/
theorem update_noop_when_inactive_witness :
    (Example.walking.freeze._animation = none ∨ Example.walking.freeze._freeze = true ∨
        Example.walking.freeze._finished = true) ∧
      ((update Example.walking.freeze (1 / 2)).1 = Example.walking.freeze ∧
        (update Example.walking.freeze (1 / 2)).2 = []) :=
  ⟨Or.inr (Or.inl rfl), update_noop_when_inactive _ _ (Or.inr (Or.inl rfl))⟩

/-- C3, as stated, fails: a non-looping channel with a negative playback speed
moves its time backwards on an update with positive `dt`. -/
theorem update_time_not_monotone :
    Example.rewinding._properties.flags &&& AnimationFlags.loop = 0 ∧ (0 : ℚ) < 1 ∧
      (update Example.rewinding 1).1._time < Example.rewinding._time := by
  refine ⟨by decide, by norm_num, ?_⟩
  rw [update_active_before_end Example.rewinding Example.walk 1 rfl rfl rfl
    (by norm_num [newTime, Example.rewinding, Example.walk, reset])]
  norm_num [newTime, Example.rewinding, Example.walk, reset]

/-- C3, amended: for a non-looping, unfrozen channel with playback speed `>= 0`
whose time does not exceed the animation length, repeated `update(dt)` calls
with `dt > 0` never decrease the time; once one of these updates has brought
the time to the animation length the channel is finished, and all further
updates leave the time at the length and the channel finished. -/
theorem update_time_monotone_until_finished (c : AnimationChannel) (a : Animation)
    (ha : c._animation = some a) (hloop : c._properties.flags &&& AnimationFlags.loop = 0)
    (hspeed : 0 ≤ c._properties.speed) (htime : c._time ≤ a.length) (hfreeze : c._freeze = false)
    (dts : List ℚ) (dt : ℚ) (more : List ℚ) (hdts : ∀ d ∈ dts, 0 < d) (hdt : 0 < dt) :
    (updates c dts).1._time ≤ (updates c (dts ++ [dt])).1._time ∧
    (dts ≠ [] → (updates c dts).1._time = a.length →
      (updates c dts).1._finished = true ∧
      (updates c (dts ++ more)).1._time = a.length ∧
      (updates c (dts ++ more)).1._finished = true) := by
  have h : Forward c a := ⟨ha, hloop, hspeed, htime, hfreeze⟩
  have hpre : Forward (updates c dts).1 a := h.after_updates dts hdts
  constructor
  · rw [updates_append]
    simp only [updates]
    exact (hpre.update_step dt (le_of_lt hdt)).2.1
  · intro hne hlen
    have hfi := h.finished_of_updates dts hdts hne hlen
    rw [updates_append]
    simp only [updates_finished _ more hfi]
    exact ⟨hfi, hlen, hfi⟩

/-- Witness for C3 (amended): the walk animation played once with steps 1, 3 and 1. -/
theorem update_time_monotone_until_finished_witness :
    (updates Example.walking [1, 3]).1._time ≤ (updates Example.walking ([1, 3] ++ [1])).1._time ∧
    (([1, 3] : List ℚ) ≠ [] → (updates Example.walking [1, 3]).1._time = Example.walk.length →
      (updates Example.walking [1, 3]).1._finished = true ∧
      (updates Example.walking ([1, 3] ++ [2, 5])).1._time = Example.walk.length ∧
      (updates Example.walking ([1, 3] ++ [2, 5])).1._finished = true) :=
  update_time_monotone_until_finished Example.walking Example.walk rfl (by decide)
    (by norm_num [Example.walking, reset]) (by norm_num [Example.walking, Example.walk, reset]) rfl
    [1, 3] 1 [2, 5] (by norm_num) (by norm_num)

/-- C4: for an active channel, after `update(dt)` the finished flag is set
exactly when the loop flag is clear and the updated time
`min(time + speed*dt, length)` equals the length; with the loop flag set and
the updated time equal to the length, time is back at 0 and the channel is not
finished. -/
theorem update_finished_iff (c : AnimationChannel) (a : Animation) (dt : ℚ)
    (ha : c._animation = some a) (hfreeze : c._freeze = false) (hfin : c._finished = false) :
    ((update c dt).1._finished = true ↔
      (c._properties.flags &&& AnimationFlags.loop = 0 ∧
        min (c._time + c._properties.speed * dt) a.length = a.length)) ∧
    (c._properties.flags &&& AnimationFlags.loop ≠ 0 →
      min (c._time + c._properties.speed * dt) a.length = a.length →
      (update c dt).1._time = 0 ∧ (update c dt).1._finished = false) := by
  by_cases hend : newTime c a dt = a.length
  · rw [update_active_at_end c a dt ha hfreeze hfin hend]
    have hend' : min (c._time + c._properties.speed * dt) a.length = a.length := hend
    by_cases hl : c._properties.flags &&& AnimationFlags.loop = 0
    · simp [hl, hend', computeLocalTransforms]
    · simp [hl, hend', computeLocalTransforms, hfin]
  · rw [update_active_before_end c a dt ha hfreeze hfin hend]
    have hend' : ¬ min (c._time + c._properties.speed * dt) a.length = a.length := hend
    simp [hend', computeLocalTransforms, hfin]

/-- Witness for C4: the looping pause animation stepped by its whole length. -/
theorem update_finished_iff_witness :
    ((update Example.pausing 1).1._finished = true ↔
      (Example.pausing._properties.flags &&& AnimationFlags.loop = 0 ∧
        min (Example.pausing._time + Example.pausing._properties.speed * 1) Example.pause.length =
          Example.pause.length)) ∧
    (Example.pausing._properties.flags &&& AnimationFlags.loop ≠ 0 →
      min (Example.pausing._time + Example.pausing._properties.speed * 1) Example.pause.length =
        Example.pause.length →
      (update Example.pausing 1).1._time = 0 ∧ (update Example.pausing 1).1._finished = false) :=
  update_finished_iff Example.pausing Example.pause 1 rfl rfl rfl

/-- With exact arithmetic `updateRounded` is `update`. -/
theorem updateRounded_id (c : AnimationChannel) (dt : ℚ) : updateRounded id c dt = update c dt :=
  rfl

/-- An update whose product and sum are floats is not affected by the rounding. -/
theorem updateRounded_eq_update (fl : ℚ → ℚ) (c : AnimationChannel) (dt : ℚ)
    (h1 : fl (c._properties.speed * dt) = c._properties.speed * dt)
    (h2 : fl (c._time + c._properties.speed * dt) = c._time + c._properties.speed * dt) :
    updateRounded fl c dt = update c dt := by
  unfold updateRounded update
  rw [h1, h2]

/-- A rounded update of an active channel that does not reach the length keeps
the channel active and sets the time to the rounded sum. -/
theorem updateRounded_active_preserved (fl : ℚ → ℚ) (c : AnimationChannel) (a : Animation)
    (dt t : ℚ) (ha : c._animation = some a) (hfr : c._freeze = false)
    (hfi : c._finished = false)
    (ht : fl (c._time + fl (c._properties.speed * dt)) = t) (hlt : t < a.length) :
    (updateRounded fl c dt).1._animation = some a ∧ (updateRounded fl c dt).1._freeze = false ∧
      (updateRounded fl c dt).1._finished = false ∧
      (updateRounded fl c dt).1._properties = c._properties ∧
      (updateRounded fl c dt).1._time = t := by
  have hmin : min t a.length = t := min_eq_left (le_of_lt hlt)
  have hne : ¬ t = a.length := ne_of_lt hlt
  simp [updateRounded, ha, hfr, hfi, computeLocalTransforms, ht, hmin, hne]

/-- Playback at speed 1 below the end of the cycle: the time after the updates
is the time before them plus the steps, and the channel stays active. -/
theorem updates_before_end (a : Animation) (dts : List ℚ) :
    ∀ c : AnimationChannel, c._animation = some a → c._freeze = false → c._finished = false →
      c._properties.speed = 1 → (∀ d ∈ dts, 0 < d) → c._time + dts.sum < a.length →
      (updates c dts).1._time = c._time + dts.sum ∧ (updates c dts).1._finished = false := by
  induction dts with
  | nil => intro c _ _ hfi _ _ _; simp [updates, hfi]
  | cons dt rest ih =>
    intro c ha hfr hfi hs hpos hsum
    simp only [updates]
    have hrpos : ∀ d ∈ rest, 0 < d := fun d hd => hpos d (List.mem_cons_of_mem _ hd)
    have hrsum : 0 ≤ rest.sum := List.sum_nonneg (fun d hd => le_of_lt (hrpos d hd))
    rw [List.sum_cons] at hsum
    have hlt : c._time + dt < a.length := by linarith
    have hne : newTime c a dt ≠ a.length := by
      unfold newTime
      rw [hs, one_mul, min_eq_left (le_of_lt hlt)]
      exact ne_of_lt hlt
    obtain ⟨ha', hfr', hfi', hp', ht'⟩ := update_active_preserved c a dt ha hfr hfi hne
    rw [hs, one_mul] at ht'
    have hrec := ih (update c dt).1 ha' hfr' hfi' (by rw [hp']; exact hs) hrpos
      (by rw [ht']; linarith)
    rw [ht'] at hrec
    rw [List.sum_cons]
    exact ⟨by rw [hrec.1]; ring, hrec.2⟩

/-- Playback at speed 1 up to the end of the cycle: when every step and every
accumulated time is a float, the rounded updates are the exact ones. -/
theorem updatesRounded_eq_updates (fl : ℚ → ℚ) (a : Animation) (dts : List ℚ) :
    ∀ c : AnimationChannel, c._animation = some a → c._freeze = false → c._finished = false →
      c._properties.speed = 1 → (∀ d ∈ dts, 0 < d) → c._time + dts.sum ≤ a.length →
      (∀ d ∈ dts, fl d = d) →
      (∀ n, n ≤ dts.length → fl (c._time + (dts.take n).sum) = c._time + (dts.take n).sum) →
      updatesRounded fl c dts = updates c dts := by
  induction dts with
  | nil => intro c _ _ _ _ _ _ _ _; rfl
  | cons dt rest ih =>
    intro c ha hfr hfi hs hpos hsum hstep hacc
    simp only [updatesRounded, updates]
    have hdt : fl dt = dt := hstep dt (List.mem_cons_self _ _)
    have h1 := hacc 1 (by simp)
    simp only [List.take_succ_cons, List.take_zero, List.sum_cons, List.sum_nil, add_zero] at h1
    have hone : updateRounded fl c dt = update c dt :=
      updateRounded_eq_update fl c dt (by rw [hs, one_mul, hdt]) (by rw [hs, one_mul, h1])
    rw [hone]
    by_cases hrest : rest = []
    · subst hrest
      rfl
    · have hrpos : ∀ d ∈ rest, 0 < d := fun d hd => hpos d (List.mem_cons_of_mem _ hd)
      have hsumpos : 0 < rest.sum := List.sum_pos _ hrpos hrest
      rw [List.sum_cons] at hsum
      have hlt : c._time + dt < a.length := by linarith
      have hne : newTime c a dt ≠ a.length := by
        unfold newTime
        rw [hs, one_mul, min_eq_left (le_of_lt hlt)]
        exact ne_of_lt hlt
      obtain ⟨ha', hfr', hfi', hp', ht'⟩ := update_active_preserved c a dt ha hfr hfi hne
      rw [hs, one_mul] at ht'
      have hrec := ih (update c dt).1 ha' hfr' hfi' (by rw [hp']; exact hs) hrpos
        (by rw [ht']; linarith) (fun d hd => hstep d (List.mem_cons_of_mem _ hd))
        (by
          intro n hn
          have := hacc (n + 1) (by simpa using hn)
          simp only [List.take_succ_cons, List.sum_cons] at this
          rw [ht', add_assoc]
          exact this)
      rw [hrec]

/-- The state after a list of rounded updates: the first update, then the rest. -/
theorem updatesRounded_cons_fst (fl : ℚ → ℚ) (c : AnimationChannel) (dt : ℚ) (dts : List ℚ) :
    (updatesRounded fl c (dt :: dts)).1 = (updatesRounded fl (updateRounded fl c dt).1 dts).1 :=
  rfl

/-- The state after no update. -/
theorem updatesRounded_nil_fst (fl : ℚ → ℚ) (c : AnimationChannel) :
    (updatesRounded fl c []).1 = c := rfl

/-- C5 fails in `float` arithmetic: the four steps `unevenSteps` are positive
floats whose sum is exactly 1, the length of the looping animation `pause`, but
the sums `1/2 + 2^-25` of the second and the third update round back to `1/2`,
so after the four updates the time is `1 - 2^-24` and has not been reset to
0. -/
theorem loop_wraparound_lost_by_rounding :
    (∀ d ∈ Example.unevenSteps, 0 < d ∧ roundFloat d = d) ∧
    Example.unevenSteps.sum = Example.pause.length ∧
    Example.pausing._animation = some Example.pause ∧
    Example.pausing._properties.flags &&& AnimationFlags.loop ≠ 0 ∧
    Example.pausing._properties.speed = 1 ∧ Example.pausing._time = 0 ∧
    (updatesRounded roundFloat Example.pausing Example.unevenSteps).1._time = 1 - 1 / 2 ^ 24 ∧
    (updatesRounded roundFloat Example.pausing Example.unevenSteps).1._time ≠ 0 := by
  obtain ⟨-, -, -, f1, f2, f3, f4, f5⟩ := roundFloat_examples
  have hs0 : Example.pausing._properties.speed = 1 := rfl
  have ht0 : Example.pausing._time = 0 := rfl
  have hlen : Example.pause.length = 1 := rfl
  obtain ⟨ha1, hfr1, hfi1, hp1, ht1⟩ := updateRounded_active_preserved roundFloat
    Example.pausing Example.pause (1 / 2) (1 / 2) rfl rfl rfl
    (by rw [hs0, ht0, one_mul, f1, zero_add, f1]) (by rw [hlen]; norm_num)
  obtain ⟨ha2, hfr2, hfi2, hp2, ht2⟩ := updateRounded_active_preserved roundFloat
    _ Example.pause (1 / 2 ^ 25) (1 / 2) ha1 hfr1 hfi1
    (by rw [hp1, ht1, hs0, one_mul, f2, f4]) (by rw [hlen]; norm_num)
  rw [hp1] at hp2
  obtain ⟨ha3, hfr3, hfi3, hp3, ht3⟩ := updateRounded_active_preserved roundFloat
    _ Example.pause (1 / 2 ^ 25) (1 / 2) ha2 hfr2 hfi2
    (by rw [hp2, ht2, hs0, one_mul, f2, f4]) (by rw [hlen]; norm_num)
  rw [hp2] at hp3
  obtain ⟨ha4, hfr4, hfi4, hp4, ht4⟩ := updateRounded_active_preserved roundFloat
    _ Example.pause (1 / 2 - 1 / 2 ^ 24) (1 - 1 / 2 ^ 24) ha3 hfr3 hfi3
    (by rw [hp3, ht3, hs0, one_mul, f3, f5]) (by rw [hlen]; norm_num)
  have hfinal : (updatesRounded roundFloat Example.pausing Example.unevenSteps).1._time =
      1 - 1 / 2 ^ 24 := by
    unfold Example.unevenSteps
    rw [updatesRounded_cons_fst, updatesRounded_cons_fst, updatesRounded_cons_fst,
      updatesRounded_cons_fst, updatesRounded_nil_fst]
    exact ht4
  refine ⟨?_, ?_, rfl, by decide, rfl, rfl, hfinal, ?_⟩
  · intro d hd
    simp only [Example.unevenSteps, List.mem_cons, List.mem_singleton, List.not_mem_nil,
      or_false] at hd
    rcases hd with rfl | rfl | rfl | rfl
    · exact ⟨by norm_num, f1⟩
    · exact ⟨by norm_num, f2⟩
    · exact ⟨by norm_num, f2⟩
    · exact ⟨by norm_num, f3⟩
  · norm_num [Example.unevenSteps, Example.pause]
  · rw [hfinal]
    norm_num

/-- C5, amended: a looping channel with animation length `L`, at time 0 and
playing at speed 1, is back at time 0 and still not finished after one or more
updates with positive `dt` that add up to exactly `L`, provided the
accumulation is exact in the arithmetic of the channel: every step and every
partial sum of the steps is a value that the rounding `fl` leaves unchanged.
Before the last of these updates the time is the sum of the steps made so far
and the channel is not finished, and the updates together signal the events of
the animation with a timestamp in `(0, L]`, each one once. -/
theorem loop_wraparound (fl : ℚ → ℚ) (c : AnimationChannel) (a : Animation) (dts : List ℚ)
    (ha : c._animation = some a) (hfreeze : c._freeze = false) (hfin : c._finished = false)
    (hloop : c._properties.flags &&& AnimationFlags.loop ≠ 0) (hspeed : c._properties.speed = 1)
    (htime : c._time = 0) (hne : dts ≠ []) (hpos : ∀ d ∈ dts, 0 < d)
    (hsum : dts.sum = a.length) (hstep : ∀ d ∈ dts, fl d = d)
    (hacc : ∀ n, n ≤ dts.length → fl (dts.take n).sum = (dts.take n).sum) :
    ((updatesRounded fl c dts).1._time = 0 ∧ (updatesRounded fl c dts).1._finished = false) ∧
    (∀ n, n < dts.length →
      (updatesRounded fl c (dts.take n)).1._time = (dts.take n).sum ∧
      (updatesRounded fl c (dts.take n)).1._finished = false) ∧
    ((updatesRounded fl c dts).2.flatten).Perm (signaledEvents a.events 0 a.length) := by
  have hall : updatesRounded fl c dts = updates c dts :=
    updatesRounded_eq_updates fl a dts c ha hfreeze hfin hspeed hpos
      (by rw [htime, zero_add, hsum]) hstep
      (by intro n hn; rw [htime, zero_add]; exact hacc n hn)
  have hlast : dts.dropLast.sum < a.length := by
    have h := List.dropLast_append_getLast hne
    have hs : dts.sum = dts.dropLast.sum + dts.getLast hne := by
      conv_lhs => rw [← h]
      simp
    have := hpos _ (List.getLast_mem hne)
    linarith
  refine ⟨?_, ?_, ?_⟩
  · rw [hall]
    exact updates_loop_cycle a dts c ha hfreeze hfin hloop hspeed hne hpos
      (by rw [htime, zero_add, hsum])
  · intro n hn
    have hsplit : dts.sum = (dts.take n).sum + (dts.drop n).sum := by
      conv_lhs => rw [← List.take_append_drop n dts]
      simp
    have hdrop : 0 < (dts.drop n).sum :=
      List.sum_pos _ (fun d hd => hpos d (List.mem_of_mem_drop hd))
        (by
          intro h
          have := congrArg List.length h
          simp at this
          omega)
    have hlt : (dts.take n).sum < a.length := by linarith
    have hpre : updatesRounded fl c (dts.take n) = updates c (dts.take n) :=
      updatesRounded_eq_updates fl a (dts.take n) c ha hfreeze hfin hspeed
        (fun d hd => hpos d (List.mem_of_mem_take hd)) (by rw [htime, zero_add]; exact le_of_lt hlt)
        (fun d hd => hstep d (List.mem_of_mem_take hd))
        (by
          intro m hm
          rw [htime, zero_add, List.take_take]
          have hm' : m ≤ n := by
            simp at hm
            omega
          rw [min_eq_left hm']
          exact hacc m (by omega))
    rw [hpre]
    have := updates_before_end a (dts.take n) c ha hfreeze hfin hspeed
      (fun d hd => hpos d (List.mem_of_mem_take hd)) (by rw [htime, zero_add]; exact hlt)
    rw [htime, zero_add] at this
    exact this
  · rw [hall]
    have h := updates_cycle_events a dts c ha hfreeze hfin (by rw [hspeed]; norm_num) hne hpos
      (by rw [htime, zero_add, hspeed, one_mul]; exact hlast)
      (by rw [htime, zero_add, hspeed, one_mul, hsum])
    rw [htime] at h
    exact h

/-- Witness for C5, amended: the looping walk animation of length 4, with its
event at time 2, stepped in `float` arithmetic by 1, 1 and 2. -/
theorem loop_wraparound_witness :
    ([1, 1, 2] : List ℚ).sum = Example.walk.length ∧
      ((updatesRounded roundFloat Example.strolling [1, 1, 2]).1._time = 0 ∧
        (updatesRounded roundFloat Example.strolling [1, 1, 2]).1._finished = false) ∧
      (updatesRounded roundFloat Example.strolling (([1, 1, 2] : List ℚ).take 2)).1._time =
        (([1, 1, 2] : List ℚ).take 2).sum ∧
      ((updatesRounded roundFloat Example.strolling [1, 1, 2]).2.flatten).Perm
        (signaledEvents Example.walk.events 0 Example.walk.length) :=
  have h := loop_wraparound roundFloat Example.strolling Example.walk [1, 1, 2] rfl rfl rfl
    (by decide) rfl rfl (by simp) (by norm_num) (by norm_num [Example.walk])
    (by
      intro d hd
      simp only [List.mem_cons, List.mem_singleton, List.not_mem_nil, or_false] at hd
      rcases hd with rfl | rfl | rfl
      · exact roundFloat_examples.1
      · exact roundFloat_examples.1
      · exact roundFloat_examples.2.1)
    (by
      intro n hn
      have hn' : n ≤ 3 := hn
      interval_cases n
      · simpa using roundFloat_zero
      · simpa using roundFloat_examples.1
      · norm_num
        exact roundFloat_examples.2.1
      · norm_num
        exact roundFloat_examples.2.2.1)
  ⟨by norm_num [Example.walk], h.1, (h.2.1 2 (by simp)).1, h.2.2⟩

end AnimationChannel

/-! ## Theorems: shadow light -/

namespace SceneGraph

/-- Any two candidates are comparable in the order handed to the sort. -/
theorem lightLe_total (a b : LightSceneNode × ℚ) : lightLe a b ∨ lightLe b a := by
  unfold lightLe lightLess
  cases ha : a.1.isDirectional <;> cases hb : b.1.isDirectional <;> simp [ha, hb] <;>
    exact le_total _ _

/-- The order handed to the sort is transitive. -/
theorem lightLe_trans (a b c : LightSceneNode × ℚ) : lightLe a b → lightLe b c → lightLe a c := by
  unfold lightLe lightLess
  cases ha : a.1.isDirectional <;> cases hb : b.1.isDirectional <;>
    cases hc : c.1.isDirectional <;> simp [ha, hb, hc] <;>
    exact fun h1 h2 => le_trans h1 h2

/-- The first element of the sorted candidates is the one ranked strictly
before all others. -/
theorem head_insertionSort_of_first (l : List (LightSceneNode × ℚ)) (a : LightSceneNode × ℚ)
    (ha : a ∈ l) (hfirst : ∀ b ∈ l, b ≠ a → lightLess a b = true) :
    (l.insertionSort lightLe).head? = some a := by
  haveI : IsTotal (LightSceneNode × ℚ) lightLe := ⟨lightLe_total⟩
  haveI : IsTrans (LightSceneNode × ℚ) lightLe := ⟨lightLe_trans⟩
  have hperm := List.perm_insertionSort lightLe l
  have hsorted := List.sorted_insertionSort lightLe l
  have hmem : a ∈ l.insertionSort lightLe := hperm.mem_iff.mpr ha
  cases hs : l.insertionSort lightLe with
  | nil => rw [hs] at hmem; simp at hmem
  | cons h t =>
    rw [hs] at hmem hsorted
    simp only [List.head?_cons, Option.some.injEq]
    by_contra hne
    have hh : h ∈ l := hperm.mem_iff.mp (by rw [hs]; exact List.mem_cons_self _ _)
    have h1 : lightLess a h = true := hfirst h hh hne
    have hat : a ∈ t := by
      rcases List.mem_cons.mp hmem with h' | h'
      · exact absurd h'.symm hne
      · exact h'
    have h2 : lightLe h a := List.rel_of_sorted_cons hsorted a hat
    unfold lightLe at h2
    rw [h1] at h2
    exact Bool.noConfusion h2

/-- The front of `computeClosestLights(1, pred)` is the front of the sorted candidates. -/
theorem computeClosestLights_one_head (g : SceneGraph) (camera : CameraSceneNode)
    (pred : LightSceneNode → ℚ → Bool) :
    (computeClosestLights g camera 1 pred).head? =
      ((g._lights.filterMap (fun light =>
        if !pred light (light.getSquareDistanceTo camera) then none
        else some (light, light.getSquareDistanceTo camera))).insertionSort lightLe).head?.map
        (fun e => e.1) := by
  unfold computeClosestLights
  simp only
  generalize (g._lights.filterMap _).insertionSort lightLe = sorted
  cases sorted with
  | nil => simp
  | cons h t => cases t <;> simp

/-- A light that satisfies the predicate and ranks strictly before every other
light satisfying it is the front of `computeClosestLights(1, pred)`. -/
theorem computeClosestLights_front (g : SceneGraph) (camera : CameraSceneNode)
    (pred : LightSceneNode → ℚ → Bool) (light : LightSceneNode) (hmem : light ∈ g._lights)
    (hpred : pred light (light.getSquareDistanceTo camera) = true)
    (hfirst : ∀ other ∈ g._lights, other ≠ light →
      pred other (other.getSquareDistanceTo camera) = true →
      lightLess (light, light.getSquareDistanceTo camera)
        (other, other.getSquareDistanceTo camera) = true) :
    (computeClosestLights g camera 1 pred).head? = some light := by
  rw [computeClosestLights_one_head]
  rw [head_insertionSort_of_first _ (light, light.getSquareDistanceTo camera)]
  · rfl
  · rw [List.mem_filterMap]
    exact ⟨light, hmem, by simp [hpred]⟩
  · intro b hb hne
    rw [List.mem_filterMap] at hb
    obtain ⟨other, hother, hb⟩ := hb
    by_cases hp : pred other (other.getSquareDistanceTo camera) = true
    · simp only [hp, Bool.not_true, Bool.false_eq_true, if_false, Option.some.injEq] at hb
      subst hb
      have hol : other ≠ light := by
        intro h
        apply hne
        rw [h]
      exact hfirst other hother hol hp
    · simp [hp] at hb

/-- While the shadow light is active and is the front candidate, `updateShadowLight`
keeps it, active. -/
theorem updateShadowLight_keep (g : SceneGraph) (camera : CameraSceneNode) (dt : ℚ)
    (light : LightSceneNode) (hL : g._shadowLight = some light.id) (hact : g._shadowActive = true)
    (hfront : (computeClosestLights g camera 1 shadowPred).head? = some light) :
    (updateShadowLight g camera dt)._shadowLight = some light.id ∧
      (updateShadowLight g camera dt)._shadowActive = true := by
  unfold updateShadowLight
  cases hc : computeClosestLights g camera 1 shadowPred with
  | nil => rw [hc] at hfront; simp at hfront
  | cons h t =>
    rw [hc] at hfront
    simp only [List.head?_cons, Option.some.injEq] at hfront
    subst hfront
    simp [hL, hact]

/-- With no shadow light set, `updateShadowLight` picks the front candidate
and leaves the strength as it is. -/
theorem updateShadowLight_choose (g : SceneGraph) (camera : CameraSceneNode) (dt : ℚ)
    (light : LightSceneNode) (hL : g._shadowLight = none)
    (hfront : (computeClosestLights g camera 1 shadowPred).head? = some light) :
    (updateShadowLight g camera dt)._shadowLight = some light.id ∧
      (updateShadowLight g camera dt)._shadowActive = true ∧
      (updateShadowLight g camera dt)._shadowStrength = g._shadowStrength := by
  unfold updateShadowLight
  simp [hL, hfront]

/-- The strength of a shadow light that is kept fades in. -/
theorem updateShadowLight_keep_strength (g : SceneGraph) (camera : CameraSceneNode) (dt : ℚ)
    (light : LightSceneNode) (hL : g._shadowLight = some light.id) (hact : g._shadowActive = true)
    (hfront : (computeClosestLights g camera 1 shadowPred).head? = some light) :
    (updateShadowLight g camera dt)._shadowStrength =
      min 1 (g._shadowStrength + kShadowFadeSpeed * dt) := by
  unfold updateShadowLight
  cases hc : computeClosestLights g camera 1 shadowPred with
  | nil => rw [hc] at hfront; simp at hfront
  | cons h t =>
    rw [hc] at hfront
    simp only [List.head?_cons, Option.some.injEq] at hfront
    subst hfront
    simp [hL, hact]

/-- When another light is the front candidate and the strength fades to 0 in
this call, the shadow light is replaced by that candidate. -/
theorem updateShadowLight_switch (g : SceneGraph) (camera : CameraSceneNode) (dt : ℚ) (L : Nat)
    (front : LightSceneNode) (hL : g._shadowLight = some L)
    (hfront : (computeClosestLights g camera 1 shadowPred).head? = some front)
    (hne : front.id ≠ L) (hfade : g._shadowStrength ≤ kShadowFadeSpeed * dt) :
    (updateShadowLight g camera dt)._shadowLight = some front.id ∧
      (updateShadowLight g camera dt)._shadowActive = true := by
  unfold updateShadowLight
  cases hc : computeClosestLights g camera 1 shadowPred with
  | nil => rw [hc] at hfront; simp at hfront
  | cons h t =>
    rw [hc] at hfront
    simp only [List.head?_cons, Option.some.injEq] at hfront
    subst hfront
    have hne' : ¬ L = h.id := fun e => hne e.symm
    have hmax : max 0 (g._shadowStrength - kShadowFadeSpeed * dt) = 0 :=
      max_eq_left (by linarith)
    simp [hL, hne', hmax]

/-- At the world origin `lightA` is the only shadow candidate. -/
theorem Example.front_at_origin (g : SceneGraph) (h : g._lights = [Example.lightA, Example.lightB]) :
    (computeClosestLights g ⟨⟨0, 0, 0⟩⟩ 1 shadowPred).head? = some Example.lightA := by
  apply computeClosestLights_front
  · rw [h]; exact List.mem_cons_self _ _
  · norm_num [Example.lightA, shadowPred, LightSceneNode.getSquareDistanceTo, Vec3.distance2,
      Vec3.dot, Vec3.sub]
  · intro other hother hne hp
    rw [h] at hother
    simp only [List.mem_cons, List.mem_singleton, List.not_mem_nil, or_false] at hother
    rcases hother with h' | h'
    · exact absurd h' hne
    · subst h'
      norm_num [Example.lightB, shadowPred, LightSceneNode.getSquareDistanceTo, Vec3.distance2,
        Vec3.dot, Vec3.sub] at hp

/-- At `(10, 0, 0)` both lights are shadow candidates and `lightB` is the closer one. -/
theorem Example.front_at_ten (g : SceneGraph) (h : g._lights = [Example.lightA, Example.lightB]) :
    (computeClosestLights g ⟨⟨10, 0, 0⟩⟩ 1 shadowPred).head? = some Example.lightB := by
  apply computeClosestLights_front
  · rw [h]; exact List.mem_cons_of_mem _ (List.mem_cons_self _ _)
  · norm_num [Example.lightB, shadowPred, LightSceneNode.getSquareDistanceTo, Vec3.distance2,
      Vec3.dot, Vec3.sub]
  · intro other hother hne _
    rw [h] at hother
    simp only [List.mem_cons, List.mem_singleton, List.not_mem_nil, or_false] at hother
    rcases hother with h' | h'
    · subst h'
      norm_num [Example.lightA, Example.lightB, lightLess, LightSceneNode.getSquareDistanceTo,
        Vec3.distance2, Vec3.dot, Vec3.sub]
    · exact absurd h' hne

/-- The shadow state of `Example.litGraph`: `lightA` is chosen, active, at strength 1/2. -/
theorem Example.litGraph_shadow :
    Example.litGraph._shadowLight = some Example.lightA.id ∧
      Example.litGraph._shadowActive = true ∧ Example.litGraph._shadowStrength = 1 / 2 := by
  have h1 := updateShadowLight_choose
    { Example.emptyGraph with
      _lights := [Example.lightA, Example.lightB], _activeCamera := some ⟨⟨0, 0, 0⟩⟩ }
    ⟨⟨0, 0, 0⟩⟩ (1 / 2) Example.lightA rfl (Example.front_at_origin _ rfl)
  have hfront2 := Example.front_at_origin
    { shadowFrame Example.emptyGraph ([Example.lightA, Example.lightB], ⟨⟨0, 0, 0⟩⟩, 1 / 2) with
      _lights := [Example.lightA, Example.lightB], _activeCamera := some ⟨⟨0, 0, 0⟩⟩ } rfl
  have h2 := updateShadowLight_keep
    { shadowFrame Example.emptyGraph ([Example.lightA, Example.lightB], ⟨⟨0, 0, 0⟩⟩, 1 / 2) with
      _lights := [Example.lightA, Example.lightB], _activeCamera := some ⟨⟨0, 0, 0⟩⟩ }
    ⟨⟨0, 0, 0⟩⟩ (1 / 4) Example.lightA h1.1 h1.2.1 hfront2
  have h3 := updateShadowLight_keep_strength
    { shadowFrame Example.emptyGraph ([Example.lightA, Example.lightB], ⟨⟨0, 0, 0⟩⟩, 1 / 2) with
      _lights := [Example.lightA, Example.lightB], _activeCamera := some ⟨⟨0, 0, 0⟩⟩ }
    ⟨⟨0, 0, 0⟩⟩ (1 / 4) Example.lightA h1.1 h1.2.1 hfront2
  refine ⟨h2.1, h2.2, ?_⟩
  have h4 : (shadowFrame Example.emptyGraph
      ([Example.lightA, Example.lightB], ⟨⟨0, 0, 0⟩⟩, 1 / 2))._shadowStrength = 0 := h1.2.2
  show (updateShadowLight _ _ _)._shadowStrength = 1 / 2
  rw [h3]
  show min 1 ((shadowFrame Example.emptyGraph _)._shadowStrength + _) = 1 / 2
  rw [h4]
  norm_num [kShadowFadeSpeed]

/-- C7, as stated, fails: `lightA` is the active shadow light, the camera moves
to `(10, 0, 0)` where `lightA` still satisfies the selection predicate but
`lightB` is closer, and after that frame the shadow light is `lightB`. -/
theorem shadow_light_switches_to_closer :
    Example.litGraph._shadowLight = some Example.lightA.id ∧
    Example.litGraph._shadowActive = true ∧
    shadowPred Example.lightA (Example.lightA.getSquareDistanceTo ⟨⟨10, 0, 0⟩⟩) = true ∧
    (shadowFrame Example.litGraph
      ([Example.lightA, Example.lightB], ⟨⟨10, 0, 0⟩⟩, 1 / 4))._shadowLight =
        some Example.lightB.id := by
  obtain ⟨h1, h2, h3⟩ := Example.litGraph_shadow
  refine ⟨h1, h2, ?_, ?_⟩
  · norm_num [Example.lightA, shadowPred, LightSceneNode.getSquareDistanceTo, Vec3.distance2,
      Vec3.dot, Vec3.sub]
  · exact (updateShadowLight_switch
      { Example.litGraph with
        _lights := [Example.lightA, Example.lightB], _activeCamera := some ⟨⟨10, 0, 0⟩⟩ }
      ⟨⟨10, 0, 0⟩⟩ (1 / 4) Example.lightA.id Example.lightB h1 (Example.front_at_ten _ rfl)
      (by decide) (by
        show Example.litGraph._shadowStrength ≤ _
        rw [h3]
        norm_num [kShadowFadeSpeed])).1

end SceneGraph

/-! ## Theorems: raycast queries -/

namespace SceneGraph

/-- The loop of `testWalk` keeps the nearest of the qualifying hits of the roots. -/
theorem testWalkLoop_eq (g : SceneGraph) (origin dir : Vec3) (maxDistance : ℚ)
    (excludeUser : Option Nat) (roots : List WalkmeshSceneNode) :
    ∀ st, testWalkLoop g origin dir maxDistance excludeUser roots st =
      (roots.filterMap (walkHit g origin dir maxDistance excludeUser)).foldl keepNearest st := by
  induction roots with
  | nil => intro st; rfl
  | cons root rest ih =>
    intro st
    unfold testWalkLoop
    by_cases he : (!root.enabled || root.user == excludeUser) = true
    · have hnone : walkHit g origin dir maxDistance excludeUser root = none := by
        unfold walkHit
        simp only [Bool.or_eq_true, Bool.not_eq_true', beq_iff_eq] at he
        rcases he with he | he
        · simp [he]
        · simp [he]
      simp only [he, if_true, List.filterMap_cons, hnone, ih]
    · have he1 : root.enabled = true := by
        cases h : root.enabled
        · simp [h] at he
        · rfl
      have he2 : (root.user != excludeUser) = true := by
        simp only [Bool.or_eq_true, Bool.not_eq_true', beq_iff_eq, not_or] at he
        simpa using he.2
      by_cases hd : (!root.walkmesh.isAreaWalkmesh &&
          decide (root.getSquareDistanceTo origin > kMaxCollisionDistanceWalk2)) = true
      · have hnone : walkHit g origin dir maxDistance excludeUser root = none := by
          unfold walkHit
          simp only [Bool.and_eq_true, Bool.not_eq_true', decide_eq_true_eq] at hd
          simp [hd.1, not_le.mpr hd.2]
        simp only [he, hd, Bool.false_eq_true, if_false, if_true, List.filterMap_cons, hnone, ih]
      · have hpass : (root.walkmesh.isAreaWalkmesh ||
            decide (root.getSquareDistanceTo origin ≤ kMaxCollisionDistanceWalk2)) = true := by
          simp only [Bool.and_eq_true, Bool.not_eq_true', decide_eq_true_eq, not_and, not_lt] at hd
          cases ha : root.walkmesh.isAreaWalkmesh
          · simpa using hd ha
          · simp
        cases hr : root.walkmesh.raycast g._walkcheckSurfaces
            (Vec4.toVec3 (Mat4.mulVec root.absoluteTransformInverse (Vec4.ofVec3 origin 1)))
            (Vec4.toVec3 (Mat4.mulVec root.absoluteTransformInverse (Vec4.ofVec3 dir 0)))
            kMaxCollisionDistanceWalk with
        | none =>
          have hnone : walkHit g origin dir maxDistance excludeUser root = none := by
            unfold walkHit
            simp [he1, he2, hpass, hr]
          simp only [he, hd, Bool.false_eq_true, if_false, hr, List.filterMap_cons, hnone, ih]
        | some hit =>
          obtain ⟨face, distance⟩ := hit
          by_cases hmax : distance ≤ maxDistance
          · have hsome : walkHit g origin dir maxDistance excludeUser root =
                some (collisionAt root face origin dir distance, distance) := by
              unfold walkHit
              simp [he1, he2, hpass, hr, hmax]
            simp only [he, hd, Bool.false_eq_true, if_false, hr, List.filterMap_cons, hsome, ih,
              List.foldl_cons, keepNearest]
            by_cases hgt : distance > st.2
            · simp [hgt]
            · simp [hgt, not_lt.mpr hmax]
          · have hnone : walkHit g origin dir maxDistance excludeUser root = none := by
              unfold walkHit
              simp [he1, he2, hpass, hr, hmax]
              exact not_le.mp hmax
            simp only [he, hd, Bool.false_eq_true, if_false, hr, List.filterMap_cons, hnone, ih]
            simp [not_le.mp hmax]

/-- Keeping the nearest ends with the start value or with one of the hits. -/
theorem foldl_keepNearest_mem (hits : List (Collision × ℚ)) :
    ∀ st, hits.foldl keepNearest st = st ∨ hits.foldl keepNearest st ∈ hits := by
  induction hits with
  | nil => intro st; exact Or.inl rfl
  | cons hit rest ih =>
    intro st
    simp only [List.foldl_cons]
    rcases ih (keepNearest st hit) with h | h
    · rw [h]
      unfold keepNearest
      by_cases hgt : hit.2 > st.2
      · simp [hgt]
      · simp [hgt]
    · exact Or.inr (List.mem_cons_of_mem _ h)

/-- The collision of a walk hit lies on the ray at the hit distance and carries
the user of its root. -/
theorem walkHit_some (g : SceneGraph) (origin dir : Vec3) (maxDistance : ℚ)
    (excludeUser : Option Nat) (root : WalkmeshSceneNode) (c : Collision) (d : ℚ)
    (h : walkHit g origin dir maxDistance excludeUser root = some (c, d)) :
    c.intersection = Vec3.add origin (Vec3.smul d dir) ∧ c.user = root.user := by
  unfold walkHit at h
  split at h
  · simp only [Option.map_eq_some', Prod.mk.injEq] at h
    obtain ⟨hit, _, hc, hd⟩ := h
    subst hc hd
    exact ⟨rfl, rfl⟩
  · exact Option.noConfusion h

/-- The query `testWalk` keeps the nearest qualifying walk hit. -/
theorem testWalk_eq (sqrt : ℚ → ℚ) (g : SceneGraph) (origin dest : Vec3)
    (excludeUser : Option Nat) (out : Collision) :
    testWalk sqrt g origin dest excludeUser out =
      nearestQuery (walkHit g origin (Vec3.normalize sqrt (Vec3.sub dest origin))
        (Vec3.length sqrt (Vec3.sub dest origin)) excludeUser) out g._walkmeshRoots := by
  unfold testWalk nearestQuery
  simp only [testWalkLoop_eq]

/-- The identity transform leaves a point or a direction as it is. -/
theorem mulVec_identity (v : Vec3) (w : ℚ) :
    Vec4.toVec3 (Mat4.mulVec Mat4.identity (Vec4.ofVec3 v w)) = v := by
  cases v
  simp [Mat4.mulVec, Mat4.identity, Vec4.ofVec3, Vec4.toVec3, Vec4.add, Vec4.smul]

/-- The origin of a root with the identity transform is the world origin. -/
theorem getOrigin_identity (root : WalkmeshSceneNode) (h : root.absoluteTransform = Mat4.identity) :
    root.getOrigin = ⟨0, 0, 0⟩ := by
  simp [WalkmeshSceneNode.getOrigin, h, Mat4.identity, Vec4.toVec3]

/-- The downward ray of `testElevation` against a flat floor at height 0. -/
theorem flatFloor_raycast_down (isArea : Bool) (m : Nat) (surfaces : List Nat) (x y : ℚ) :
    (Walkmesh.flatFloor isArea 0 m).raycast surfaces ⟨x, y, kElevationTestZ⟩ ⟨0, 0, -1⟩
        (2 * kElevationTestZ) =
      if surfaces.contains m then some (⟨m, ⟨0, 0, 1⟩⟩, 1024) else none := by
  by_cases h : surfaces.contains m = true
  · simp only [Walkmesh.flatFloor, h, kElevationTestZ]
    norm_num
  · have h' : m ∉ surfaces := by simpa using h
    simp [Walkmesh.flatFloor, h']

/-- The decision of `testElevation` for a scene whose only root is an enabled
flat floor at height 0 under the identity transform. -/
theorem testElevation_single_floor (g : SceneGraph) (root : WalkmeshSceneNode) (isArea : Bool)
    (m : Nat) (x y : ℚ) (out : Collision) (hroots : g._walkmeshRoots = [root])
    (hen : root.enabled = true) (hid : root.absoluteTransform = Mat4.identity)
    (hinv : root.absoluteTransformInverse = Mat4.identity)
    (hmesh : root.walkmesh = Walkmesh.flatFloor isArea 0 m) :
    testElevation g ⟨x, y⟩ out =
      if !isArea && decide (x * x + y * y > 64) then (false, out)
      else if g._walkcheckSurfaces.contains m then
        if g._walkableSurfaces.contains m then
          (true, { user := root.user, intersection := ⟨x, y, 0⟩, normal := ⟨0, 0, 1⟩,
                   material := m })
        else (false, out)
      else (false, out) := by
  have harea : root.walkmesh.isAreaWalkmesh = isArea := by rw [hmesh]; rfl
  have hdist : root.getSquareDistanceTo2D ⟨x, y⟩ = x * x + y * y := by
    simp only [WalkmeshSceneNode.getSquareDistanceTo2D, getOrigin_identity root hid,
      Vec2.distance2]
    ring
  have hk : kMaxCollisionDistanceWalk2 = 64 := by
    norm_num [kMaxCollisionDistanceWalk2, kMaxCollisionDistanceWalk]
  unfold testElevation
  rw [hroots]
  unfold testElevationLoop
  simp only [hen, Bool.not_true, Bool.false_eq_true, if_false, harea, hdist, hk]
  by_cases hfar : (!isArea && decide (x * x + y * y > 64)) = true
  · simp only [hfar, if_true, testElevationLoop]
  · simp only [hfar, Bool.false_eq_true, if_false, hinv, mulVec_identity, hmesh,
      flatFloor_raycast_down]
    by_cases hc : g._walkcheckSurfaces.contains m = true
    · simp only [hc, if_true]
      by_cases hw : g._walkableSurfaces.contains m = true
      · simp only [hw, Bool.not_true, Bool.false_eq_true, if_false, if_true, collisionAt, hid,
          mulVec_identity, Prod.mk.injEq, true_and]
        simp [Vec3.add, Vec3.smul, kElevationTestZ]
      · have hw' : m ∉ g._walkableSurfaces := by simpa using hw
        simp [hw']
    · simp only [hc, Bool.false_eq_true, if_false, testElevationLoop]

/-- C10, as stated, fails twice: a flat floor at height 0 with the walkable
material 1 yields `false` when material 1 is not among the walk-check
surfaces, and also when the root is not an area walkmesh and the query point
`(100, 0)` is farther than 8 from the origin of the root. -/
theorem testElevation_walkable_floor_rejected :
    Example.uncheckedFloor._walkableSurfaces.contains 1 = true ∧
    (testElevation Example.uncheckedFloor ⟨0, 0⟩ Example.noCollision).1 = false ∧
    Example.placeableFloor._walkableSurfaces.contains 1 = true ∧
    (testElevation Example.placeableFloor ⟨100, 0⟩ Example.noCollision).1 = false := by
  refine ⟨by decide, ?_, by decide, ?_⟩
  · rw [testElevation_single_floor Example.uncheckedFloor Example.floorRoot true 1 0 0
      Example.noCollision rfl rfl rfl rfl rfl]
    simp [Example.uncheckedFloor]
  · rw [testElevation_single_floor Example.placeableFloor Example.placeableRoot false 1 100 0
      Example.noCollision rfl rfl rfl rfl rfl]
    norm_num

/-- C10, amended: for a scene whose single walkmesh root is enabled, has the
identity transform and is a flat floor at height 0 with material `m`,
`testElevation` at `(x, y)` returns `true` with intersection `(x, y, 0)`, the
floor normal, material `m` and the root's user when `m` is walkable and among
the walk-check surfaces and the root is an area walkmesh or `(x, y)` lies
within distance 8 of the root's origin; it returns `false`, leaving
`outCollision` untouched, when `m` is not walkable. -/
theorem testElevation_flat_floor (g : SceneGraph) (root : WalkmeshSceneNode) (isArea : Bool)
    (m : Nat) (x y : ℚ) (out : Collision) (hroots : g._walkmeshRoots = [root])
    (hen : root.enabled = true) (hid : root.absoluteTransform = Mat4.identity)
    (hinv : root.absoluteTransformInverse = Mat4.identity)
    (hmesh : root.walkmesh = Walkmesh.flatFloor isArea 0 m) :
    (g._walkableSurfaces.contains m = true → g._walkcheckSurfaces.contains m = true →
      (isArea = true ∨ x * x + y * y ≤ 8 * 8) →
      testElevation g ⟨x, y⟩ out =
        (true, { user := root.user, intersection := ⟨x, y, 0⟩, normal := ⟨0, 0, 1⟩,
                 material := m })) ∧
    (g._walkableSurfaces.contains m = false → testElevation g ⟨x, y⟩ out = (false, out)) := by
  rw [testElevation_single_floor g root isArea m x y out hroots hen hid hinv hmesh]
  constructor
  · intro hw hc hnear
    have hfar : (!isArea && decide (x * x + y * y > 64)) = false := by
      rcases hnear with h | h
      · simp [h]
      · have : ¬ x * x + y * y > 64 := by
          have h8 : (8 : ℚ) * 8 = 64 := by norm_num
          rw [h8] at h
          exact not_lt.mpr h
        simp [this]
    have hw' : m ∈ g._walkableSurfaces := by simpa using hw
    have hc' : m ∈ g._walkcheckSurfaces := by simpa using hc
    simp [hfar, hw', hc']
  · intro hw
    have hw' : m ∉ g._walkableSurfaces := by simpa using hw
    simp [hw']

/-- Witness for C10 (amended): the floor that is not an area walkmesh, queried
at `(3, 4)`, within distance 8 of its origin. -/
theorem testElevation_flat_floor_witness :
    testElevation Example.placeableFloor ⟨3, 4⟩ Example.noCollision =
      (true, { user := some 300, intersection := ⟨3, 4, 0⟩, normal := ⟨0, 0, 1⟩,
               material := 1 }) :=
  (testElevation_flat_floor Example.placeableFloor Example.placeableRoot false 1 3 4
    Example.noCollision rfl rfl rfl rfl rfl).1 (by decide) (by decide) (Or.inr (by norm_num))

/-- C9 fails on the code: with a walkable floor at height 0 and a non-walkable
platform at height 2 above it, the downward ray hits the platform first, yet
`testElevation` answers with the floor when the floor root is visited first,
and with `false` when the platform root is visited first. -/
theorem testElevation_depends_on_root_order :
    testElevation Example.floorThenPlatform ⟨0, 0⟩ Example.noCollision =
      (true, { user := some 100, intersection := ⟨0, 0, 0⟩, normal := ⟨0, 0, 1⟩,
               material := 1 }) ∧
    testElevation Example.platformThenFloor ⟨0, 0⟩ Example.noCollision =
      (false, Example.noCollision) := by
  constructor
  · unfold testElevation
    simp only [Example.floorThenPlatform]
    unfold testElevationLoop
    simp only [Example.floorRoot, mulVec_identity, flatFloor_raycast_down, Example.emptyGraph,
      collisionAt]
    norm_num [Walkmesh.flatFloor, Vec3.add, Vec3.smul, kElevationTestZ, Vec4.ofVec3,
      Vec4.toVec3, Mat4.mulVec, Mat4.identity, Vec4.add, Vec4.smul]
  · unfold testElevation
    simp only [Example.platformThenFloor]
    unfold testElevationLoop
    simp only [Example.platformRoot, mulVec_identity, Example.emptyGraph]
    norm_num [Walkmesh.flatFloor, kElevationTestZ]

end SceneGraph

/-! ## Theorems: walk collisions, culling and the shadow strength -/

namespace SceneGraph

/-- A walk hit comes from an enabled root that `excludeUser` does not own, whose
raycast with the maximum walk collision distance found a face no farther than
the segment length. -/
theorem walkHit_some_root (g : SceneGraph) (origin dir : Vec3) (maxDistance : ℚ)
    (excludeUser : Option Nat) (root : WalkmeshSceneNode) (c : Collision) (d : ℚ)
    (h : walkHit g origin dir maxDistance excludeUser root = some (c, d)) :
    root.enabled = true ∧ root.user ≠ excludeUser ∧ d ≤ maxDistance ∧
      ∃ face, root.walkmesh.raycast g._walkcheckSurfaces
        (Vec4.toVec3 (Mat4.mulVec root.absoluteTransformInverse (Vec4.ofVec3 origin 1)))
        (Vec4.toVec3 (Mat4.mulVec root.absoluteTransformInverse (Vec4.ofVec3 dir 0)))
        kMaxCollisionDistanceWalk = some (face, d) := by
  unfold walkHit at h
  split at h
  · rename_i hcond
    simp only [Bool.and_eq_true, bne_iff_ne, ne_eq] at hcond
    simp only [Option.map_eq_some', Prod.mk.injEq] at h
    obtain ⟨hit, hfilter, _, hd⟩ := h
    have hf := Option.mem_def.mpr hfilter
    simp only [Option.mem_def, Option.filter_eq_some, decide_eq_true_eq] at hf
    subst hd
    exact ⟨hcond.1.1, hcond.1.2, hf.2, hit.1, hf.1⟩
  · exact Option.noConfusion h

/-- A root that `excludeUser` owns contributes no walk hit. -/
theorem walkHit_excluded (g : SceneGraph) (origin dir : Vec3) (maxDistance : ℚ)
    (excludeUser : Option Nat) (root : WalkmeshSceneNode) (h : root.user = excludeUser) :
    walkHit g origin dir maxDistance excludeUser root = none := by
  unfold walkHit
  simp [h]

/-- The walk hits of the roots that `excludeUser` does not own are the walk hits
of all roots. -/
theorem walkHit_filterMap_filter (g : SceneGraph) (origin dir : Vec3) (maxDistance : ℚ)
    (excludeUser : Option Nat) (roots : List WalkmeshSceneNode) :
    (roots.filter (fun r => r.user != excludeUser)).filterMap
        (walkHit g origin dir maxDistance excludeUser) =
      roots.filterMap (walkHit g origin dir maxDistance excludeUser) := by
  induction roots with
  | nil => rfl
  | cons root rest ih =>
    by_cases h : root.user = excludeUser
    · simp [List.filter_cons, h, walkHit_excluded g origin dir maxDistance excludeUser root h, ih]
    · have h' : (root.user != excludeUser) = true := by simpa using h
      simp only [List.filter_cons, h', if_true, List.filterMap_cons, ih]

/-- C11: when `testWalk` reports a collision, it is the collision of an enabled
root whose user is not `excludeUser`, at a distance `d` along the ray that
exceeds neither the maximum walk collision distance 8 (the walkmesh raycast
honouring its `maxDistance` argument) nor the length of the segment; and two
scenes whose roots agree once the roots owned by `excludeUser` are left out
give the same result. -/
theorem testWalk_excludes_user (sqrt : ℚ → ℚ) (g : SceneGraph) (origin dest : Vec3)
    (excludeUser : Option Nat) (out : Collision)
    (hray : ∀ root ∈ g._walkmeshRoots, ∀ surfaces o dir maxDistance face distance,
      root.walkmesh.raycast surfaces o dir maxDistance = some (face, distance) →
        distance ≤ maxDistance) :
    ((testWalk sqrt g origin dest excludeUser out).1 = true →
      ∃ root ∈ g._walkmeshRoots, ∃ d, root.enabled = true ∧ root.user ≠ excludeUser ∧
        (testWalk sqrt g origin dest excludeUser out).2.user = root.user ∧
        (testWalk sqrt g origin dest excludeUser out).2.intersection =
          Vec3.add origin (Vec3.smul d (Vec3.normalize sqrt (Vec3.sub dest origin))) ∧
        d ≤ 8 ∧ d ≤ Vec3.length sqrt (Vec3.sub dest origin)) ∧
    ∀ roots' : List WalkmeshSceneNode,
      roots'.filter (fun r => r.user != excludeUser) =
          g._walkmeshRoots.filter (fun r => r.user != excludeUser) →
        testWalk sqrt { g with _walkmeshRoots := roots' } origin dest excludeUser out =
          testWalk sqrt g origin dest excludeUser out := by
  constructor
  · intro htrue
    rw [testWalk_eq] at htrue ⊢
    unfold nearestQuery at htrue ⊢
    simp only [decide_eq_true_eq] at htrue
    rcases foldl_keepNearest_mem
        (g._walkmeshRoots.filterMap (walkHit g origin
          (Vec3.normalize sqrt (Vec3.sub dest origin))
          (Vec3.length sqrt (Vec3.sub dest origin)) excludeUser)) (out, floatMax) with h | h
    · rw [h] at htrue
      exact absurd rfl htrue
    · obtain ⟨root, hroot, hhit⟩ := List.mem_filterMap.mp h
      obtain ⟨hen, huser, hmax, face, hcast⟩ := walkHit_some_root g _ _ _ _ root _ _ hhit
      obtain ⟨hinter, hu⟩ := walkHit_some g _ _ _ _ root _ _ hhit
      refine ⟨root, hroot, _, hen, huser, hu, hinter, ?_, hmax⟩
      have := hray root hroot _ _ _ _ _ _ hcast
      norm_num [kMaxCollisionDistanceWalk] at this
      exact this
  · intro roots' hroots
    rw [testWalk_eq, testWalk_eq]
    unfold nearestQuery
    have h1 := walkHit_filterMap_filter g origin (Vec3.normalize sqrt (Vec3.sub dest origin))
      (Vec3.length sqrt (Vec3.sub dest origin)) excludeUser roots'
    have h2 := walkHit_filterMap_filter g origin (Vec3.normalize sqrt (Vec3.sub dest origin))
      (Vec3.length sqrt (Vec3.sub dest origin)) excludeUser g._walkmeshRoots
    rw [hroots, h2] at h1
    show (decide ((List.foldl keepNearest (out, floatMax)
        (roots'.filterMap (walkHit g origin _ _ excludeUser))).2 ≠ floatMax),
      (List.foldl keepNearest (out, floatMax)
        (roots'.filterMap (walkHit g origin _ _ excludeUser))).1) = _
    rw [← h1]

/-- A flat floor honours the `maxDistance` argument of its raycast. -/
theorem flatFloor_honours_maxDistance (isArea : Bool) (height : ℚ) (m : Nat)
    (surfaces : List Nat) (o dir : Vec3) (maxDistance : ℚ) (face : Face) (distance : ℚ)
    (h : (Walkmesh.flatFloor isArea height m).raycast surfaces o dir maxDistance =
      some (face, distance)) : distance ≤ maxDistance := by
  simp only [Walkmesh.flatFloor] at h
  split at h
  · split at h
    · rename_i hd
      simp only [Option.some.injEq, Prod.mk.injEq] at h
      rw [← h.2]
      exact hd.2
    · exact Option.noConfusion h
  · exact Option.noConfusion h

/-- Witness for C11: the downward ray through the platform and the floor, with
the owner of the platform excluded. -/
theorem testWalk_excludes_user_witness :
    ((testWalk Example.sqrt Example.floorThenPlatform ⟨0, 0, 4⟩ ⟨0, 0, -1⟩ (some 200)
        Example.noCollision).1 = true →
      ∃ root ∈ Example.floorThenPlatform._walkmeshRoots, ∃ d, root.enabled = true ∧
        root.user ≠ some 200 ∧
        (testWalk Example.sqrt Example.floorThenPlatform ⟨0, 0, 4⟩ ⟨0, 0, -1⟩ (some 200)
          Example.noCollision).2.user = root.user ∧
        (testWalk Example.sqrt Example.floorThenPlatform ⟨0, 0, 4⟩ ⟨0, 0, -1⟩ (some 200)
          Example.noCollision).2.intersection =
          Vec3.add ⟨0, 0, 4⟩
            (Vec3.smul d (Vec3.normalize Example.sqrt (Vec3.sub ⟨0, 0, -1⟩ ⟨0, 0, 4⟩))) ∧
        d ≤ 8 ∧ d ≤ Vec3.length Example.sqrt (Vec3.sub ⟨0, 0, -1⟩ ⟨0, 0, 4⟩)) ∧
    ∀ roots' : List WalkmeshSceneNode,
      roots'.filter (fun r => r.user != some 200) =
          Example.floorThenPlatform._walkmeshRoots.filter (fun r => r.user != some 200) →
        testWalk Example.sqrt { Example.floorThenPlatform with _walkmeshRoots := roots' }
            ⟨0, 0, 4⟩ ⟨0, 0, -1⟩ (some 200) Example.noCollision =
          testWalk Example.sqrt Example.floorThenPlatform ⟨0, 0, 4⟩ ⟨0, 0, -1⟩ (some 200)
            Example.noCollision :=
  testWalk_excludes_user Example.sqrt Example.floorThenPlatform ⟨0, 0, 4⟩ ⟨0, 0, -1⟩ (some 200)
    Example.noCollision (by
      intro root hroot surfaces o dir maxDistance face distance h
      simp only [Example.floorThenPlatform, List.mem_cons, List.mem_singleton,
        List.not_mem_nil, or_false] at hroot
      rcases hroot with rfl | rfl
      · exact flatFloor_honours_maxDistance _ _ _ _ _ _ _ _ _ h
      · exact flatFloor_honours_maxDistance _ _ _ _ _ _ _ _ _ h)

/-- Setting the flag of a light keeps the length of the active list. -/
theorem setLightActive_length (g : SceneGraph) (id : Nat) (active : Bool) :
    (setLightActive g id active)._activeLights.length = g._activeLights.length := by
  simp [setLightActive]

/-- The de-activation loop keeps the length of the active list. -/
theorem deactivateLoop_length (todo : List LightSceneNode) :
    ∀ (g : SceneGraph) (lookup : List LightSceneNode),
      (deactivateLoop todo (g, lookup)).1._activeLights.length = g._activeLights.length := by
  induction todo with
  | nil => intro g lookup; rfl
  | cons light rest ih =>
    intro g lookup
    unfold deactivateLoop
    split
    · rw [ih, setLightActive_length]
    · rw [ih]

/-- The activation loop never fills the active list beyond `kMaxLights`. -/
theorem activateLoop_length (kMaxLights : Nat) (lookup : List LightSceneNode) :
    ∀ g : SceneGraph, g._activeLights.length ≤ kMaxLights →
      (activateLoop kMaxLights lookup g)._activeLights.length ≤ kMaxLights := by
  induction lookup with
  | nil => intro g h; exact h
  | cons light rest ih =>
    intro g h
    unfold activateLoop
    split
    · exact h
    · rename_i hlt
      apply ih
      simp only [List.length_append, List.length_singleton, setLightActive_length]
      omega

/-- The call `updateLighting` keeps the active list within `kMaxLights`. -/
theorem updateLighting_length (kMaxLights : Nat) (g : SceneGraph) (camera : CameraSceneNode)
    (h : g._activeLights.length ≤ kMaxLights) :
    (updateLighting kMaxLights g camera)._activeLights.length ≤ kMaxLights := by
  unfold updateLighting
  apply activateLoop_length
  simp only
  refine le_trans (List.length_filter_le _ _) ?_
  rw [deactivateLoop_length]
  exact h

/-- Every call keeps the active list within `kMaxLights`. -/
theorem applyOp_length (kMaxLights : Nat) (g : SceneGraph) (op : SceneOp)
    (h : g._activeLights.length ≤ kMaxLights) :
    (applyOp kMaxLights g op)._activeLights.length ≤ kMaxLights := by
  cases op with
  | addRootModel node =>
    simp only [applyOp, addRootModel]
    split <;> exact h
  | addRootWalkmesh node =>
    simp only [applyOp, addRootWalkmesh]
    split <;> exact h
  | addRootTrigger node =>
    simp only [applyOp, addRootTrigger]
    split <;> exact h
  | addRootGrass node =>
    simp only [applyOp, addRootGrass]
    split <;> exact h
  | addRootSound node =>
    simp only [applyOp, addRootSound]
    split <;> exact h
  | removeRootModel node =>
    exact le_trans (List.length_filter_le _ _) h
  | removeRootWalkmesh node => exact h
  | removeRootTrigger node => exact h
  | removeRootGrass node => exact h
  | removeRootSound node => exact h
  | clear => exact Nat.zero_le _
  | updateLighting lights camera => exact updateLighting_length kMaxLights _ camera h
  | updateNodes f =>
    show (g._activeLights.map f).length ≤ kMaxLights
    rw [List.length_map]
    exact h

/-- C12: from a scene graph with no active lights, any sequence of `addRoot`,
`removeRoot`, `clear` and `updateLighting` calls, for any camera and any lights
collected in any frame, leaves at most `kMaxLights` lights in the active list. -/
theorem activeLights_bounded (kMaxLights : Nat) (g : SceneGraph) (ops : List SceneOp)
    (hempty : g._activeLights = []) :
    (applyOps kMaxLights g ops)._activeLights.length ≤ kMaxLights := by
  have h0 : g._activeLights.length ≤ kMaxLights := by rw [hempty]; exact Nat.zero_le _
  clear hempty
  unfold applyOps
  induction ops generalizing g with
  | nil => exact h0
  | cons op rest ih => exact ih (applyOp kMaxLights g op) (applyOp_length kMaxLights g op h0)

/-- Witness for C12: a model is added, the lighting is updated twice with two
lights in range and room for one, the model is removed and the graph cleared. -/
theorem activeLights_bounded_witness :
    (applyOps 1 Example.emptyGraph
      [.addRootModel Example.lamp,
       .updateLighting [Example.lightA, Example.lightB] ⟨⟨0, 0, 0⟩⟩,
       .updateLighting [Example.lightA, Example.lightB] ⟨⟨10, 0, 0⟩⟩,
       .removeRootModel 10, .clear])._activeLights.length ≤ 1 :=
  activeLights_bounded 1 Example.emptyGraph _ rfl

/-- C14, as stated, fails: the root `backdrop` has the draw distance -5 and lies
at distance 1 from the camera, which is greater, yet `cullRoots` leaves it
unculled. -/
theorem cullRoots_negative_drawDistance :
    Example.backdrop ∈ Example.propsGraph._modelRoots ∧
    (1 : ℚ) * 1 = Example.backdrop.getSquareDistanceTo ⟨⟨0, 0, 0⟩⟩ ∧
    Example.backdrop.drawDistance < 1 ∧
    { Example.backdrop with culled := false } ∈
      (cullRoots Example.propsGraph ⟨⟨0, 0, 0⟩⟩ (fun _ => true))._modelRoots := by
  refine ⟨List.mem_cons_self _ _, ?_, ?_, ?_⟩
  · norm_num [Example.backdrop, ModelSceneNode.getSquareDistanceTo, Vec3.distance2, Vec3.dot,
      Vec3.sub]
  · norm_num [Example.backdrop]
  · unfold cullRoots
    simp only [Example.propsGraph, List.map_cons]
    apply List.mem_cons.mpr
    left
    norm_num [Example.backdrop, ModelSceneNode.getSquareDistanceTo, Vec3.distance2, Vec3.dot,
      Vec3.sub]

/-- C14, amended: a model root with draw distance `D >= 0` whose distance to
the camera is greater than `D` (some `d > D` has `d * d` at most the squared
distance) is marked culled by `cullRoots`, whatever its
enabled flag, its cullable flag and the frustum test say. -/
theorem cullRoots_beyond_drawDistance (g : SceneGraph) (camera : CameraSceneNode)
    (isInFrustum : ModelSceneNode → Bool) (root : ModelSceneNode) (d : ℚ)
    (hroot : root ∈ g._modelRoots) (hD : 0 ≤ root.drawDistance)
    (hdist : d * d ≤ root.getSquareDistanceTo camera) (hfar : root.drawDistance < d) :
    { root with culled := true } ∈ (cullRoots g camera isInFrustum)._modelRoots := by
  unfold cullRoots
  simp only
  apply List.mem_map.mpr
  refine ⟨root, hroot, ?_⟩
  have hsq : root.drawDistance * root.drawDistance < d * d :=
    mul_self_lt_mul_self hD hfar
  have hgt : root.getSquareDistanceTo camera > root.drawDistance * root.drawDistance :=
    lt_of_lt_of_le hsq hdist
  simp [hgt]

/-- Witness for C14 (amended): `crate` has the draw distance 4 and lies at
distance 5 from the camera. -/
theorem cullRoots_beyond_drawDistance_witness :
    { Example.crate with culled := true } ∈
      (cullRoots Example.propsGraph ⟨⟨0, 0, 0⟩⟩ (fun _ => true))._modelRoots :=
  cullRoots_beyond_drawDistance Example.propsGraph ⟨⟨0, 0, 0⟩⟩ (fun _ => true) Example.crate 5
    (List.mem_cons_of_mem _ (List.mem_cons_self _ _)) (by norm_num [Example.crate])
    (by norm_num [Example.crate, ModelSceneNode.getSquareDistanceTo, Vec3.distance2, Vec3.dot,
      Vec3.sub])
    (by norm_num [Example.crate])

/-- The shadow members after `updateShadowLight` when a shadow light `L` is set:
fade-in while it is active and the front candidate, fade-out otherwise, with
the reference handed to the front candidate once the strength is 0. -/
theorem updateShadowLight_fields (g : SceneGraph) (camera : CameraSceneNode) (dt : ℚ) (L : Nat)
    (hL : g._shadowLight = some L) :
    ((g._shadowActive = true ∧
        (computeClosestLights g camera 1 shadowPred).head?.map (fun l => l.id) = some L) →
      (updateShadowLight g camera dt)._shadowStrength =
          min 1 (g._shadowStrength + kShadowFadeSpeed * dt) ∧
        (updateShadowLight g camera dt)._shadowLight = some L ∧
        (updateShadowLight g camera dt)._shadowActive = true) ∧
    (¬ (g._shadowActive = true ∧
        (computeClosestLights g camera 1 shadowPred).head?.map (fun l => l.id) = some L) →
      (updateShadowLight g camera dt)._shadowStrength =
          max 0 (g._shadowStrength - kShadowFadeSpeed * dt) ∧
        (¬ g._shadowStrength ≤ kShadowFadeSpeed * dt →
          (updateShadowLight g camera dt)._shadowLight = some L ∧
          (updateShadowLight g camera dt)._shadowActive = false) ∧
        (g._shadowStrength ≤ kShadowFadeSpeed * dt →
          (updateShadowLight g camera dt)._shadowLight =
            (computeClosestLights g camera 1 shadowPred).head?.map (fun l => l.id) ∧
          (updateShadowLight g camera dt)._shadowActive =
            (computeClosestLights g camera 1 shadowPred).head?.isSome)) := by
  by_cases hz : g._shadowStrength ≤ kShadowFadeSpeed * dt
  · have hmax : max 0 (g._shadowStrength - kShadowFadeSpeed * dt) = 0 :=
      max_eq_left (by linarith)
    cases hact : g._shadowActive <;> cases hc : computeClosestLights g camera 1 shadowPred
    · simp [updateShadowLight, hL, hact, hc, hz, hmax]
    · rename_i h t
      by_cases hid : L = h.id
      · subst hid
        simp [updateShadowLight, hL, hact, hc, hz, hmax]
      · have hid' : ¬ h.id = L := fun e => hid e.symm
        simp [updateShadowLight, hL, hact, hc, hz, hmax, hid, hid']
    · simp [updateShadowLight, hL, hact, hc, hz, hmax]
    · rename_i h t
      by_cases hid : L = h.id
      · subst hid
        simp [updateShadowLight, hL, hact, hc, hz]
      · have hid' : ¬ h.id = L := fun e => hid e.symm
        simp [updateShadowLight, hL, hact, hc, hz, hmax, hid, hid']
  · have hmax : ¬ max 0 (g._shadowStrength - kShadowFadeSpeed * dt) = 0 := by
      intro h
      have := le_max_right 0 (g._shadowStrength - kShadowFadeSpeed * dt)
      rw [h] at this
      exact hz (by linarith)
    cases hact : g._shadowActive <;> cases hc : computeClosestLights g camera 1 shadowPred
    · simp [updateShadowLight, hL, hact, hc, hz, hmax]
    · rename_i h t
      by_cases hid : L = h.id
      · subst hid
        simp [updateShadowLight, hL, hact, hc, hz, hmax]
      · have hid' : ¬ h.id = L := fun e => hid e.symm
        simp [updateShadowLight, hL, hact, hc, hz, hmax, hid, hid']
    · simp [updateShadowLight, hL, hact, hc, hz, hmax]
    · rename_i h t
      by_cases hid : L = h.id
      · subst hid
        simp [updateShadowLight, hL, hact, hc, hz]
      · have hid' : ¬ h.id = L := fun e => hid e.symm
        simp [updateShadowLight, hL, hact, hc, hz, hmax, hid, hid']

/-- C16: while a shadow light `L` is set, `updateShadowLight(dt)` with `dt >= 0`
moves the strength to `min(1, strength + kShadowFadeSpeed * dt)`, not
downward, and keeps `L`, when the light is active and still the front
candidate, and to `max(0, strength - kShadowFadeSpeed * dt)`, not upward,
otherwise; the reference is cleared or replaced only when the new strength is
exactly 0, never while it is positive. -/
theorem shadow_strength_ramp (g : SceneGraph) (camera : CameraSceneNode) (dt : ℚ) (L : Nat)
    (hL : g._shadowLight = some L) (hdt : 0 ≤ dt) :
    ((g._shadowActive = true ∧
        (computeClosestLights g camera 1 shadowPred).head?.map (fun l => l.id) = some L) →
      (updateShadowLight g camera dt)._shadowStrength =
          min 1 (g._shadowStrength + kShadowFadeSpeed * dt) ∧
        min 1 g._shadowStrength ≤ (updateShadowLight g camera dt)._shadowStrength ∧
        (updateShadowLight g camera dt)._shadowLight = some L ∧
        (updateShadowLight g camera dt)._shadowActive = true) ∧
    (¬ (g._shadowActive = true ∧
        (computeClosestLights g camera 1 shadowPred).head?.map (fun l => l.id) = some L) →
      (updateShadowLight g camera dt)._shadowStrength =
          max 0 (g._shadowStrength - kShadowFadeSpeed * dt) ∧
        (updateShadowLight g camera dt)._shadowStrength ≤ max 0 g._shadowStrength) ∧
    ((updateShadowLight g camera dt)._shadowLight ≠ some L →
      (updateShadowLight g camera dt)._shadowStrength = 0) ∧
    (0 < (updateShadowLight g camera dt)._shadowStrength →
      (updateShadowLight g camera dt)._shadowLight = some L) := by
  have hk : 0 ≤ kShadowFadeSpeed * dt := mul_nonneg (by norm_num [kShadowFadeSpeed]) hdt
  obtain ⟨hin, hout⟩ := updateShadowLight_fields g camera dt L hL
  have hclear : (updateShadowLight g camera dt)._shadowLight ≠ some L →
      (updateShadowLight g camera dt)._shadowStrength = 0 := by
    intro hne
    by_cases hvalid : g._shadowActive = true ∧
        (computeClosestLights g camera 1 shadowPred).head?.map (fun l => l.id) = some L
    · exact absurd (hin hvalid).2.1 hne
    · obtain ⟨hs, hkeep, _⟩ := hout hvalid
      by_cases hz : g._shadowStrength ≤ kShadowFadeSpeed * dt
      · rw [hs]
        exact max_eq_left (by linarith)
      · exact absurd (hkeep hz).1 hne
  refine ⟨fun hvalid => ?_, fun hvalid => ?_, hclear, fun hpos => ?_⟩
  · obtain ⟨hs, hl, ha⟩ := hin hvalid
    refine ⟨hs, ?_, hl, ha⟩
    rw [hs]
    exact min_le_min (le_refl _) (le_add_of_nonneg_right hk)
  · obtain ⟨hs, _, _⟩ := hout hvalid
    refine ⟨hs, ?_⟩
    rw [hs]
    exact max_le_max (le_refl _) (sub_le_self _ hk)
  · by_contra hne
    rw [hclear hne] at hpos
    exact lt_irrefl _ hpos

/-- Witness for C16: `lightA` is the active shadow light at strength 1/2 and is
still the front candidate in a frame of 1/8 s. -/
theorem shadow_strength_ramp_witness :
    ({ Example.litGraph with
        _lights := [Example.lightA, Example.lightB] } : SceneGraph)._shadowLight = some 1 ∧
      (0 : ℚ) ≤ 1 / 8 ∧
      ((updateShadowLight
          { Example.litGraph with _lights := [Example.lightA, Example.lightB] }
          ⟨⟨0, 0, 0⟩⟩ (1 / 8))._shadowLight ≠ some 1 →
        (updateShadowLight
          { Example.litGraph with _lights := [Example.lightA, Example.lightB] }
          ⟨⟨0, 0, 0⟩⟩ (1 / 8))._shadowStrength = 0) :=
  ⟨Example.litGraph_shadow.1, by norm_num,
    (shadow_strength_ramp
      { Example.litGraph with _lights := [Example.lightA, Example.lightB] }
      ⟨⟨0, 0, 0⟩⟩ (1 / 8) 1 Example.litGraph_shadow.1 (by norm_num)).2.2.1⟩

/-- C17 fails on the code: `lightA` of the model `lamp` is the shadow light and
an active light; `removeRoot(lamp)` erases the model from the roots and its
light from the active list, but the shadow-light reference still points to
`lightA`. -/
theorem removeRoot_keeps_shadow_reference :
    Example.lightA.model = Example.lamp.id ∧
    Example.lampGraph._shadowLight = some Example.lightA.id ∧
    (removeRootModel Example.lampGraph Example.lamp.id)._modelRoots = [] ∧
    (removeRootModel Example.lampGraph Example.lamp.id)._activeLights = [] ∧
    (removeRootModel Example.lampGraph Example.lamp.id)._shadowLight =
      some Example.lightA.id := by
  refine ⟨rfl, Example.litGraph_shadow.1, ?_, ?_, Example.litGraph_shadow.1⟩
  · simp [removeRootModel, Example.lampGraph, Example.lamp]
  · simp [removeRootModel, Example.lampGraph, Example.lamp, Example.lightA]

end SceneGraph

/-! ## Theorems: light selection -/

namespace SceneGraph

/-- The order handed to the sort, spelled out. -/
theorem lightLe_iff (a b : LightSceneNode) (x y : ℚ) :
    lightLe (a, x) (b, y) ↔
      (b.isDirectional = true → a.isDirectional = true) ∧
        (a.isDirectional = b.isDirectional → x ≤ y) := by
  unfold lightLe lightLess
  cases ha : a.isDirectional <;> cases hb : b.isDirectional <;> simp [ha, hb]

/-- The candidates of `computeClosestLights` are the collected lights that
satisfy the predicate, each with its squared distance to the camera. -/
theorem mem_lightCandidates (lights : List LightSceneNode) (camera : CameraSceneNode)
    (pred : LightSceneNode → ℚ → Bool) (e : LightSceneNode × ℚ) :
    e ∈ lights.filterMap (fun light =>
        if !pred light (light.getSquareDistanceTo camera) then none
        else some (light, light.getSquareDistanceTo camera)) ↔
      e.1 ∈ lights ∧ pred e.1 (e.1.getSquareDistanceTo camera) = true ∧
        e.2 = e.1.getSquareDistanceTo camera := by
  rw [List.mem_filterMap]
  constructor
  · rintro ⟨l, hl, hsome⟩
    by_cases hp : pred l (l.getSquareDistanceTo camera) = true
    · simp only [hp, Bool.not_true, Bool.false_eq_true, if_false, Option.some.injEq] at hsome
      subst hsome
      exact ⟨hl, hp, rfl⟩
    · simp [hp] at hsome
  · rintro ⟨hl, hp, hd⟩
    refine ⟨e.1, hl, ?_⟩
    simp only [hp, Bool.not_true, Bool.false_eq_true, if_false, Option.some.injEq]
    exact Prod.ext rfl hd.symm

/-- The result of `computeClosestLights` is the first `count` sorted candidates. -/
theorem computeClosestLights_eq (g : SceneGraph) (camera : CameraSceneNode) (count : Nat)
    (pred : LightSceneNode → ℚ → Bool) :
    computeClosestLights g camera count pred =
      (((g._lights.filterMap (fun light =>
        if !pred light (light.getSquareDistanceTo camera) then none
        else some (light, light.getSquareDistanceTo camera))).insertionSort lightLe).take
          count).map (fun e => e.1) := by
  unfold computeClosestLights
  simp only
  split
  · rfl
  · rename_i h
    rw [List.take_of_length_le (not_lt.mp h)]

/-- The sorted candidates are sorted by the order handed to the sort. -/
theorem lightCandidates_sorted (l : List (LightSceneNode × ℚ)) :
    (l.insertionSort lightLe).Sorted lightLe := by
  haveI : IsTotal (LightSceneNode × ℚ) lightLe := ⟨lightLe_total⟩
  haveI : IsTrans (LightSceneNode × ℚ) lightLe := ⟨lightLe_trans⟩
  exact List.sorted_insertionSort lightLe l

/-- What `computeClosestLights` returns: at most `count` collected lights that
satisfy the predicate, in rank order, and no light left out ranks strictly
before a returned one. -/
theorem computeClosestLights_ranked (g : SceneGraph) (camera : CameraSceneNode) (count : Nat)
    (pred : LightSceneNode → ℚ → Bool) :
    (computeClosestLights g camera count pred).length ≤ count ∧
    (∀ l ∈ computeClosestLights g camera count pred,
      l ∈ g._lights ∧ pred l (l.getSquareDistanceTo camera) = true) ∧
    (computeClosestLights g camera count pred).Pairwise (RanksNoLater camera) ∧
    (∀ l ∈ g._lights, pred l (l.getSquareDistanceTo camera) = true →
      l ∉ computeClosestLights g camera count pred →
      ∀ a ∈ computeClosestLights g camera count pred, RanksNoLater camera a l) := by
  rw [computeClosestLights_eq]
  generalize hc : g._lights.filterMap (fun light =>
      if !pred light (light.getSquareDistanceTo camera) then none
      else some (light, light.getSquareDistanceTo camera)) = cands
  have hmem : ∀ e, e ∈ cands.insertionSort lightLe ↔
      e.1 ∈ g._lights ∧ pred e.1 (e.1.getSquareDistanceTo camera) = true ∧
        e.2 = e.1.getSquareDistanceTo camera := by
    intro e
    rw [(List.perm_insertionSort lightLe cands).mem_iff, ← hc]
    exact mem_lightCandidates g._lights camera pred e
  have hsorted := lightCandidates_sorted cands
  have htake : ∀ e ∈ (cands.insertionSort lightLe).take count,
      e ∈ cands.insertionSort lightLe := fun e he => List.mem_of_mem_take he
  refine ⟨?_, ?_, ?_, ?_⟩
  · rw [List.length_map]
    exact List.length_take_le _ _
  · intro l hl
    obtain ⟨e, he, rfl⟩ := List.mem_map.mp hl
    exact ⟨((hmem e).mp (htake e he)).1, ((hmem e).mp (htake e he)).2.1⟩
  · rw [List.pairwise_map]
    have hsub : ((cands.insertionSort lightLe).take count).Pairwise lightLe :=
      List.Pairwise.sublist (List.take_sublist _ _) hsorted
    refine List.Pairwise.imp_of_mem ?_ hsub
    intro a b ha hb hab
    have hda := ((hmem a).mp (htake a ha)).2.2
    have hdb := ((hmem b).mp (htake b hb)).2.2
    have := (lightLe_iff a.1 b.1 a.2 b.2).mp hab
    unfold RanksNoLater
    rw [← hda, ← hdb]
    exact this
  · intro l hl hp hout a ha
    obtain ⟨e, he, rfl⟩ := List.mem_map.mp ha
    have hin : (l, l.getSquareDistanceTo camera) ∈ cands.insertionSort lightLe :=
      (hmem _).mpr ⟨hl, hp, rfl⟩
    rw [← List.take_append_drop count (cands.insertionSort lightLe)] at hin hsorted
    have hdrop : (l, l.getSquareDistanceTo camera) ∈
        (cands.insertionSort lightLe).drop count := by
      rcases List.mem_append.mp hin with h | h
      · exact absurd (List.mem_map.mpr ⟨_, h, rfl⟩) hout
      · exact h
    have hle := (List.pairwise_append.mp hsorted).2.2 e he _ hdrop
    have hde := ((hmem e).mp (htake e he)).2.2
    have := (lightLe_iff e.1 l e.2 (l.getSquareDistanceTo camera)).mp hle
    unfold RanksNoLater
    rw [← hde]
    exact this

/-- The lights of the candidates of `computeClosestLights` are the collected
lights that satisfy the predicate, in the order of the light list. -/
theorem lightCandidates_map_fst (lights : List LightSceneNode) (camera : CameraSceneNode)
    (pred : LightSceneNode → ℚ → Bool) :
    (lights.filterMap (fun light =>
        if !pred light (light.getSquareDistanceTo camera) then none
        else some (light, light.getSquareDistanceTo camera))).map (fun e => e.1) =
      lights.filter (fun light => pred light (light.getSquareDistanceTo camera)) := by
  induction lights with
  | nil => rfl
  | cons l rest ih =>
    by_cases hp : pred l (l.getSquareDistanceTo camera) = true
    · simp only [List.filterMap_cons, hp, Bool.not_true, Bool.false_eq_true, if_false,
        List.map_cons, List.filter_cons, if_true]
      rw [ih]
    · have hp' : pred l (l.getSquareDistanceTo camera) = false := by simpa using hp
      simp only [List.filterMap_cons, hp', Bool.not_false, if_true, List.filter_cons,
        Bool.false_eq_true, if_false]
      exact ih

/-- How many lights `computeClosestLights` returns, and which: as many as there
are collected lights that satisfy the predicate, up to `count`, and no light
more often than it is collected. -/
theorem computeClosestLights_count (g : SceneGraph) (camera : CameraSceneNode) (count : Nat)
    (pred : LightSceneNode → ℚ → Bool) :
    (computeClosestLights g camera count pred).length =
      min count
        (g._lights.filter (fun light => pred light (light.getSquareDistanceTo camera))).length ∧
    (computeClosestLights g camera count pred).Subperm
      (g._lights.filter (fun light => pred light (light.getSquareDistanceTo camera))) := by
  rw [computeClosestLights_eq, ← lightCandidates_map_fst g._lights camera pred]
  generalize g._lights.filterMap (fun light =>
      if !pred light (light.getSquareDistanceTo camera) then none
      else some (light, light.getSquareDistanceTo camera)) = cands
  have hperm := List.perm_insertionSort lightLe cands
  constructor
  · rw [List.length_map, List.length_take, hperm.length_eq, List.length_map]
  · exact ((List.take_sublist count _).map _).subperm.trans (hperm.map _).subperm

/-- C15: `computeClosestLights(count, pred)` returns at most `count` lights, each
from the collected light list and satisfying `pred` at its squared camera
distance, ordered with directional lights before positional ones and by
ascending squared distance within each kind; a collected light that satisfies
`pred` and is left out ranks no earlier than any returned light. So
`updateLighting` selects at most `kMaxLights` lights and `updateFlareLights`
leaves at most `kMaxFlareLights` lights, each with flares and with squared
distance below the square of its flare radius. Nothing is dropped without need:
the number of returned lights is the smaller of `count` and the number of
collected lights that satisfy `pred`, no light is returned more often than it
is collected, and the same count holds for the selection of `updateLighting`
and for the flare lights. -/
theorem computeClosestLights_spec (kMaxLights : Nat) (g : SceneGraph) (camera : CameraSceneNode)
    (count : Nat) (pred : LightSceneNode → ℚ → Bool) :
    ((computeClosestLights g camera count pred).length ≤ count ∧
      (∀ l ∈ computeClosestLights g camera count pred,
        l ∈ g._lights ∧ pred l (l.getSquareDistanceTo camera) = true) ∧
      (computeClosestLights g camera count pred).Pairwise (RanksNoLater camera) ∧
      (∀ l ∈ g._lights, pred l (l.getSquareDistanceTo camera) = true →
        l ∉ computeClosestLights g camera count pred →
        ∀ a ∈ computeClosestLights g camera count pred, RanksNoLater camera a l)) ∧
    (computeClosestLights g camera kMaxLights lightingPred).length ≤ kMaxLights ∧
    (updateFlareLights g camera)._flareLights.length ≤ kMaxFlareLights ∧
    (∀ l ∈ (updateFlareLights g camera)._flareLights,
      l ∈ g._lights ∧ l.light.flares ≠ [] ∧
        l.getSquareDistanceTo camera < l.light.flareRadius * l.light.flareRadius) ∧
    (computeClosestLights g camera count pred).length =
      min count
        (g._lights.filter (fun light => pred light (light.getSquareDistanceTo camera))).length ∧
    (computeClosestLights g camera count pred).Subperm
      (g._lights.filter (fun light => pred light (light.getSquareDistanceTo camera))) ∧
    (computeClosestLights g camera kMaxLights lightingPred).length =
      min kMaxLights
        (g._lights.filter
          (fun light => lightingPred light (light.getSquareDistanceTo camera))).length ∧
    (updateFlareLights g camera)._flareLights.length =
      min kMaxFlareLights
        (g._lights.filter
          (fun light => flarePred light (light.getSquareDistanceTo camera))).length := by
  refine ⟨computeClosestLights_ranked g camera count pred,
    (computeClosestLights_ranked g camera kMaxLights lightingPred).1,
    (computeClosestLights_ranked g camera kMaxFlareLights flarePred).1, ?_,
    (computeClosestLights_count g camera count pred).1,
    (computeClosestLights_count g camera count pred).2,
    (computeClosestLights_count g camera kMaxLights lightingPred).1,
    (computeClosestLights_count g camera kMaxFlareLights flarePred).1⟩
  intro l hl
  obtain ⟨hmem, hp⟩ := (computeClosestLights_ranked g camera kMaxFlareLights flarePred).2.1 l hl
  refine ⟨hmem, ?_⟩
  unfold flarePred at hp
  by_cases hf : l.light.flares.isEmpty = true
  · simp [hf] at hp
  · simp only [hf, Bool.false_eq_true, if_false, decide_eq_true_eq] at hp
    refine ⟨?_, hp⟩
    intro hnil
    rw [hnil] at hf
    exact hf rfl

end SceneGraph

/-! ## Theorems: active lights -/

namespace SceneGraph

/-- The lights of `lookup` are selected lights. -/
theorem mem_foldl_lookupInsert (sel : List LightSceneNode) :
    ∀ (acc : List LightSceneNode) (c : LightSceneNode),
      c ∈ sel.foldl lookupInsert acc → c ∈ acc ∨ c ∈ sel := by
  induction sel with
  | nil => intro acc c h; exact Or.inl h
  | cons x rest ih =>
    intro acc c h
    simp only [List.foldl_cons] at h
    rcases ih _ c h with h' | h'
    · unfold lookupInsert at h'
      split at h'
      · exact Or.inl h'
      · rcases (List.mem_orderedInsert _).mp h' with rfl | h''
        · exact Or.inr (List.mem_cons_self _ _)
        · exact Or.inl h''
    · exact Or.inr (List.mem_cons_of_mem _ h')

/-- The active list after the de-activation loop: the lights with a
de-activated address have lost their flag, nothing else changed. -/
theorem deactivateLoop_activeLights (todo : List LightSceneNode) :
    ∀ (g : SceneGraph) (lookup : List LightSceneNode),
      (deactivateLoop todo (g, lookup)).1._activeLights =
        g._activeLights.map (deactivated (deactivatedIds todo lookup)) := by
  induction todo with
  | nil =>
    intro g lookup
    have hid : deactivated [] = id := by
      funext e
      simp [deactivated]
    simp [deactivateLoop, deactivatedIds, hid]
  | cons light rest ih =>
    intro g lookup
    unfold deactivateLoop deactivatedIds
    by_cases h : (!lookup.any (fun l => l.id == light.id)) = true
    · simp only [h, if_true]
      rw [ih]
      simp only [setLightActive, List.map_map]
      apply List.map_congr_left
      intro e _
      simp only [Function.comp, deactivated, LightSceneNode.setActive, List.mem_cons]
      by_cases h1 : e.id = light.id <;> by_cases h2 : e.id ∈ deactivatedIds rest lookup <;>
        simp [h1, h2]
    · simp only [h, Bool.false_eq_true, if_false]
      rw [ih]

/-- The light list after the de-activation loop. -/
theorem deactivateLoop_lights (todo : List LightSceneNode) :
    ∀ (g : SceneGraph) (lookup : List LightSceneNode),
      (deactivateLoop todo (g, lookup)).1._lights =
        g._lights.map (deactivated (deactivatedIds todo lookup)) := by
  induction todo with
  | nil =>
    intro g lookup
    have hid : deactivated [] = id := by
      funext e
      simp [deactivated]
    simp [deactivateLoop, deactivatedIds, hid]
  | cons light rest ih =>
    intro g lookup
    unfold deactivateLoop deactivatedIds
    by_cases h : (!lookup.any (fun l => l.id == light.id)) = true
    · simp only [h, if_true]
      rw [ih]
      simp only [setLightActive, List.map_map]
      apply List.map_congr_left
      intro e _
      simp only [Function.comp, deactivated, LightSceneNode.setActive, List.mem_cons]
      by_cases h1 : e.id = light.id <;> by_cases h2 : e.id ∈ deactivatedIds rest lookup <;>
        simp [h1, h2]
    · simp only [h, Bool.false_eq_true, if_false]
      rw [ih]

/-- The lights left in `lookup` by the de-activation loop were in it before. -/
theorem deactivateLoop_lookup (todo : List LightSceneNode) :
    ∀ (g : SceneGraph) (lookup : List LightSceneNode) (c : LightSceneNode),
      c ∈ (deactivateLoop todo (g, lookup)).2 → c ∈ lookup := by
  induction todo with
  | nil => intro g lookup c h; exact h
  | cons light rest ih =>
    intro g lookup c h
    unfold deactivateLoop at h
    split at h
    · exact ih _ _ c h
    · exact List.mem_of_mem_filter (ih _ _ c h)

/-- A visited light is de-activated or its address is in `lookup`. -/
theorem deactivatedIds_or_lookup (todo : List LightSceneNode) :
    ∀ (lookup : List LightSceneNode), ∀ e ∈ todo,
      e.id ∈ deactivatedIds todo lookup ∨ ∃ c ∈ lookup, c.id = e.id := by
  induction todo with
  | nil => intro lookup e he; exact absurd he (List.not_mem_nil _)
  | cons light rest ih =>
    intro lookup e he
    unfold deactivatedIds
    by_cases h : (!lookup.any (fun l => l.id == light.id)) = true
    · simp only [h, if_true, List.mem_cons]
      rcases List.mem_cons.mp he with rfl | he'
      · exact Or.inl (Or.inl rfl)
      · rcases ih lookup e he' with h' | h'
        · exact Or.inl (Or.inr h')
        · exact Or.inr h'
    · simp only [h, Bool.false_eq_true, if_false]
      rcases List.mem_cons.mp he with rfl | he'
      · right
        simp only [Bool.not_eq_true', Bool.not_eq_false, List.any_eq_true, beq_iff_eq] at h
        exact h
      · rcases ih _ e he' with h' | ⟨c, hc, hid⟩
        · exact Or.inl h'
        · exact Or.inr ⟨c, List.mem_of_mem_filter hc, hid⟩

/-- A visited light whose address is not in `lookup` is de-activated. -/
theorem deactivatedIds_of_not_lookup (todo : List LightSceneNode) :
    ∀ (lookup : List LightSceneNode), ∀ e ∈ todo, (∀ c ∈ lookup, c.id ≠ e.id) →
      e.id ∈ deactivatedIds todo lookup := by
  induction todo with
  | nil => intro lookup e he; exact absurd he (List.not_mem_nil _)
  | cons light rest ih =>
    intro lookup e he hno
    unfold deactivatedIds
    by_cases h : (!lookup.any (fun l => l.id == light.id)) = true
    · simp only [h, if_true, List.mem_cons]
      rcases List.mem_cons.mp he with rfl | he'
      · exact Or.inl rfl
      · exact Or.inr (ih lookup e he' hno)
    · simp only [h, Bool.false_eq_true, if_false]
      rcases List.mem_cons.mp he with rfl | he'
      · simp only [Bool.not_eq_true', Bool.not_eq_false, List.any_eq_true, beq_iff_eq] at h
        obtain ⟨c, hc, hid⟩ := h
        exact absurd hid (hno c hc)
      · exact ih _ e he' (fun c hc => hno c (List.mem_of_mem_filter hc))

/-- The active list after the activation loop: an old entry, possibly
activated because its address is in `lookup`, or an activated light of `lookup`. -/
theorem mem_activateLoop (kMaxLights : Nat) (lookup : List LightSceneNode) :
    ∀ (g : SceneGraph), ∀ e ∈ (activateLoop kMaxLights lookup g)._activeLights,
      (∃ a ∈ g._activeLights, e = a ∨ (e = a.setActive true ∧ ∃ c ∈ lookup, c.id = a.id)) ∨
        ∃ c ∈ lookup, e = c.setActive true := by
  induction lookup with
  | nil => intro g e he; exact Or.inl ⟨e, he, Or.inl rfl⟩
  | cons light rest ih =>
    intro g e he
    unfold activateLoop at he
    split at he
    · exact Or.inl ⟨e, he, Or.inl rfl⟩
    · rcases ih _ e he with ⟨a, ha, hcase⟩ | ⟨c, hc, rfl⟩
      · simp only [setLightActive, List.mem_append, List.mem_map, List.mem_singleton] at ha
        rcases ha with ⟨a0, ha0, rfl⟩ | rfl
        · by_cases hid : a0.id = light.id
          · simp only [hid, if_true] at hcase
            left
            refine ⟨a0, ha0, Or.inr ⟨?_, light, List.mem_cons_self _ _, hid.symm⟩⟩
            rcases hcase with rfl | ⟨rfl, _⟩
            · rfl
            · rfl
          · simp only [hid, if_false] at hcase
            left
            refine ⟨a0, ha0, ?_⟩
            rcases hcase with rfl | ⟨rfl, c, hc, hcid⟩
            · exact Or.inl rfl
            · exact Or.inr ⟨rfl, c, List.mem_cons_of_mem _ hc, hcid⟩
        · right
          refine ⟨light, List.mem_cons_self _ _, ?_⟩
          rcases hcase with rfl | ⟨rfl, _⟩
          · rfl
          · rfl
      · exact Or.inr ⟨c, List.mem_cons_of_mem _ hc, rfl⟩

/-- The collected list after the activation loop: an old entry, possibly
activated because its address is in `lookup`. -/
theorem mem_activateLoop_lights (kMaxLights : Nat) (lookup : List LightSceneNode) :
    ∀ (g : SceneGraph), ∀ l ∈ (activateLoop kMaxLights lookup g)._lights,
      ∃ l0 ∈ g._lights, l = l0 ∨ (l = l0.setActive true ∧ ∃ c ∈ lookup, c.id = l0.id) := by
  induction lookup with
  | nil => intro g l hl; exact ⟨l, hl, Or.inl rfl⟩
  | cons light rest ih =>
    intro g l hl
    unfold activateLoop at hl
    split at hl
    · exact ⟨l, hl, Or.inl rfl⟩
    · obtain ⟨l1, hl1, hcase⟩ := ih _ l hl
      simp only [setLightActive, List.mem_map] at hl1
      obtain ⟨l0, hl0, rfl⟩ := hl1
      by_cases hid : l0.id = light.id
      · simp only [hid, if_true] at hcase
        refine ⟨l0, hl0, Or.inr ⟨?_, light, List.mem_cons_self _ _, hid.symm⟩⟩
        rcases hcase with rfl | ⟨rfl, _⟩
        · rfl
        · rfl
      · simp only [hid, if_false] at hcase
        refine ⟨l0, hl0, ?_⟩
        rcases hcase with rfl | ⟨rfl, c, hc, hcid⟩
        · exact Or.inl rfl
        · exact Or.inr ⟨rfl, c, List.mem_cons_of_mem _ hc, hcid⟩

/-- The proximity predicate depends on the origin and the radius of a light only. -/
theorem lightingPred_congr (camera : CameraSceneNode) (e c : LightSceneNode)
    (ho : e.origin = c.origin) (hr : e.radius = c.radius) :
    lightingPred e (e.getSquareDistanceTo camera) =
      lightingPred c (c.getSquareDistanceTo camera) := by
  simp [lightingPred, LightSceneNode.getSquareDistanceTo, ho, hr]

/-- The pieces of `updateLighting`: the selection, `lookup`, the de-activation
loop, the removal of faded lights and the activation loop. -/
theorem updateLighting_eq (kMaxLights : Nat) (g : SceneGraph) (camera : CameraSceneNode) :
    updateLighting kMaxLights g camera =
      activateLoop kMaxLights
        (deactivateLoop g._activeLights
          (g, (computeClosestLights g camera kMaxLights lightingPred).foldl lookupInsert [])).2
        { (deactivateLoop g._activeLights
            (g, (computeClosestLights g camera kMaxLights lightingPred).foldl
              lookupInsert [])).1 with
          _activeLights := (deactivateLoop g._activeLights
            (g, (computeClosestLights g camera kMaxLights lightingPred).foldl
              lookupInsert [])).1._activeLights.filter (fun light =>
                !((!light.active && decide (light.strength = 0)) || !light.modelEnabled)) } := by
  rfl

/-- The activation loop keeps an entry of the active list whose address is not
in `lookup` as it is. -/
theorem mem_activateLoop_of_mem (kMaxLights : Nat) (lookup : List LightSceneNode) :
    ∀ (g : SceneGraph), ∀ a ∈ g._activeLights, (∀ c ∈ lookup, c.id ≠ a.id) →
      a ∈ (activateLoop kMaxLights lookup g)._activeLights := by
  induction lookup with
  | nil =>
    intro g a ha _
    exact ha
  | cons light rest ih =>
    intro g a ha hno
    unfold activateLoop
    split
    · exact ha
    · apply ih
      · simp only [setLightActive, List.mem_append, List.mem_map, List.mem_singleton]
        left
        refine ⟨a, ha, ?_⟩
        have : ¬ a.id = light.id := fun h => hno light (List.mem_cons_self _ _) h.symm
        simp [this]
      · exact fun c hc => hno c (List.mem_cons_of_mem _ hc)

/-- The activation loop keeps the nodes of the collected light list. -/
theorem activateLoop_lights_ids (kMaxLights : Nat) (lookup : List LightSceneNode) :
    ∀ (g : SceneGraph),
      (activateLoop kMaxLights lookup g)._lights.map (fun l => l.id) =
        g._lights.map (fun l => l.id) := by
  induction lookup with
  | nil => intro g; rfl
  | cons light rest ih =>
    intro g
    unfold activateLoop
    split
    · rfl
    · rw [ih]
      simp only [setLightActive, List.map_map]
      apply List.map_congr_left
      intro l _
      show (if l.id = light.id then l.setActive true else l).id = l.id
      split <;> rfl

/-- C13: after `updateLighting`, every light of the active list satisfies the
proximity predicate for the camera or is fading out (inactive, strength
`> 0`); a previously active light outside the new selection is marked inactive
in the lists that hold it, and is in the active list only with a strength
other than zero: with a strength other than zero and an enabled model it stays
in the active list, de-activated, and with strength zero (the active list
holding a node once) no entry of the active list is that node. The call keeps
the nodes of the collected light list. The lists agree on the nodes they share
and the strengths of the active lights are not negative. -/
theorem updateLighting_active_lights (kMaxLights : Nat) (g : SceneGraph)
    (camera : CameraSceneNode)
    (hcoh : ∀ a ∈ g._activeLights, ∀ l ∈ g._lights, a.id = l.id →
      a.origin = l.origin ∧ a.radius = l.radius)
    (hstr : ∀ a ∈ g._activeLights, 0 ≤ a.strength) :
    (∀ e ∈ (updateLighting kMaxLights g camera)._activeLights,
      lightingPred e (e.getSquareDistanceTo camera) = true ∨
        (e.active = false ∧ 0 < e.strength)) ∧
    (∀ a ∈ g._activeLights,
      (∀ c ∈ computeClosestLights g camera kMaxLights lightingPred, c.id ≠ a.id) →
      (∀ e ∈ (updateLighting kMaxLights g camera)._activeLights, e.id = a.id →
        e.active = false ∧ 0 < e.strength) ∧
      (∀ l ∈ (updateLighting kMaxLights g camera)._lights, l.id = a.id → l.active = false) ∧
      (a.strength ≠ 0 → a.modelEnabled = true →
        a.setActive false ∈ (updateLighting kMaxLights g camera)._activeLights) ∧
      ((g._activeLights.map (fun l => l.id)).Nodup → a.strength = 0 →
        ∀ e ∈ (updateLighting kMaxLights g camera)._activeLights, e.id ≠ a.id)) ∧
    (updateLighting kMaxLights g camera)._lights.map (fun l => l.id) =
      g._lights.map (fun l => l.id) := by
  rw [updateLighting_eq]
  generalize hsel : computeClosestLights g camera kMaxLights lightingPred = sel
  have hselmem : ∀ c ∈ sel, c ∈ g._lights ∧
      lightingPred c (c.getSquareDistanceTo camera) = true := by
    intro c hc
    rw [← hsel] at hc
    exact (computeClosestLights_ranked g camera kMaxLights lightingPred).2.1 c hc
  have hlookup0 : ∀ c ∈ sel.foldl lookupInsert [], c ∈ sel := by
    intro c hc
    rcases mem_foldl_lookupInsert sel [] c hc with h | h
    · exact absurd h (List.not_mem_nil _)
    · exact h
  have hlk1 : ∀ c ∈ (deactivateLoop g._activeLights (g, sel.foldl lookupInsert [])).2,
      c ∈ sel := fun c hc => hlookup0 c (deactivateLoop_lookup _ _ _ c hc)
  have hact1 := deactivateLoop_activeLights g._activeLights g (sel.foldl lookupInsert [])
  have hlights1 := deactivateLoop_lights g._activeLights g (sel.foldl lookupInsert [])
  -- an entry that survives the removal of faded lights
  have hold : ∀ a1 ∈ (deactivateLoop g._activeLights
        (g, sel.foldl lookupInsert [])).1._activeLights.filter (fun light =>
          !((!light.active && decide (light.strength = 0)) || !light.modelEnabled)),
      ∃ a0 ∈ g._activeLights, a1.id = a0.id ∧ a1.origin = a0.origin ∧ a1.radius = a0.radius ∧
        a1.strength = a0.strength ∧
        ((a1.active = false ∧ 0 < a1.strength) ∨
          (a1 = a0 ∧ ∃ c ∈ sel, c.id = a0.id)) ∧
        ((∀ c ∈ sel, c.id ≠ a0.id) → a1.active = false ∧ 0 < a1.strength) := by
    intro a1 ha1
    obtain ⟨hmem1, hkeep⟩ := List.mem_filter.mp ha1
    rw [hact1] at hmem1
    obtain ⟨a0, ha0, rfl⟩ := List.mem_map.mp hmem1
    have hfade : a0.id ∈ deactivatedIds g._activeLights (sel.foldl lookupInsert []) →
        (deactivated (deactivatedIds g._activeLights (sel.foldl lookupInsert [])) a0).active
            = false ∧
          0 < (deactivated (deactivatedIds g._activeLights
            (sel.foldl lookupInsert [])) a0).strength := by
      intro hD
      simp only [deactivated, hD, if_true, LightSceneNode.setActive] at hkeep ⊢
      simp only [Bool.not_false, Bool.true_and, Bool.not_eq_true', Bool.or_eq_false_iff,
        decide_eq_false_iff_not, Bool.not_eq_false] at hkeep
      exact ⟨trivial, lt_of_le_of_ne (hstr a0 ha0) (Ne.symm hkeep.1)⟩
    refine ⟨a0, ha0, ?_, ?_, ?_, ?_, ?_, ?_⟩
    · unfold deactivated; split <;> rfl
    · unfold deactivated; split <;> rfl
    · unfold deactivated; split <;> rfl
    · unfold deactivated; split <;> rfl
    · by_cases hD : a0.id ∈ deactivatedIds g._activeLights (sel.foldl lookupInsert [])
      · exact Or.inl (hfade hD)
      · right
        refine ⟨by simp [deactivated, hD], ?_⟩
        rcases deactivatedIds_or_lookup g._activeLights (sel.foldl lookupInsert []) a0 ha0
          with h | ⟨c, hc, hid⟩
        · exact absurd h hD
        · exact ⟨c, hlookup0 c hc, hid⟩
    · intro hno
      exact hfade (deactivatedIds_of_not_lookup g._activeLights (sel.foldl lookupInsert []) a0 ha0
        (fun c hc => hno c (hlookup0 c hc)))
  refine ⟨?_, ?_, ?_⟩
  · intro e he
    rcases mem_activateLoop kMaxLights _ _ e he with ⟨a1, ha1, hcase⟩ | ⟨c, hc, rfl⟩
    · obtain ⟨a0, ha0, hid, ho, hr, _, hstate, _⟩ := hold a1 ha1
      rcases hcase with rfl | ⟨rfl, c, hc, hcid⟩
      · rcases hstate with h | ⟨rfl, c, hc, hcid⟩
        · exact Or.inr h
        · left
          obtain ⟨hcl, hcp⟩ := hselmem c hc
          obtain ⟨ho', hr'⟩ := hcoh e ha0 c hcl hcid.symm
          rw [lightingPred_congr camera e c ho' hr']
          exact hcp
      · left
        obtain ⟨hcl, hcp⟩ := hselmem c (hlk1 c hc)
        obtain ⟨ho', hr'⟩ := hcoh a0 ha0 c hcl (by rw [← hid, hcid])
        rw [lightingPred_congr camera (a1.setActive true) c (by
          show a1.origin = c.origin
          rw [ho, ho']) (by
          show a1.radius = c.radius
          rw [hr, hr'])]
        exact hcp
    · left
      obtain ⟨_, hcp⟩ := hselmem c (hlk1 c hc)
      rw [lightingPred_congr camera (c.setActive true) c rfl rfl]
      exact hcp
  · intro a ha hno
    refine ⟨?_, ?_, ?_, ?_⟩
    · intro e he hea
      rcases mem_activateLoop kMaxLights _ _ e he with ⟨a1, ha1, hcase⟩ | ⟨c, hc, rfl⟩
      · obtain ⟨a0, ha0, hid, _, _, _, _, hout⟩ := hold a1 ha1
        rcases hcase with rfl | ⟨rfl, c, hc, hcid⟩
        · exact hout (fun c hc => by rw [← hid, hea]; exact hno c hc)
        · exact absurd (by rw [hcid]; exact hea) (hno c (hlk1 c hc))
      · exact absurd hea (hno c (hlk1 c hc))
    · intro l hl hla
      obtain ⟨l1, hl1, hcase⟩ := mem_activateLoop_lights kMaxLights _ _ l hl
      have hl1' : l1 ∈ (deactivateLoop g._activeLights
          (g, sel.foldl lookupInsert [])).1._lights := hl1
      rw [hlights1] at hl1'
      obtain ⟨l0, _, rfl⟩ := List.mem_map.mp hl1'
      have hid0 : (deactivated (deactivatedIds g._activeLights
          (sel.foldl lookupInsert [])) l0).id = l0.id := by
        unfold deactivated; split <;> rfl
      rcases hcase with rfl | ⟨rfl, c, hc, hcid⟩
      · have hD : l0.id ∈ deactivatedIds g._activeLights (sel.foldl lookupInsert []) := by
          rw [← hid0, hla]
          exact deactivatedIds_of_not_lookup g._activeLights (sel.foldl lookupInsert []) a ha
            (fun c hc => hno c (hlookup0 c hc))
        simp [deactivated, hD, LightSceneNode.setActive]
      · exact absurd (by rw [hcid]; exact hla) (hno c (hlk1 c hc))
    · intro hs hm
      have hD : a.id ∈ deactivatedIds g._activeLights (sel.foldl lookupInsert []) :=
        deactivatedIds_of_not_lookup g._activeLights (sel.foldl lookupInsert []) a ha
          (fun c hc => hno c (hlookup0 c hc))
      apply mem_activateLoop_of_mem kMaxLights _ _ (a.setActive false)
      · show a.setActive false ∈ (deactivateLoop g._activeLights
          (g, sel.foldl lookupInsert [])).1._activeLights.filter _
        rw [List.mem_filter, hact1]
        refine ⟨List.mem_map.mpr ⟨a, ha, by simp [deactivated, hD]⟩, ?_⟩
        simp [LightSceneNode.setActive, hs, hm]
      · intro c hc
        exact hno c (hlk1 c hc)
    · intro hnd hs e he hea
      rcases mem_activateLoop kMaxLights _ _ e he with ⟨a1, ha1, hcase⟩ | ⟨c, hc, rfl⟩
      · obtain ⟨a0, ha0, hid, _, _, hstr0, _, hout⟩ := hold a1 ha1
        rcases hcase with rfl | ⟨rfl, c, hc, hcid⟩
        · have h0 : a0 = a :=
            List.inj_on_of_nodup_map hnd ha0 ha (by rw [← hid, hea])
          have := (hout (fun c hc => by rw [h0]; exact hno c hc)).2
          rw [hstr0, h0, hs] at this
          exact lt_irrefl _ this
        · exact absurd (by rw [hcid]; exact hea) (hno c (hlk1 c hc))
      · exact absurd hea (hno c (hlk1 c hc))
  · rw [activateLoop_lights_ids]
    show (deactivateLoop g._activeLights (g, sel.foldl lookupInsert [])).1._lights.map _ = _
    rw [hlights1, List.map_map]
    apply List.map_congr_left
    intro l _
    show (deactivated _ l).id = l.id
    unfold deactivated; split <;> rfl

/-- Witness for C13: `farLit` is in the active list and out of range of the
camera at the origin; it stays in the active list, de-activated, with its
strength 1/2. -/
theorem updateLighting_active_lights_witness :
    (∀ a ∈ Example.leavingGraph._activeLights, 0 ≤ a.strength) ∧
      Example.farLit ∈ Example.leavingGraph._activeLights ∧
      Example.farLit.setActive false ∈
        (updateLighting 8 Example.leavingGraph ⟨⟨0, 0, 0⟩⟩)._activeLights :=
  have hstr : ∀ a ∈ Example.leavingGraph._activeLights, 0 ≤ a.strength := by
    intro a ha
    simp only [Example.leavingGraph, List.mem_singleton] at ha
    subst ha
    norm_num [Example.farLit, Example.farLight]
  have hmem : Example.farLit ∈ Example.leavingGraph._activeLights := by
    simp [Example.leavingGraph]
  have hno : ∀ c ∈ computeClosestLights Example.leavingGraph ⟨⟨0, 0, 0⟩⟩ 8 lightingPred,
      c.id ≠ Example.farLit.id := by
    intro c hc
    obtain ⟨hl, hp⟩ :=
      (computeClosestLights_ranked Example.leavingGraph ⟨⟨0, 0, 0⟩⟩ 8 lightingPred).2.1 c hc
    simp only [Example.leavingGraph, List.mem_cons, List.mem_singleton, List.not_mem_nil,
      or_false] at hl
    rcases hl with rfl | rfl
    · simp [Example.lightA, Example.farLit, Example.farLight]
    · exfalso
      revert hp
      norm_num [lightingPred, LightSceneNode.getSquareDistanceTo, Example.farLit,
        Example.farLight, kLightRadiusBias2, kLightRadiusBias, Vec3.distance2, Vec3.sub,
        Vec3.dot]
  ⟨hstr, hmem,
    ((updateLighting_active_lights 8 Example.leavingGraph ⟨⟨0, 0, 0⟩⟩
      (by
        intro a ha l hl hid
        simp only [Example.leavingGraph, List.mem_singleton] at ha
        simp only [Example.leavingGraph, List.mem_cons, List.mem_singleton, List.not_mem_nil,
          or_false] at hl
        subst ha
        rcases hl with rfl | rfl
        · simp [Example.lightA, Example.farLit, Example.farLight] at hid
        · exact ⟨rfl, rfl⟩)
      hstr).2.1 Example.farLit hmem hno).2.2.1
      (by norm_num [Example.farLit, Example.farLight]) rfl⟩

end SceneGraph

/-! ## Theorems: leaf buckets -/

namespace SceneGraph

/-- The empty list has no chunks. -/
theorem chunks_nil {α : Type} (k : Nat) : chunks k ([] : List α) = [] := by
  rw [chunks]; simp

/-- The first chunk of a non-empty list is its first `k` elements. -/
theorem chunks_cons {α : Type} (k : Nat) (l : List α) (hk : 0 < k) (hl : l ≠ []) :
    chunks k l = l.take k :: chunks k (l.drop k) := by
  rw [chunks]
  simp [hl, Nat.pos_iff_ne_zero.mp hk]

/-- A non-empty list of at most `k` elements is its only chunk. -/
theorem chunks_short {α : Type} (k : Nat) (l : List α) (hk : 0 < k) (hl : l ≠ [])
    (hlen : l.length ≤ k) : chunks k l = [l] := by
  rw [chunks_cons k l hk hl, List.take_of_length_le hlen, List.drop_of_length_le hlen, chunks_nil]

/-- A full bucket in front of a list is the first chunk. -/
theorem chunks_append_full {α : Type} (k : Nat) (b rest : List α) (hk : 0 < k)
    (hb : b.length = k) : chunks k (b ++ rest) = b :: chunks k rest := by
  have hne : b ++ rest ≠ [] := by
    intro h
    have := congrArg List.length h
    simp only [List.length_append, List.length_nil] at this
    omega
  rw [chunks_cons k _ hk hne, List.take_left' hb, List.drop_left' hb]

/-- The properties of the chunks of a list, by induction on a bound of its
length: their concatenation is the list, none is empty or longer than `k`,
every chunk but the last has `k` elements. -/
theorem chunks_props {α : Type} (k : Nat) (hk : 0 < k) :
    ∀ (n : Nat) (l : List α), l.length ≤ n →
      (chunks k l).flatten = l ∧
      (∀ b ∈ chunks k l, b ≠ [] ∧ b.length ≤ k) ∧
      (∀ pre b post, chunks k l = pre ++ b :: post → post ≠ [] → b.length = k) := by
  intro n
  induction n with
  | zero =>
    intro l hl
    have : l = [] := List.length_eq_zero.mp (Nat.le_zero.mp hl)
    subst this
    rw [chunks_nil]
    refine ⟨rfl, fun b hb => absurd hb (List.not_mem_nil _), fun pre b post h => ?_⟩
    exact absurd h (by simp)
  | succ n ih =>
    intro l hl
    by_cases hne : l = []
    · subst hne
      rw [chunks_nil]
      refine ⟨rfl, fun b hb => absurd hb (List.not_mem_nil _), fun pre b post h => ?_⟩
      exact absurd h (by simp)
    · have hpos : 0 < l.length := List.length_pos.mpr hne
      obtain ⟨h1, h2, h3⟩ := ih (l.drop k) (by simp only [List.length_drop]; omega)
      rw [chunks_cons k l hk hne]
      refine ⟨?_, ?_, ?_⟩
      · rw [List.flatten_cons, h1, List.take_append_drop]
      · intro b hb
        rcases List.mem_cons.mp hb with rfl | hb'
        · constructor
          · intro h
            have := congrArg List.length h
            simp only [List.length_take, List.length_nil] at this
            omega
          · simp only [List.length_take]
            omega
        · exact h2 b hb'
      · intro pre b post h hpost
        cases pre with
        | nil =>
          simp only [List.nil_append, List.cons.injEq] at h
          obtain ⟨hb, hrest⟩ := h
          have hdrop : l.drop k ≠ [] := by
            intro hd
            rw [hd, chunks_nil] at hrest
            exact hpost hrest.symm
          have : k < l.length := by
            by_contra hle
            exact hdrop (List.drop_of_length_le (not_lt.mp hle))
          rw [← hb, List.length_take]
          omega
        | cons x pre' =>
          simp only [List.cons_append, List.cons.injEq] at h
          exact h3 pre' b post h.2 hpost

/-- A list of more than `k` elements has at least two chunks. -/
theorem chunks_length_two {α : Type} (k : Nat) (hk : 0 < k) (l : List α) (h : k < l.length) :
    2 ≤ (chunks k l).length := by
  have hne : l ≠ [] := by
    intro hl
    rw [hl] at h
    exact Nat.not_lt_zero _ h
  have hdrop : l.drop k ≠ [] := by
    intro hd
    have := congrArg List.length hd
    simp only [List.length_drop, List.length_nil] at this
    omega
  rw [chunks_cons k l hk hne, chunks_cons k _ hk hdrop]
  simp

/-- The inner loop of `prepareOpaqueLeafs`, followed by the flush of the last
bucket, appends the chunks of the bucket it started with and the visible
clusters it visited. -/
theorem opaqueLeafsChildren_chunks (k : Nat) (hk : 0 < k) (isInFrustum : Vec3 → Bool)
    (grass : GrassSceneNode) (children : List SceneNode) :
    ∀ (leafs : List (Nat × List SceneNode)) (bucket : List SceneNode), bucket.length ≤ k →
      (opaqueLeafsChildren k isInFrustum grass children (leafs, bucket)).1 ++
          (if (opaqueLeafsChildren k isInFrustum grass children (leafs, bucket)).2.isEmpty
            then []
            else [(grass.id,
              (opaqueLeafsChildren k isInFrustum grass children (leafs, bucket)).2)]) =
        leafs ++ (chunks k (bucket ++ children.filter (fun child =>
          child.type == SceneNodeType.GrassCluster && isInFrustum child.origin))).map
            (fun b => (grass.id, b)) := by
  induction children with
  | nil =>
    intro leafs bucket hlen
    simp only [opaqueLeafsChildren, List.filter_nil, List.append_nil]
    by_cases hb : bucket = []
    · subst hb
      simp [chunks_nil]
    · have hb' : bucket.isEmpty = false := by
        cases bucket with
        | nil => exact absurd rfl hb
        | cons x xs => rfl
      rw [chunks_short k bucket hk hb hlen]
      simp [hb']
  | cons child rest ih =>
    intro leafs bucket hlen
    unfold opaqueLeafsChildren
    by_cases ht : child.type = SceneNodeType.GrassCluster
    · by_cases hf : isInFrustum child.origin = true
      · have hvis : (child :: rest).filter (fun child =>
            child.type == SceneNodeType.GrassCluster && isInFrustum child.origin) =
            child :: rest.filter (fun child =>
              child.type == SceneNodeType.GrassCluster && isInFrustum child.origin) := by
          simp [List.filter_cons, ht, hf]
        rw [hvis]
        by_cases hfull : bucket.length ≥ k
        · simp only [ht, bne_self_eq_false, Bool.false_eq_true, if_false, hf, Bool.not_true,
            hfull, if_true]
          rw [ih _ [child] (by simp only [List.length_singleton]; omega)]
          rw [chunks_append_full k bucket _ hk (le_antisymm hlen hfull)]
          simp
        · simp only [ht, bne_self_eq_false, Bool.false_eq_true, if_false, hf, Bool.not_true,
            hfull]
          rw [ih _ (bucket ++ [child]) (by
            simp only [List.length_append, List.length_singleton]; omega)]
          simp
      · have hf' : isInFrustum child.origin = false := by simpa using hf
        have hvis : (child :: rest).filter (fun child =>
            child.type == SceneNodeType.GrassCluster && isInFrustum child.origin) =
            rest.filter (fun child =>
              child.type == SceneNodeType.GrassCluster && isInFrustum child.origin) := by
          simp [List.filter_cons, hf']
        rw [hvis]
        simp only [ht, bne_self_eq_false, Bool.false_eq_true, if_false, hf', Bool.not_false,
          if_true]
        exact ih leafs bucket hlen
    · have hvis : (child :: rest).filter (fun child =>
          child.type == SceneNodeType.GrassCluster && isInFrustum child.origin) =
          rest.filter (fun child =>
            child.type == SceneNodeType.GrassCluster && isInFrustum child.origin) := by
        simp [List.filter_cons, ht]
      rw [hvis]
      have ht' : (child.type != SceneNodeType.GrassCluster) = true := by simpa using ht
      simp only [ht', if_true]
      exact ih leafs bucket hlen

/-- The outer loop of `prepareOpaqueLeafs`, started with an empty bucket,
appends the chunks of the visible clusters of each enabled root and ends with
an empty bucket. -/
theorem opaqueLeafsRoots_chunks (k : Nat) (hk : 0 < k) (isInFrustum : Vec3 → Bool)
    (roots : List GrassSceneNode) :
    ∀ (leafs : List (Nat × List SceneNode)),
      opaqueLeafsRoots k isInFrustum roots (leafs, []) =
        (leafs ++ (roots.filter (fun grass => grass.enabled)).flatMap (fun grass =>
          (chunks k (visibleClusters isInFrustum grass)).map (fun b => (grass.id, b))), []) := by
  induction roots with
  | nil => intro leafs; simp [opaqueLeafsRoots]
  | cons grass rest ih =>
    intro leafs
    unfold opaqueLeafsRoots
    by_cases he : grass.enabled = true
    · have hch := opaqueLeafsChildren_chunks k hk isInFrustum grass grass.children leafs []
        (Nat.zero_le _)
      simp only [List.nil_append] at hch
      simp only [he, Bool.not_true, Bool.false_eq_true, if_false, List.filter_cons, if_true,
        List.flatMap_cons]
      by_cases hb : (opaqueLeafsChildren k isInFrustum grass grass.children (leafs, [])).2.isEmpty
          = true
      · simp only [hb, if_true, List.append_nil] at hch
        have hst : opaqueLeafsChildren k isInFrustum grass grass.children (leafs, []) =
            ((opaqueLeafsChildren k isInFrustum grass grass.children (leafs, [])).1, []) := by
          apply Prod.ext
          · rfl
          · exact List.isEmpty_iff.mp hb
        simp only [hb, Bool.not_true, Bool.false_eq_true, if_false]
        rw [hst, ih, hch]
        simp [visibleClusters, List.append_assoc]
      · have hb' : (opaqueLeafsChildren k isInFrustum grass grass.children (leafs, [])).2.isEmpty
            = false := by simpa using hb
        simp only [hb', Bool.false_eq_true, if_false] at hch
        simp only [hb', Bool.not_false, if_true]
        rw [ih, hch]
        simp [visibleClusters, List.append_assoc]
    · have he' : grass.enabled = false := by simpa using he
      simp only [he', Bool.not_false, if_true, List.filter_cons, Bool.false_eq_true, if_false]
      exact ih leafs

/-- C18: with `kMaxGrassClusters > 0`, `prepareOpaqueLeafs` produces, for each
enabled grass root in turn, the clusters of the root that are inside the
frustum, split in child order into consecutive buckets of `kMaxGrassClusters`
clusters tagged with the root; for every such split the buckets put together
give the visible clusters back, no bucket is empty or longer than
`kMaxGrassClusters`, every bucket but the last is full, and a root with more
than `kMaxGrassClusters` visible clusters gets at least two buckets. -/
theorem prepareOpaqueLeafs_buckets (kMaxGrassClusters : Nat) (g : SceneGraph)
    (isInFrustum : Vec3 → Bool) (hk : 0 < kMaxGrassClusters) :
    (prepareOpaqueLeafs kMaxGrassClusters g isInFrustum)._opaqueLeafs =
        (g._grassRoots.filter (fun grass => grass.enabled)).flatMap (fun grass =>
          (chunks kMaxGrassClusters (visibleClusters isInFrustum grass)).map
            (fun b => (grass.id, b))) ∧
    ∀ grass : GrassSceneNode,
      (chunks kMaxGrassClusters (visibleClusters isInFrustum grass)).flatten =
          visibleClusters isInFrustum grass ∧
      (∀ b ∈ chunks kMaxGrassClusters (visibleClusters isInFrustum grass),
        b ≠ [] ∧ b.length ≤ kMaxGrassClusters) ∧
      (∀ pre b post,
        chunks kMaxGrassClusters (visibleClusters isInFrustum grass) = pre ++ b :: post →
        post ≠ [] → b.length = kMaxGrassClusters) ∧
      (kMaxGrassClusters < (visibleClusters isInFrustum grass).length →
        2 ≤ (chunks kMaxGrassClusters (visibleClusters isInFrustum grass)).length) := by
  constructor
  · unfold prepareOpaqueLeafs
    simp only
    rw [opaqueLeafsRoots_chunks kMaxGrassClusters hk isInFrustum g._grassRoots []]
    simp
  · intro grass
    obtain ⟨h1, h2, h3⟩ := chunks_props kMaxGrassClusters hk _
      (visibleClusters isInFrustum grass) (le_refl _)
    exact ⟨h1, h2, h3, chunks_length_two kMaxGrassClusters hk _⟩

/-- Witness for C18: three visible clusters of one grass root and buckets of two. -/
theorem prepareOpaqueLeafs_buckets_witness :
    (prepareOpaqueLeafs 2 Example.meadowGraph (fun _ => true))._opaqueLeafs =
      (Example.meadowGraph._grassRoots.filter (fun grass => grass.enabled)).flatMap
        (fun grass =>
          (chunks 2 (visibleClusters (fun _ => true) grass)).map (fun b => (grass.id, b))) :=
  (prepareOpaqueLeafs_buckets 2 Example.meadowGraph (fun _ => true) (by decide)).1

end SceneGraph

/-! ## Theorems: transform map and time bounds of the channel -/

namespace AnimationChannel

/-- A lookup succeeds exactly for the keys of the map. -/
theorem find_isSome (m : TransformMap) (n : Nat) :
    (TransformMap.find m n).isSome = true ↔ ∃ e ∈ m, e.1 = n := by
  simp [TransformMap.find]

/-- The keys after an insertion are the keys before it and the inserted key. -/
theorem insert_keys (m : TransformMap) (k : Nat) (v : Mat4) (n : Nat) :
    (∃ e ∈ TransformMap.insert m k v, e.1 = n) ↔ (∃ e ∈ m, e.1 = n) ∨ k = n := by
  unfold TransformMap.insert
  split
  · rename_i h
    constructor
    · exact Or.inl
    · rintro (h' | rfl)
      · exact h'
      · obtain ⟨e, he, hk⟩ := List.any_eq_true.mp h
        exact ⟨e, he, by simpa using hk⟩
  · constructor
    · rintro ⟨e, he, hn⟩
      rcases List.mem_append.mp he with he' | he'
      · exact Or.inl ⟨e, he', hn⟩
      · rw [List.mem_singleton.mp he'] at hn
        exact Or.inr hn
    · rintro (⟨e, he, hn⟩ | rfl)
      · exact ⟨e, List.mem_append_left _ he, hn⟩
      · exact ⟨(k, v), List.mem_append_right _ (List.mem_singleton.mpr rfl), rfl⟩

/-- A transform is written for a node exactly when one of its three keys exists. -/
theorem nodeTransform_isSome (c : AnimationChannel) (animNode modelNode : ModelNode) :
    (nodeTransform c animNode modelNode).isSome = true ↔
      ((animNode.getScale c._time).isSome = true ∨
        (animNode.getTranslation c._time c._properties.scale).isSome = true ∨
        (animNode.getOrientation c._time).isSome = true) := by
  unfold nodeTransform
  cases animNode.getScale c._time <;>
    cases animNode.getTranslation c._time c._properties.scale <;>
    cases animNode.getOrientation c._time <;> simp

mutual

/-- The keys written by the walk of one animation tree. -/
theorem computeLocalTransform_keys (c : AnimationChannel) (n : Nat) :
    ∀ (animNode : ModelNode) (m : TransformMap),
      (∃ e ∈ computeLocalTransform c animNode m, e.1 = n) ↔
        (∃ e ∈ m, e.1 = n) ∨ ∃ node ∈ animNode.nodes, Animates c node n
  | .mk name nodeNumber position orientation getScale getTranslation getOrientation children,
    m => by
    rw [computeLocalTransform, computeLocalTransformChildren_keys c n children, ModelNode.nodes]
    simp only [List.mem_cons, exists_eq_or_imp]
    rw [← or_assoc]
    apply or_congr_left
    unfold Animates
    simp only [ModelNode.name, ModelNode.getScale, ModelNode.getTranslation,
      ModelNode.getOrientation]
    by_cases hig : c._ignoreNodes.contains name = true
    · have hig' : name ∈ c._ignoreNodes := by simpa using hig
      simp [hig, hig']
    · have hig' : name ∉ c._ignoreNodes := by simpa using hig
      simp only [hig, Bool.false_eq_true, if_false, hig', not_false_eq_true, true_and]
      cases hm : c._modelSceneNode.getModelNode name with
      | none => simp
      | some msn =>
        simp only [Option.some.injEq, exists_eq_left']
        cases ht : nodeTransform c
          (ModelNode.mk name nodeNumber position orientation getScale getTranslation
            getOrientation children) msn.modelNode with
        | none =>
          have := (nodeTransform_isSome c _ msn.modelNode).not.mp (by rw [ht]; simp)
          simp only [ModelNode.getScale, ModelNode.getTranslation,
            ModelNode.getOrientation] at this
          simp [this]
        | some transform =>
          have := (nodeTransform_isSome c _ msn.modelNode).mp (by rw [ht]; simp)
          simp only [ModelNode.getScale, ModelNode.getTranslation,
            ModelNode.getOrientation] at this
          rw [insert_keys]
          simp [this]

/-- The keys written by the walk of a list of animation trees. -/
theorem computeLocalTransformChildren_keys (c : AnimationChannel) (n : Nat) :
    ∀ (children : List ModelNode) (m : TransformMap),
      (∃ e ∈ computeLocalTransformChildren c children m, e.1 = n) ↔
        (∃ e ∈ m, e.1 = n) ∨ ∃ node ∈ ModelNode.nodesOfList children, Animates c node n
  | [], m => by
    rw [computeLocalTransformChildren, ModelNode.nodesOfList]
    simp
  | child :: rest, m => by
    rw [computeLocalTransformChildren, computeLocalTransformChildren_keys c n rest,
      computeLocalTransform_keys c n child, ModelNode.nodesOfList]
    simp only [List.mem_append]
    constructor
    · rintro ((h | ⟨node, hn, ha⟩) | ⟨node, hn, ha⟩)
      · exact Or.inl h
      · exact Or.inr ⟨node, Or.inl hn, ha⟩
      · exact Or.inr ⟨node, Or.inr hn, ha⟩
    · rintro (h | ⟨node, hn | hn, ha⟩)
      · exact Or.inl (Or.inl h)
      · exact Or.inl (Or.inr ⟨node, hn, ha⟩)
      · exact Or.inr ⟨node, hn, ha⟩

end


mutual

/-- The walk of an animation tree does not read the transform map of the channel. -/
theorem computeLocalTransform_map_irrelevant (c : AnimationChannel) (old : TransformMap) :
    ∀ (animNode : ModelNode) (m : TransformMap),
      computeLocalTransform { c with _transformByNodeNumber := old } animNode m =
        computeLocalTransform c animNode m
  | .mk name nodeNumber position orientation getScale getTranslation getOrientation children,
    m => by
    rw [computeLocalTransform, computeLocalTransform,
      computeLocalTransformChildren_map_irrelevant c old children]
    rfl

/-- The walk of a list of animation trees does not read the transform map of
the channel. -/
theorem computeLocalTransformChildren_map_irrelevant (c : AnimationChannel)
    (old : TransformMap) :
    ∀ (children : List ModelNode) (m : TransformMap),
      computeLocalTransformChildren { c with _transformByNodeNumber := old } children m =
        computeLocalTransformChildren c children m
  | [], m => by
    rw [computeLocalTransformChildren, computeLocalTransformChildren]
  | child :: rest, m => by
    rw [computeLocalTransformChildren, computeLocalTransformChildren,
      computeLocalTransform_map_irrelevant c old child,
      computeLocalTransformChildren_map_irrelevant c old rest]

end

/-- The transform map after an `update` on an active channel is the one written
by the walk of the animation tree from the empty map. -/
theorem update_active_map (c : AnimationChannel) (a : Animation) (dt : ℚ)
    (ha : c._animation = some a) (hfr : c._freeze = false) (hfi : c._finished = false) :
    (update c dt).1._transformByNodeNumber = computeLocalTransform c a.rootNode [] := by
  by_cases hne : newTime c a dt = a.length
  · rw [update_active_at_end c a dt ha hfr hfi hne]
    by_cases hl : (c._properties.flags &&& AnimationFlags.loop != 0) = true
    · simp only [hl, if_true, computeLocalTransforms]
    · simp only [hl, Bool.false_eq_true, if_false, computeLocalTransforms]
  · rw [update_active_before_end c a dt ha hfr hfi hne]
    simp only [computeLocalTransforms]

/-- C24: after `update(dt)` on an active channel (animation installed, not
frozen, not finished) the node-transform map has an entry for the skeleton node
number `n` exactly when some node of the animation tree is not in the ignore
set, matches a model node with number `n` and has a scale, translation or
orientation key at the time the channel had when `update` was called. The
children of an ignored node are nodes of the tree like any other, a node
without a key accounts for no entry, and the map that the channel held before
the call has no influence on the map after it. -/
theorem update_transform_entries (c : AnimationChannel) (a : Animation) (dt : ℚ) (n : Nat)
    (ha : c._animation = some a) (hfr : c._freeze = false) (hfi : c._finished = false) :
    ((getTransformByNodeNumber (update c dt).1 n).isSome = true ↔
      ∃ animNode ∈ a.rootNode.nodes,
        animNode.name ∉ c._ignoreNodes ∧
          ∃ modelNodeSceneNode,
            c._modelSceneNode.getModelNode animNode.name = some modelNodeSceneNode ∧
            modelNodeSceneNode.modelNode.nodeNumber = n ∧
            ((animNode.getScale c._time).isSome = true ∨
              (animNode.getTranslation c._time c._properties.scale).isSome = true ∨
              (animNode.getOrientation c._time).isSome = true)) ∧
    ∀ old : TransformMap,
      (update { c with _transformByNodeNumber := old } dt).1._transformByNodeNumber =
        (update c dt).1._transformByNodeNumber := by
  constructor
  · unfold getTransformByNodeNumber
    rw [find_isSome, update_active_map c a dt ha hfr hfi, computeLocalTransform_keys]
    simp only [List.not_mem_nil, false_and, exists_false, false_or]
    rfl
  · intro old
    rw [update_active_map c a dt ha hfr hfi,
      update_active_map { c with _transformByNodeNumber := old } a dt ha hfr hfi,
      computeLocalTransform_map_irrelevant]

/-- Witness for C24: the channel `nodding` is active; the claim is applied to
the entry of the ignored node `head` (number 2). -/
theorem update_transform_entries_witness :
    Example.nodding._animation = some Example.nod ∧
      ((getTransformByNodeNumber (update Example.nodding 1).1 2).isSome = true ↔
        ∃ animNode ∈ Example.nod.rootNode.nodes,
          animNode.name ∉ Example.nodding._ignoreNodes ∧
            ∃ modelNodeSceneNode,
              Example.nodding._modelSceneNode.getModelNode animNode.name =
                some modelNodeSceneNode ∧
              modelNodeSceneNode.modelNode.nodeNumber = 2 ∧
              ((animNode.getScale Example.nodding._time).isSome = true ∨
                (animNode.getTranslation Example.nodding._time
                  Example.nodding._properties.scale).isSome = true ∨
                (animNode.getOrientation Example.nodding._time).isSome = true)) :=
  ⟨rfl, (update_transform_entries Example.nodding Example.nod 1 2 rfl rfl rfl).1⟩

/-- One `update(dt)` with `dt >= 0` keeps the time between 0 and the length,
and a finished channel at the length. -/
theorem update_keeps_bounds (c : AnimationChannel) (a : Animation) (dt : ℚ)
    (ha : c._animation = some a) (hspeed : 0 ≤ c._properties.speed) (hlen : 0 ≤ a.length)
    (hdt : 0 ≤ dt) (h0 : 0 ≤ c._time) (h1 : c._time ≤ a.length)
    (hfin : c._finished = true → c._time = a.length) :
    (update c dt).1._animation = some a ∧ (update c dt).1._properties = c._properties ∧
      0 ≤ (update c dt).1._time ∧ (update c dt).1._time ≤ a.length ∧
      ((update c dt).1._finished = true → (update c dt).1._time = a.length) := by
  by_cases hact : c._freeze = false ∧ c._finished = false
  · obtain ⟨hfr, hfi⟩ := hact
    have hnt0 : 0 ≤ newTime c a dt := by
      unfold newTime
      exact le_min (add_nonneg h0 (mul_nonneg hspeed hdt)) hlen
    have hnt1 : newTime c a dt ≤ a.length := by
      unfold newTime
      exact min_le_right _ _
    by_cases hne : newTime c a dt = a.length
    · rw [update_active_at_end c a dt ha hfr hfi hne]
      by_cases hl : (c._properties.flags &&& AnimationFlags.loop != 0) = true
      · simp only [hl, if_true, computeLocalTransforms]
        exact ⟨ha, trivial, le_refl _, hlen, fun h => by rw [hfi] at h; cases h⟩
      · simp only [hl, Bool.false_eq_true, if_false, computeLocalTransforms]
        exact ⟨ha, trivial, hnt0, hnt1, fun _ => hne⟩
    · rw [update_active_before_end c a dt ha hfr hfi hne]
      simp only [computeLocalTransforms]
      exact ⟨ha, trivial, hnt0, hnt1, fun h => by rw [hfi] at h; cases h⟩
  · have hin : c._animation = none ∨ c._freeze = true ∨ c._finished = true := by
      by_cases hfr : c._freeze = true
      · exact Or.inr (Or.inl hfr)
      · by_cases hfi : c._finished = true
        · exact Or.inr (Or.inr hfi)
        · exact absurd ⟨by simpa using hfr, by simpa using hfi⟩ hact
    rw [update_inactive c dt hin]
    exact ⟨ha, rfl, h0, h1, hfin⟩

/-- C28: with playback speed `>= 0` and animation length `>= 0`, every channel
state reached from `reset(animation, properties)` by calls of `update(dt)` with
`dt >= 0` and of `freeze()` has `0 <= time <= length`, and is at the length
when it is finished. -/
theorem time_within_length (c : AnimationChannel) (a : Animation)
    (properties : AnimationProperties) (ops : List ChannelOp)
    (hspeed : 0 ≤ properties.speed) (hlen : 0 ≤ a.length)
    (hdt : ∀ dt, ChannelOp.update dt ∈ ops → 0 ≤ dt) :
    0 ≤ (applyOps (c.reset (some a) properties).1 ops)._time ∧
      (applyOps (c.reset (some a) properties).1 ops)._time ≤ a.length ∧
      ((applyOps (c.reset (some a) properties).1 ops)._finished = true →
        (applyOps (c.reset (some a) properties).1 ops)._time = a.length) := by
  have key : ∀ (ops : List ChannelOp) (s : AnimationChannel),
      (∀ dt, ChannelOp.update dt ∈ ops → 0 ≤ dt) →
      s._animation = some a → s._properties = properties → 0 ≤ s._time → s._time ≤ a.length →
      (s._finished = true → s._time = a.length) →
      0 ≤ (applyOps s ops)._time ∧ (applyOps s ops)._time ≤ a.length ∧
        ((applyOps s ops)._finished = true → (applyOps s ops)._time = a.length) := by
    intro ops
    induction ops with
    | nil =>
      intro s _ _ _ h0 h1 hfin
      exact ⟨h0, h1, hfin⟩
    | cons op rest ih =>
      intro s hd ha hp h0 h1 hfin
      have hrest : ∀ dt, ChannelOp.update dt ∈ rest → 0 ≤ dt :=
        fun dt h => hd dt (List.mem_cons_of_mem _ h)
      show 0 ≤ (applyOps (applyOp s op) rest)._time ∧ _
      cases op with
      | update dt =>
        have hdt0 : 0 ≤ dt := hd dt (List.mem_cons_self _ _)
        obtain ⟨ha', hp', h0', h1', hfin'⟩ := update_keeps_bounds s a dt ha
          (by rw [hp]; exact hspeed) hlen hdt0 h0 h1 hfin
        exact ih (update s dt).1 hrest ha' (by rw [hp', hp]) h0' h1' hfin'
      | freeze => exact ih (freeze s) hrest ha hp h0 h1 hfin
  exact key ops (c.reset (some a) properties).1 hdt rfl rfl (le_refl _) hlen
    (fun h => by simp [reset] at h)

/-- Witness for C28: the walk animation, updated, frozen and updated again. -/
theorem time_within_length_witness :
    (0 : ℚ) ≤ (⟨0, 1, 1, 0⟩ : AnimationProperties).speed ∧ 0 ≤ Example.walk.length ∧
      0 ≤ (applyOps (Example.idle.reset (some Example.walk) ⟨0, 1, 1, 0⟩).1
        [.update 1, .freeze, .update 2])._time :=
  ⟨by norm_num, by norm_num [Example.walk],
    (time_within_length Example.idle Example.walk ⟨0, 1, 1, 0⟩ [.update 1, .freeze, .update 2]
      (by norm_num) (by norm_num [Example.walk])
      (by
        intro dt h
        simp only [List.mem_cons, ChannelOp.update.injEq, List.mem_singleton, List.not_mem_nil,
          or_false] at h
        rcases h with h | h | h
        · rw [h]; norm_num
        · cases h
        · rw [h]; norm_num)).1⟩

end AnimationChannel

/-! ## Theorems: shadow cascades -/

namespace WorldPipeline

/-- The cascade loop does not change the scene. -/
theorem foldl_cascadeStep_scene (fl : ℚ → ℚ) (glm : Glm) (kNumShadowCascades : Nat)
    (lightDir : Vec3) (l : List Nat) (w : WorldPipeline) :
    (l.foldl (cascadeStep fl glm kNumShadowCascades lightDir) w)._scene = w._scene := by
  induction l generalizing w with
  | nil => rfl
  | cons i rest ih =>
    rw [List.foldl_cons, ih]
    rfl

/-- After the cascade loop over `0 .. n-1`, the matrix and the far plane of
every cascade `j < n` are the ones computed in pass `j`. -/
theorem foldl_cascadeStep_records (fl : ℚ → ℚ) (glm : Glm) (kNumShadowCascades : Nat)
    (lightDir : Vec3) (w : WorldPipeline) (n : Nat) :
    ∀ j, j < n →
      ((List.range n).foldl (cascadeStep fl glm kNumShadowCascades lightDir)
          w)._shadowLightSpace j =
        computeDirectionalLightSpaceMatrix glm w._scene.camera.fovy w._scene.camera.aspect
          (cascadeNear fl w._scene.camera.zNear w._scene.camera.zFar j)
          (cascadeFar fl kNumShadowCascades w._scene.camera.zFar j) lightDir
          w._scene.camera.view ∧
      ((List.range n).foldl (cascadeStep fl glm kNumShadowCascades lightDir)
          w)._shadowCascadeFarPlanes (j / 4) (j % 4) =
        cascadeFar fl kNumShadowCascades w._scene.camera.zFar j := by
  induction n with
  | zero =>
    intro j hj
    omega
  | succ n ih =>
    intro j hj
    rw [List.range_succ, List.foldl_append, List.foldl_cons, List.foldl_nil]
    have hscene := foldl_cascadeStep_scene fl glm kNumShadowCascades lightDir (List.range n) w
    by_cases hjn : j = n
    · subst hjn
      simp only [cascadeStep, Function.update_same, hscene]
      exact ⟨trivial, trivial⟩
    · have hlt : j < n := by omega
      obtain ⟨h1, h2⟩ := ih j hlt
      constructor
      · simp only [cascadeStep]
        rw [Function.update_noteq hjn]
        exact h1
      · simp only [cascadeStep]
        by_cases hd : j / 4 = n / 4
        · have hm : j % 4 ≠ n % 4 := by omega
          rw [hd, Function.update_same, Function.update_noteq hm, ← hd]
          exact h2
        · rw [Function.update_noteq hd]
          exact h2

/-- The far distances of the eight cascades. -/
theorem cascadeFar_values (fl : ℚ → ℚ) (cameraFar : ℚ) :
    (List.range 8).map (cascadeFar fl 8 cameraFar) =
      [fl (cameraFar * fl 0.005), fl (cameraFar * fl 0.015), fl (cameraFar * fl 0.035),
        fl (cameraFar * fl 0.075), fl (cameraFar * fl 0.155), fl (cameraFar * fl 0.315),
        fl (cameraFar * fl 0.635), cameraFar] := by
  simp [List.range_succ, cascadeFar, g_shadowCascadeDivisors]

/-- The near distances of the eight cascades. -/
theorem cascadeNear_values (fl : ℚ → ℚ) (cameraNear cameraFar : ℚ) :
    (List.range 8).map (cascadeNear fl cameraNear cameraFar) =
      [cameraNear, fl (cameraFar * fl 0.005), fl (cameraFar * fl 0.015),
        fl (cameraFar * fl 0.035), fl (cameraFar * fl 0.075), fl (cameraFar * fl 0.155),
        fl (cameraFar * fl 0.315), fl (cameraFar * fl 0.635)] := by
  simp [List.range_succ, cascadeNear, g_shadowCascadeDivisors]

/-- Every cascade after the first starts where the one before it ends. -/
theorem cascadeNear_eq_cascadeFar_pred (fl : ℚ → ℚ) (cameraNear cameraFar : ℚ) (i : Nat)
    (h0 : 0 < i) (h8 : i < 8) :
    cascadeNear fl cameraNear cameraFar i = cascadeFar fl 8 cameraFar (i - 1) := by
  unfold cascadeNear cascadeFar
  have h1 : i - 1 < 8 - 1 := by omega
  simp only [gt_iff_lt, h0, if_true, h1]

/-- In exact arithmetic the far distances of the cascades increase strictly for
a positive camera far plane. -/
theorem cascadeFar_strictMono (cameraFar : ℚ) (hfar : 0 < cameraFar) (i : Nat) (h : i < 7) :
    cascadeFar id 8 cameraFar i < cascadeFar id 8 cameraFar (i + 1) := by
  unfold cascadeFar
  interval_cases i <;> norm_num [g_shadowCascadeDivisors] <;> linarith

/-- The `float` values of the seven divisors: `0.005f` is `5368709 / 2^30`, and
so on. -/
theorem shadowCascadeDivisors_float :
    g_shadowCascadeDivisors roundFloat =
      [5368709 / 2 ^ 30, 16106127 / 2 ^ 30, 9395241 / 2 ^ 28, 5033165 / 2 ^ 26,
        5200937 / 2 ^ 25, 5284823 / 2 ^ 24, 2663383 / 2 ^ 22] := by
  have h0 : roundFloat 0.005 = 5368709 / 2 ^ 30 := by
    rw [roundFloat_of_lt 0.005 (-8) 10737418 (by norm_num) (by norm_num) (by norm_num)
      (by norm_num) (by norm_num)]
    norm_num
  have h1 : roundFloat 0.015 = 16106127 / 2 ^ 30 := by
    rw [roundFloat_of_lt 0.015 (-7) 16106127 (by norm_num) (by norm_num) (by norm_num)
      (by norm_num) (by norm_num)]
    norm_num
  have h2 : roundFloat 0.035 = 9395241 / 2 ^ 28 := by
    rw [roundFloat_of_lt 0.035 (-5) 9395241 (by norm_num) (by norm_num) (by norm_num)
      (by norm_num) (by norm_num)]
    norm_num
  have h3 : roundFloat 0.075 = 5033165 / 2 ^ 26 := by
    rw [roundFloat_of_lt 0.075 (-4) 10066330 (by norm_num) (by norm_num) (by norm_num)
      (by norm_num) (by norm_num)]
    norm_num
  have h4 : roundFloat 0.155 = 5200937 / 2 ^ 25 := by
    rw [roundFloat_of_lt 0.155 (-3) 10401874 (by norm_num) (by norm_num) (by norm_num)
      (by norm_num) (by norm_num)]
    norm_num
  have h5 : roundFloat 0.315 = 5284823 / 2 ^ 24 := by
    rw [roundFloat_of_lt 0.315 (-2) 10569646 (by norm_num) (by norm_num) (by norm_num)
      (by norm_num) (by norm_num)]
    norm_num
  have h6 : roundFloat 0.635 = 2663383 / 2 ^ 22 := by
    rw [roundFloat_of_lt 0.635 (-1) 10653532 (by norm_num) (by norm_num) (by norm_num)
      (by norm_num) (by norm_num)]
    norm_num
  unfold g_shadowCascadeDivisors
  rw [h0, h1, h2, h3, h4, h5, h6]

/-- In `float` arithmetic the far distances of the cascades increase strictly
when the camera far plane is at least `2^-118`, so that no product is
subnormal. -/
theorem cascadeFar_float_strictMono (cameraFar : ℚ) (hfar : 1 / 2 ^ 118 ≤ cameraFar) (i : Nat)
    (h : i < 7) :
    cascadeFar roundFloat 8 cameraFar i < cascadeFar roundFloat 8 cameraFar (i + 1) := by
  have hpos : 0 < cameraFar := lt_of_lt_of_le (by norm_num) hfar
  have b0 := roundFloat_bounds (cameraFar * (5368709 / 2 ^ 30)) (by norm_num at hfar ⊢; linarith)
  have b1 := roundFloat_bounds (cameraFar * (16106127 / 2 ^ 30)) (by norm_num at hfar ⊢; linarith)
  have b2 := roundFloat_bounds (cameraFar * (9395241 / 2 ^ 28)) (by norm_num at hfar ⊢; linarith)
  have b3 := roundFloat_bounds (cameraFar * (5033165 / 2 ^ 26)) (by norm_num at hfar ⊢; linarith)
  have b4 := roundFloat_bounds (cameraFar * (5200937 / 2 ^ 25)) (by norm_num at hfar ⊢; linarith)
  have b5 := roundFloat_bounds (cameraFar * (5284823 / 2 ^ 24)) (by norm_num at hfar ⊢; linarith)
  have b6 := roundFloat_bounds (cameraFar * (2663383 / 2 ^ 22)) (by norm_num at hfar ⊢; linarith)
  unfold cascadeFar
  rw [shadowCascadeDivisors_float]
  interval_cases i <;> simp only [List.getD_cons_zero, List.getD_cons_succ] <;> norm_num <;>
    norm_num at b0 b1 b2 b3 b4 b5 b6 <;> linarith [b0.1, b0.2, b1.1, b1.2, b2.1, b2.2, b3.1,
      b3.2, b4.1, b4.2, b5.1, b5.2, b6.1, b6.2]

/-- C25: for a directional shadow light and `kNumShadowCascades = 8`,
`computeLightSpaceMatrices` computes the matrix of cascade `i` for the depth
range from `cascadeNear i` to `cascadeFar i` and records `cascadeFar i` as the
far plane of the cascade. These ranges tile the depth range of the camera,
whatever the rounding `fl` of the products: cascade 0 starts at the camera near
plane, the last cascade ends at the camera far plane, cascade `i < 7` ends at
the product of `cameraFar` and the divisor `0.005, 0.015, 0.035, 0.075, 0.155,
0.315, 0.635`, and every later cascade starts where the one before it ends. In
exact arithmetic the ends are `cameraFar * 0.005` and so on, and with
`cameraFar > 0` the recorded far planes increase strictly. In `float`
arithmetic the ends are the rounded products of `cameraFar` and the `float`
divisors, and the recorded far planes increase strictly when `cameraFar` is at
least `2^-118`. -/
theorem cascades_tile_depth_range (fl : ℚ → ℚ) (glm : Glm) (kNumCubeFaces : Nat)
    (w : WorldPipeline) (hshadow : w._scene.hasShadowLight = true)
    (hdir : w._scene.isShadowLightDirectional = true) :
    (computeLightSpaceMatrices fl glm 8 kNumCubeFaces w).2 = .ok () ∧
    (∀ i, i < 8 →
      (computeLightSpaceMatrices fl glm 8 kNumCubeFaces w).1._shadowLightSpace i =
        computeDirectionalLightSpaceMatrix glm w._scene.camera.fovy w._scene.camera.aspect
          (cascadeNear fl w._scene.camera.zNear w._scene.camera.zFar i)
          (cascadeFar fl 8 w._scene.camera.zFar i)
          (Vec3.normalize glm.sqrt
            (Vec3.sub w._scene.camera.position w._scene.shadowLightPosition))
          w._scene.camera.view ∧
      (computeLightSpaceMatrices fl glm 8 kNumCubeFaces w).1._shadowCascadeFarPlanes (i / 4)
          (i % 4) = cascadeFar fl 8 w._scene.camera.zFar i) ∧
    cascadeNear fl w._scene.camera.zNear w._scene.camera.zFar 0 = w._scene.camera.zNear ∧
    cascadeFar fl 8 w._scene.camera.zFar 7 = w._scene.camera.zFar ∧
    (List.range 7).map (cascadeFar fl 8 w._scene.camera.zFar) =
      [fl (w._scene.camera.zFar * fl 0.005), fl (w._scene.camera.zFar * fl 0.015),
        fl (w._scene.camera.zFar * fl 0.035), fl (w._scene.camera.zFar * fl 0.075),
        fl (w._scene.camera.zFar * fl 0.155), fl (w._scene.camera.zFar * fl 0.315),
        fl (w._scene.camera.zFar * fl 0.635)] ∧
    (∀ i, 0 < i → i < 8 →
      cascadeNear fl w._scene.camera.zNear w._scene.camera.zFar i =
        cascadeFar fl 8 w._scene.camera.zFar (i - 1)) ∧
    ((List.range 7).map (cascadeFar id 8 w._scene.camera.zFar) =
      [w._scene.camera.zFar * 0.005, w._scene.camera.zFar * 0.015,
        w._scene.camera.zFar * 0.035, w._scene.camera.zFar * 0.075,
        w._scene.camera.zFar * 0.155, w._scene.camera.zFar * 0.315,
        w._scene.camera.zFar * 0.635] ∧
      (0 < w._scene.camera.zFar → ∀ i, i < 7 →
        (computeLightSpaceMatrices id glm 8 kNumCubeFaces w).1._shadowCascadeFarPlanes (i / 4)
            (i % 4) <
          (computeLightSpaceMatrices id glm 8 kNumCubeFaces w).1._shadowCascadeFarPlanes
            ((i + 1) / 4) ((i + 1) % 4))) ∧
    ((List.range 7).map (cascadeFar roundFloat 8 w._scene.camera.zFar) =
      [roundFloat (w._scene.camera.zFar * (5368709 / 2 ^ 30)),
        roundFloat (w._scene.camera.zFar * (16106127 / 2 ^ 30)),
        roundFloat (w._scene.camera.zFar * (9395241 / 2 ^ 28)),
        roundFloat (w._scene.camera.zFar * (5033165 / 2 ^ 26)),
        roundFloat (w._scene.camera.zFar * (5200937 / 2 ^ 25)),
        roundFloat (w._scene.camera.zFar * (5284823 / 2 ^ 24)),
        roundFloat (w._scene.camera.zFar * (2663383 / 2 ^ 22))] ∧
      (1 / 2 ^ 118 ≤ w._scene.camera.zFar → ∀ i, i < 7 →
        (computeLightSpaceMatrices roundFloat glm 8 kNumCubeFaces
            w).1._shadowCascadeFarPlanes (i / 4) (i % 4) <
          (computeLightSpaceMatrices roundFloat glm 8 kNumCubeFaces
            w).1._shadowCascadeFarPlanes ((i + 1) / 4) ((i + 1) % 4))) := by
  have hrun : ∀ r : ℚ → ℚ, computeLightSpaceMatrices r glm 8 kNumCubeFaces w =
      ((List.range 8).foldl (cascadeStep r glm 8
        (Vec3.normalize glm.sqrt
          (Vec3.sub w._scene.camera.position w._scene.shadowLightPosition))) w, .ok ()) := by
    intro r
    simp [computeLightSpaceMatrices, hshadow, hdir]
  have hrec := fun r : ℚ → ℚ => foldl_cascadeStep_records r glm 8
    (Vec3.normalize glm.sqrt (Vec3.sub w._scene.camera.position w._scene.shadowLightPosition))
    w 8
  rw [hrun fl, hrun id, hrun roundFloat]
  refine ⟨rfl, hrec fl, ?_, ?_, ?_, ?_, ⟨?_, ?_⟩, ⟨?_, ?_⟩⟩
  · simp [cascadeNear]
  · simp [cascadeFar]
  · simp [List.range_succ, cascadeFar, g_shadowCascadeDivisors]
  · intro i h0 h8
    exact cascadeNear_eq_cascadeFar_pred fl _ _ i h0 h8
  · simp [List.range_succ, cascadeFar, g_shadowCascadeDivisors]
  · intro hfar i hi
    rw [(hrec id i (by omega)).2, (hrec id (i + 1) (by omega)).2]
    exact cascadeFar_strictMono _ hfar i hi
  · simp only [List.range_succ, List.range_zero, List.nil_append, List.cons_append, List.map,
      cascadeFar, shadowCascadeDivisors_float]
    simp
  · intro hfar i hi
    rw [(hrec roundFloat i (by omega)).2, (hrec roundFloat (i + 1) (by omega)).2]
    exact cascadeFar_float_strictMono _ hfar i hi

/-- Witness for C25: the pipeline `sunlit` has a directional shadow light and a
camera far plane of 1000; in `float` arithmetic the recorded far plane of its
first cascade lies below that of the second. -/
theorem cascades_tile_depth_range_witness :
    Example.sunlit._scene.hasShadowLight = true ∧
      Example.sunlit._scene.isShadowLightDirectional = true ∧
      (computeLightSpaceMatrices roundFloat Example.flatGlm 8 6
          Example.sunlit).1._shadowCascadeFarPlanes (0 / 4) (0 % 4) <
        (computeLightSpaceMatrices roundFloat Example.flatGlm 8 6
          Example.sunlit).1._shadowCascadeFarPlanes ((0 + 1) / 4) ((0 + 1) % 4) :=
  ⟨rfl, rfl,
    (cascades_tile_depth_range roundFloat Example.flatGlm 6 Example.sunlit rfl
      rfl).2.2.2.2.2.2.2.2 (by norm_num [Example.sunlit]) 0 (by decide)⟩

/-- C30 fails as stated: with `cameraNear = 1` and `cameraFar = 100`, where
`0 < cameraNear < cameraFar`, the first cascade is computed for the near
distance 1 and the far distance `1/2`, the `float` product of 100 and
`0.005f`. -/
theorem first_cascade_inverted :
    (0 : ℚ) < 1 ∧ (1 : ℚ) < 100 ∧ cascadeNear roundFloat 1 100 0 = 1 ∧
      cascadeFar roundFloat 8 100 0 = 1 / 2 ∧
      ¬ (cascadeNear roundFloat 1 100 0 < cascadeFar roundFloat 8 100 0) := by
  have hfar : cascadeFar roundFloat 8 100 0 = 1 / 2 := by
    unfold cascadeFar
    rw [shadowCascadeDivisors_float]
    simp only [List.getD_cons_zero]
    norm_num
    rw [roundFloat_of_lt _ (-2) 16777216 (by norm_num) (by norm_num) (by norm_num)
      (by norm_num) (by norm_num)]
    norm_num
  have hnear : cascadeNear roundFloat 1 100 0 = 1 := by simp [cascadeNear]
  rw [hfar, hnear]
  norm_num

/-- The decimal bound is not enough in `float` arithmetic: with the near plane
`5368709 / 2^20` and the far plane 1024 the near plane lies below
`0.005 * cameraFar`, and the first cascade is computed for a far distance equal
to its near distance. -/
theorem first_cascade_empty_below_decimal_bound :
    (5368709 / 2 ^ 20 : ℚ) < 0.005 * 1024 ∧
      cascadeFar roundFloat 8 1024 0 = cascadeNear roundFloat (5368709 / 2 ^ 20) 1024 0 := by
  have hfar : cascadeFar roundFloat 8 1024 0 = 5368709 / 2 ^ 20 := by
    unfold cascadeFar
    rw [shadowCascadeDivisors_float]
    simp only [List.getD_cons_zero]
    norm_num
    rw [roundFloat_of_lt _ 2 10737418 (by norm_num) (by norm_num) (by norm_num)
      (by norm_num) (by norm_num)]
    norm_num
  have hnear : cascadeNear roundFloat (5368709 / 2 ^ 20) 1024 0 = 5368709 / 2 ^ 20 := by
    simp [cascadeNear]
  rw [hfar, hnear]
  norm_num

/-- C30, amended: in `float` arithmetic and with a camera far plane of at
least `2^-118`, every one of the eight cascades is computed for a near distance
strictly below its far distance exactly when the camera near plane lies below
the computed end of the first cascade, the `float` product of `cameraFar` and
`0.005f`; a near plane below `(1 - 2^-24) * 0.005f * cameraFar` does. The
cascades after the first are proper whatever the near plane is. -/
theorem cascade_near_lt_far (cameraNear cameraFar : ℚ) (hfar : 1 / 2 ^ 118 ≤ cameraFar) :
    ((∀ i, i < 8 →
        cascadeNear roundFloat cameraNear cameraFar i < cascadeFar roundFloat 8 cameraFar i) ↔
      cameraNear < roundFloat (cameraFar * roundFloat 0.005)) ∧
    (cameraNear < cameraFar * (5368709 / 2 ^ 30) * (1 - 1 / 2 ^ 24) →
      cameraNear < roundFloat (cameraFar * roundFloat 0.005)) ∧
    (∀ i, 0 < i → i < 8 →
      cascadeNear roundFloat cameraNear cameraFar i < cascadeFar roundFloat 8 cameraFar i) := by
  have hd0 : roundFloat 0.005 = 5368709 / 2 ^ 30 := by
    have h := congrArg (fun l => l.getD 0 0) shadowCascadeDivisors_float
    simpa [g_shadowCascadeDivisors] using h
  have hfirst : cascadeFar roundFloat 8 cameraFar 0 = roundFloat (cameraFar * roundFloat 0.005) := by
    simp [cascadeFar, g_shadowCascadeDivisors]
  have hnear0 : cascadeNear roundFloat cameraNear cameraFar 0 = cameraNear := by
    simp [cascadeNear]
  have hlater : ∀ i, 0 < i → i < 8 →
      cascadeNear roundFloat cameraNear cameraFar i < cascadeFar roundFloat 8 cameraFar i := by
    intro i h0 h8
    rw [cascadeNear_eq_cascadeFar_pred roundFloat cameraNear cameraFar i h0 h8]
    have := cascadeFar_float_strictMono cameraFar hfar (i - 1) (by omega)
    rwa [Nat.sub_add_cancel h0] at this
  refine ⟨⟨fun h => ?_, fun h i hi => ?_⟩, fun h => ?_, hlater⟩
  · have := h 0 (by decide)
    rwa [hnear0, hfirst] at this
  · by_cases h0 : i = 0
    · subst h0
      rw [hnear0, hfirst]
      exact h
    · exact hlater i (Nat.pos_of_ne_zero h0) hi
  · rw [hd0]
    have b := roundFloat_bounds (cameraFar * (5368709 / 2 ^ 30))
      (by norm_num at hfar ⊢; linarith)
    linarith [b.1]

/-- Witness for C30, amended: near plane 1/10, far plane 1000, last cascade. -/
theorem cascade_near_lt_far_witness :
    (1 / 2 ^ 118 : ℚ) ≤ 1000 ∧
      cascadeNear roundFloat (1 / 10) 1000 7 < cascadeFar roundFloat 8 1000 7 :=
  ⟨by norm_num,
    (cascade_near_lt_far (1 / 10) 1000 (by norm_num)).1.2
      ((cascade_near_lt_far (1 / 10) 1000 (by norm_num)).2.1 (by norm_num)) 7 (by decide)⟩

/-- The widening of the Z range, case by case. -/
theorem expandZ_fields (b : Bounds) :
    (expandZ b).minZ = (if b.minZ < 0 then b.minZ * 10 else b.minZ / 10) ∧
      (expandZ b).maxZ = (if b.maxZ < 0 then b.maxZ / 10 else b.maxZ * 10) ∧
      (expandZ b).minX = b.minX ∧ (expandZ b).maxX = b.maxX ∧
      (expandZ b).minY = b.minY ∧ (expandZ b).maxY = b.maxY := by
  unfold expandZ
  by_cases h1 : b.minZ < 0 <;> by_cases h2 : b.maxZ < 0 <;> simp [h1, h2]

/-- C27: the Z expansion of `computeDirectionalLightSpaceMatrix` multiplies a
negative minimum and a non-negative maximum by 10 and divides a non-negative
minimum and a negative maximum by 10; the expanded minimum is never above the
minimum and the expanded maximum never below the maximum, so the Z range handed
to the orthographic projection contains the range of the corners. The X and Y
bounds are not changed. -/
theorem expandZ_widens (b : Bounds) :
    (b.minZ < 0 → (expandZ b).minZ = b.minZ * 10) ∧
    (0 ≤ b.minZ → (expandZ b).minZ = b.minZ / 10) ∧
    (b.maxZ < 0 → (expandZ b).maxZ = b.maxZ / 10) ∧
    (0 ≤ b.maxZ → (expandZ b).maxZ = b.maxZ * 10) ∧
    (expandZ b).minZ ≤ b.minZ ∧ b.maxZ ≤ (expandZ b).maxZ ∧
    (expandZ b).minX = b.minX ∧ (expandZ b).maxX = b.maxX ∧
    (expandZ b).minY = b.minY ∧ (expandZ b).maxY = b.maxY := by
  obtain ⟨h1, h2, h3, h4, h5, h6⟩ := expandZ_fields b
  refine ⟨?_, ?_, ?_, ?_, ?_, ?_, h3, h4, h5, h6⟩
  · intro h
    rw [h1, if_pos h]
  · intro h
    rw [h1, if_neg (not_lt.mpr h)]
  · intro h
    rw [h2, if_pos h]
  · intro h
    rw [h2, if_neg (not_lt.mpr h)]
  · rw [h1]
    split
    · linarith
    · rename_i h
      have := not_lt.mp h
      linarith
  · rw [h2]
    split
    · linarith
    · rename_i h
      have := not_lt.mp h
      linarith

/-- C26 fails on the code: the maxima of the bounds start at
`numeric_limits<float>::min()`, the smallest positive `float`, so for the box
`boxCorners`, whose corners all have a negative light-space z (at most `-1/2`,
attained), the collected `maxZ` is that positive start value and not the
maximum `-1/2` of the corners. The minimum is the minimum of the corners. -/
theorem cornerBounds_maxZ_not_maximum :
    (∀ v ∈ Example.boxCorners, (Mat4.mulVec Mat4.identity v).z ≤ -1 / 2) ∧
    (∃ v ∈ Example.boxCorners, (Mat4.mulVec Mat4.identity v).z = -1 / 2) ∧
    (cornerBounds Mat4.identity Example.boxCorners).minZ = -3 / 2 ∧
    (cornerBounds Mat4.identity Example.boxCorners).maxZ = floatMin ∧
    0 < floatMin := by
  refine ⟨?_, ⟨⟨-1, -1, -1 / 2, 1⟩, ?_, ?_⟩, ?_, ?_, ?_⟩
  · intro v hv
    simp only [Example.boxCorners, List.mem_cons, List.mem_singleton, List.not_mem_nil,
      or_false] at hv
    rcases hv with rfl | rfl | rfl | rfl | rfl | rfl | rfl | rfl <;>
      norm_num [Mat4.mulVec, Mat4.identity, Vec4.add, Vec4.smul]
  · simp [Example.boxCorners]
  · norm_num [Mat4.mulVec, Mat4.identity, Vec4.add, Vec4.smul]
  · norm_num [cornerBounds, Example.boxCorners, boundsStep, Mat4.mulVec, Mat4.identity,
      Vec4.add, Vec4.smul, floatMax]
  · norm_num [cornerBounds, Example.boxCorners, boundsStep, Mat4.mulVec, Mat4.identity,
      Vec4.add, Vec4.smul, floatMin]
  · norm_num [floatMin]

end WorldPipeline

/-! ## Theorems: flags of the active lights -/

namespace SceneGraph

/-- The addresses of the de-activated lights are addresses of visited lights. -/
theorem deactivatedIds_subset (todo : List LightSceneNode) :
    ∀ (lookup : List LightSceneNode), ∀ i ∈ deactivatedIds todo lookup,
      ∃ e ∈ todo, e.id = i := by
  induction todo with
  | nil =>
    intro lookup i hi
    simp [deactivatedIds] at hi
  | cons light rest ih =>
    intro lookup i hi
    unfold deactivatedIds at hi
    split at hi
    · rcases List.mem_cons.mp hi with rfl | hi'
      · exact ⟨light, List.mem_cons_self _ _, rfl⟩
      · obtain ⟨e, he, hid⟩ := ih lookup i hi'
        exact ⟨e, List.mem_cons_of_mem _ he, hid⟩
    · obtain ⟨e, he, hid⟩ := ih _ i hi
      exact ⟨e, List.mem_cons_of_mem _ he, hid⟩

/-- A visited light whose address is in `lookup` is not de-activated, when the
visited lights have distinct addresses. -/
theorem not_mem_deactivatedIds (todo : List LightSceneNode) :
    ∀ (lookup : List LightSceneNode), (todo.map (fun l => l.id)).Nodup →
      ∀ a ∈ todo, (∃ c ∈ lookup, c.id = a.id) → a.id ∉ deactivatedIds todo lookup := by
  induction todo with
  | nil =>
    intro lookup _ a ha
    simp at ha
  | cons light rest ih =>
    intro lookup hnd a ha hin
    have hnd' : (rest.map (fun l => l.id)).Nodup := (List.nodup_cons.mp hnd).2
    have hnotin : light.id ∉ rest.map (fun l => l.id) := (List.nodup_cons.mp hnd).1
    unfold deactivatedIds
    by_cases h : (!lookup.any (fun l => l.id == light.id)) = true
    · simp only [h, if_true, List.mem_cons, not_or]
      have hne : a.id ≠ light.id := by
        intro heq
        obtain ⟨c, hc, hcid⟩ := hin
        simp only [Bool.not_eq_true', List.any_eq_false, beq_iff_eq] at h
        exact h c hc (by rw [hcid, heq])
      have har : a ∈ rest := by
        rcases List.mem_cons.mp ha with rfl | h'
        · exact absurd rfl hne
        · exact h'
      exact ⟨hne, ih lookup hnd' a har hin⟩
    · simp only [h, Bool.false_eq_true, if_false]
      by_cases heq : a.id = light.id
      · intro hmem
        obtain ⟨e, he, hid⟩ := deactivatedIds_subset rest _ a.id hmem
        exact hnotin (List.mem_map.mpr ⟨e, he, by rw [hid, heq]⟩)
      · have har : a ∈ rest := by
          rcases List.mem_cons.mp ha with rfl | h'
          · exact absurd rfl heq
          · exact h'
        obtain ⟨c, hc, hcid⟩ := hin
        exact ih _ hnd' a har ⟨c, List.mem_filter.mpr ⟨hc, by
          simp only [Bool.not_eq_true', beq_eq_false_iff_ne, ne_eq]
          rw [hcid]
          exact heq⟩, hcid⟩

/-- After the de-activation loop `lookup` holds no address of a visited light. -/
theorem deactivateLoop_lookup_fresh (todo : List LightSceneNode) :
    ∀ (g : SceneGraph) (lookup : List LightSceneNode), ∀ a ∈ todo,
      ∀ c ∈ (deactivateLoop todo (g, lookup)).2, c.id ≠ a.id := by
  induction todo with
  | nil =>
    intro g lookup a ha
    simp at ha
  | cons light rest ih =>
    intro g lookup a ha c hc
    unfold deactivateLoop at hc
    by_cases h : (!lookup.any (fun l => l.id == light.id)) = true
    · simp only [h, if_true] at hc
      rcases List.mem_cons.mp ha with rfl | har
      · simp only [Bool.not_eq_true', List.any_eq_false, beq_iff_eq] at h
        exact h c (deactivateLoop_lookup rest _ _ c hc)
      · exact ih _ _ a har c hc
    · simp only [h, Bool.false_eq_true, if_false] at hc
      rcases List.mem_cons.mp ha with rfl | har
      · have hc' := deactivateLoop_lookup rest _ _ c hc
        have := (List.mem_filter.mp hc').2
        simpa using this
      · exact ih _ _ a har c hc

/-- Every selected light has its address in `lookup`. -/
theorem foldl_lookupInsert_ids (sel : List LightSceneNode) :
    ∀ (acc : List LightSceneNode) (i : Nat),
      ((∃ c ∈ acc, c.id = i) ∨ ∃ c ∈ sel, c.id = i) →
        ∃ c ∈ sel.foldl lookupInsert acc, c.id = i := by
  induction sel with
  | nil =>
    intro acc i h
    rcases h with h | ⟨c, hc, _⟩
    · exact h
    · simp at hc
  | cons x rest ih =>
    intro acc i h
    rw [List.foldl_cons]
    apply ih
    rcases h with ⟨c, hc, hid⟩ | ⟨c, hc, hid⟩
    · left
      unfold lookupInsert
      split
      · exact ⟨c, hc, hid⟩
      · exact ⟨c, (List.mem_orderedInsert _).mpr (Or.inr hc), hid⟩
    · rcases List.mem_cons.mp hc with rfl | hc'
      · left
        unfold lookupInsert
        split
        · rename_i hany
          obtain ⟨e, he, hee⟩ := List.any_eq_true.mp hany
          exact ⟨e, he, by rw [← hid]; simpa using hee⟩
        · exact ⟨c, (List.mem_orderedInsert _).mpr (Or.inl rfl), hid⟩
      · exact Or.inr ⟨c, hc', hid⟩

/-- What `updateLighting` does to the flags of the active list, for an active
list with distinct addresses: an entry that is selected again is left as it
is, whatever its flag, and an entry with a new address is active. -/
theorem updateLighting_flags (kMaxLights : Nat) (g : SceneGraph) (camera : CameraSceneNode)
    (hnd : (g._activeLights.map (fun l => l.id)).Nodup) :
    (∀ a ∈ g._activeLights,
      (∃ c ∈ computeClosestLights g camera kMaxLights lightingPred, c.id = a.id) →
      ((!((!a.active && decide (a.strength = 0)) || !a.modelEnabled)) = true →
        a ∈ (updateLighting kMaxLights g camera)._activeLights) ∧
      ∀ e ∈ (updateLighting kMaxLights g camera)._activeLights, e.id = a.id → e = a) ∧
    (∀ e ∈ (updateLighting kMaxLights g camera)._activeLights,
      (∀ a ∈ g._activeLights, a.id ≠ e.id) → e.active = true) := by
  rw [updateLighting_eq]
  generalize hsel : computeClosestLights g camera kMaxLights lightingPred = sel
  have hact1 := deactivateLoop_activeLights g._activeLights g (sel.foldl lookupInsert [])
  have hfresh := deactivateLoop_lookup_fresh g._activeLights g (sel.foldl lookupInsert [])
  have hinj := List.inj_on_of_nodup_map hnd
  have hdid : ∀ (ids : List Nat) (l : LightSceneNode), (deactivated ids l).id = l.id := by
    intro ids l
    unfold deactivated
    split <;> rfl
  constructor
  · intro a ha hin
    have hlk : ∃ c ∈ sel.foldl lookupInsert [], c.id = a.id :=
      foldl_lookupInsert_ids sel [] a.id (Or.inr hin)
    have hnotD := not_mem_deactivatedIds g._activeLights _ hnd a ha hlk
    have hsame : deactivated (deactivatedIds g._activeLights (sel.foldl lookupInsert [])) a = a := by
      simp [deactivated, hnotD]
    constructor
    · intro hkeep
      apply mem_activateLoop_of_mem
      · refine List.mem_filter.mpr ⟨?_, hkeep⟩
        rw [hact1]
        exact List.mem_map.mpr ⟨a, ha, hsame⟩
      · exact fun c hc => hfresh a ha c hc
    · intro e he hea
      rcases mem_activateLoop kMaxLights _ _ e he with ⟨a1, ha1, hcase⟩ | ⟨c, hc, rfl⟩
      · have hmem1 := (List.mem_filter.mp ha1).1
        rw [hact1] at hmem1
        obtain ⟨a0, ha0, rfl⟩ := List.mem_map.mp hmem1
        rcases hcase with rfl | ⟨rfl, c, hc, hcid⟩
        · have : a0 = a := hinj ha0 ha (by rw [← hdid, hea])
          rw [this, hsame]
        · exact absurd (by rw [hcid, hdid]) (hfresh a0 ha0 c hc)
      · exact absurd hea (hfresh a ha c hc)
  · intro e he hnew
    rcases mem_activateLoop kMaxLights _ _ e he with ⟨a1, ha1, hcase⟩ | ⟨c, hc, rfl⟩
    · have hmem1 := (List.mem_filter.mp ha1).1
      rw [hact1] at hmem1
      obtain ⟨a0, ha0, rfl⟩ := List.mem_map.mp hmem1
      rcases hcase with rfl | ⟨rfl, _⟩
      · exact absurd (hdid _ a0).symm (hnew a0 ha0)
      · rfl
    · rfl


/-- For an active list with distinct addresses: an entry that is selected again
and is inactive with strength 0, or has a disabled model, is removed by
`updateLighting` and not appended again. -/
theorem updateLighting_reselected_removed (kMaxLights : Nat) (g : SceneGraph)
    (camera : CameraSceneNode) (hnd : (g._activeLights.map (fun l => l.id)).Nodup) :
    ∀ a ∈ g._activeLights,
      (∃ c ∈ computeClosestLights g camera kMaxLights lightingPred, c.id = a.id) →
      (!((!a.active && decide (a.strength = 0)) || !a.modelEnabled)) = false →
      ∀ e ∈ (updateLighting kMaxLights g camera)._activeLights, e.id ≠ a.id := by
  rw [updateLighting_eq]
  generalize hsel : computeClosestLights g camera kMaxLights lightingPred = sel
  have hact1 := deactivateLoop_activeLights g._activeLights g (sel.foldl lookupInsert [])
  have hfresh := deactivateLoop_lookup_fresh g._activeLights g (sel.foldl lookupInsert [])
  have hinj := List.inj_on_of_nodup_map hnd
  have hdid : ∀ (ids : List Nat) (l : LightSceneNode), (deactivated ids l).id = l.id := by
    intro ids l
    unfold deactivated
    split <;> rfl
  intro a ha hin hdrop e he hea
  have hlk : ∃ c ∈ sel.foldl lookupInsert [], c.id = a.id :=
    foldl_lookupInsert_ids sel [] a.id (Or.inr hin)
  have hnotD := not_mem_deactivatedIds g._activeLights _ hnd a ha hlk
  have hsame : deactivated (deactivatedIds g._activeLights (sel.foldl lookupInsert [])) a = a := by
    simp [deactivated, hnotD]
  rcases mem_activateLoop kMaxLights _ _ e he with ⟨a1, ha1, hcase⟩ | ⟨c, hc, rfl⟩
  · obtain ⟨hmem1, hkeep⟩ := List.mem_filter.mp ha1
    rw [hact1] at hmem1
    obtain ⟨a0, ha0, rfl⟩ := List.mem_map.mp hmem1
    rcases hcase with rfl | ⟨rfl, c, hc, hcid⟩
    · have h0 : a0 = a := hinj ha0 ha (by rw [← hdid, hea])
      rw [h0, hsame, hdrop] at hkeep
      exact Bool.false_ne_true hkeep
    · exact absurd (by rw [hcid, hdid]) (hfresh a0 ha0 c hc)
  · exact absurd hea (hfresh a ha c hc)

/-- The light `fading` of `fadingGraph` is within range of a camera at the
origin and is selected by `updateLighting`. -/
theorem fading_selected :
    Example.fading ∈ computeClosestLights Example.fadingGraph ⟨⟨0, 0, 0⟩⟩ 8 lightingPred := by
  have hp : lightingPred Example.fading (Example.fading.getSquareDistanceTo ⟨⟨0, 0, 0⟩⟩) =
      true := by
    norm_num [lightingPred, LightSceneNode.getSquareDistanceTo, Vec3.distance2, Vec3.dot,
      Vec3.sub, Example.fading, Example.lightA, kLightRadiusBias2, kLightRadiusBias]
  rw [computeClosestLights_eq]
  simp [Example.fadingGraph, Example.emptyGraph, List.filterMap_cons, hp]

/-- C29 fails as stated: the light `fading` is in the active list, inactive
with strength 1/2, and it is selected again; after `updateLighting` it is in
the active list and still inactive. -/
theorem updateLighting_keeps_fading_light_inactive :
    Example.fading ∈ computeClosestLights Example.fadingGraph ⟨⟨0, 0, 0⟩⟩ 8 lightingPred ∧
    Example.fading ∈ Example.fadingGraph._activeLights ∧
    Example.fading.active = false ∧ 0 < Example.fading.strength ∧
    Example.fading ∈ (updateLighting 8 Example.fadingGraph ⟨⟨0, 0, 0⟩⟩)._activeLights ∧
    ∀ e ∈ (updateLighting 8 Example.fadingGraph ⟨⟨0, 0, 0⟩⟩)._activeLights,
      e.id = Example.fading.id → e.active = false := by
  have hsel : Example.fading ∈
      computeClosestLights Example.fadingGraph ⟨⟨0, 0, 0⟩⟩ 8 lightingPred := by
    have hp : lightingPred Example.fading (Example.fading.getSquareDistanceTo ⟨⟨0, 0, 0⟩⟩) =
        true := by
      norm_num [lightingPred, LightSceneNode.getSquareDistanceTo, Vec3.distance2, Vec3.dot,
        Vec3.sub, Example.fading, Example.lightA, kLightRadiusBias2, kLightRadiusBias]
    rw [computeClosestLights_eq]
    simp [Example.fadingGraph, Example.emptyGraph, List.filterMap_cons, hp]
  have hact : Example.fading ∈ Example.fadingGraph._activeLights := by
    simp [Example.fadingGraph]
  have hflags := (updateLighting_flags 8 Example.fadingGraph ⟨⟨0, 0, 0⟩⟩
    (by simp [Example.fadingGraph])).1 Example.fading hact ⟨Example.fading, hsel, rfl⟩
  refine ⟨hsel, hact, rfl, by norm_num [Example.fading], hflags.1 ?_, ?_⟩
  · norm_num [Example.fading, Example.lightA]
  · intro e he hid
    rw [hflags.2 e he hid]
    rfl

/-- C29, amended: for an active list with distinct addresses, `updateLighting`
leaves an entry that is selected again exactly as it is, whatever its flag: a
light that is fading out (inactive, strength other than 0) and is selected
again stays inactive in that call, and it stays in the list when its model is
enabled. A selected entry that is inactive with strength 0, or whose model is
disabled, is removed from the list and not appended again in that call. The
entries with an address that was not in the list before the call are marked
active. -/
theorem updateLighting_reselected_unchanged (kMaxLights : Nat) (g : SceneGraph)
    (camera : CameraSceneNode) (hnd : (g._activeLights.map (fun l => l.id)).Nodup) :
    (∀ a ∈ g._activeLights,
      (∃ c ∈ computeClosestLights g camera kMaxLights lightingPred, c.id = a.id) →
      ((!((!a.active && decide (a.strength = 0)) || !a.modelEnabled)) = true →
        a ∈ (updateLighting kMaxLights g camera)._activeLights) ∧
      (∀ e ∈ (updateLighting kMaxLights g camera)._activeLights, e.id = a.id → e = a) ∧
      ((!((!a.active && decide (a.strength = 0)) || !a.modelEnabled)) = false →
        ∀ e ∈ (updateLighting kMaxLights g camera)._activeLights, e.id ≠ a.id)) ∧
    (∀ e ∈ (updateLighting kMaxLights g camera)._activeLights,
      (∀ a ∈ g._activeLights, a.id ≠ e.id) → e.active = true) :=
  ⟨fun a ha hin =>
    ⟨((updateLighting_flags kMaxLights g camera hnd).1 a ha hin).1,
      ((updateLighting_flags kMaxLights g camera hnd).1 a ha hin).2,
      updateLighting_reselected_removed kMaxLights g camera hnd a ha hin⟩,
    (updateLighting_flags kMaxLights g camera hnd).2⟩

/-- Witness for C29, amended: the light `fading` is in the active list of
`fadingGraph`, inactive with strength 1/2, and is selected again; after the
call it is in the list, unchanged. -/
theorem updateLighting_reselected_unchanged_witness :
    (Example.fadingGraph._activeLights.map (fun l => l.id)).Nodup ∧
      Example.fading ∈ Example.fadingGraph._activeLights ∧
      Example.fading.active = false ∧
      Example.fading ∈ (updateLighting 8 Example.fadingGraph ⟨⟨0, 0, 0⟩⟩)._activeLights ∧
      ∀ e ∈ (updateLighting 8 Example.fadingGraph ⟨⟨0, 0, 0⟩⟩)._activeLights,
        e.id = Example.fading.id → e = Example.fading :=
  have hact : Example.fading ∈ Example.fadingGraph._activeLights := by
    simp [Example.fadingGraph]
  have h := (updateLighting_reselected_unchanged 8 Example.fadingGraph ⟨⟨0, 0, 0⟩⟩
    (by simp [Example.fadingGraph])).1 Example.fading hact ⟨Example.fading, fading_selected, rfl⟩
  ⟨by simp [Example.fadingGraph], hact, rfl,
    h.1 (by norm_num [Example.fading, Example.lightA]), h.2.1⟩

end SceneGraph

/-! ## Theorems: refresh -/

namespace SceneGraph

/-- Visiting no node changes nothing. -/
theorem listed_nil (g : SceneGraph) : listed [] g = g := by
  simp [listed, opaqueAmong, transparentAmong, shadowAmong, lightsAmong, emittersAmong]

/-- Visiting two runs of nodes one after the other. -/
theorem listed_append (a b : List NodeData) (g : SceneGraph) :
    listed (a ++ b) g = listed b (listed a g) := by
  simp [listed, opaqueAmong, transparentAmong, shadowAmong, lightsAmong, emittersAmong,
    List.filterMap_append, List.append_assoc]

/-- Visiting a node and then a run of nodes. -/
theorem listed_cons (d : NodeData) (l : List NodeData) (g : SceneGraph) :
    listed (d :: l) g = listed l (listed [d] g) :=
  listed_append [d] l g

/-- A model node is in none of the lists. -/
theorem listed_model (culled : Bool) (g : SceneGraph) : listed [NodeData.model culled] g = g := by
  simp [listed, opaqueAmong, transparentAmong, shadowAmong, lightsAmong, emittersAmong]

/-- A node of another type is in none of the lists. -/
theorem listed_other (type : SceneNodeType) (g : SceneGraph) :
    listed [NodeData.other type] g = g := by
  simp [listed, opaqueAmong, transparentAmong, shadowAmong, lightsAmong, emittersAmong]

mutual

/-- The walk of `refreshFromNode` extends the lists by the nodes it reaches. -/
theorem refreshFromNode_eq : ∀ (node : SceneTree) (g : SceneGraph),
    refreshFromNode node g = listed (reached node) g
  | .mk data children, g => by
    rw [reached]
    unfold refreshFromNode
    cases data with
    | model culled =>
      cases culled
      · simp only [Bool.false_eq_true, if_false, if_true, NodeData.model.injEq]
        rw [refreshFromNodes_eq children g, listed_cons, listed_model]
      · simp only [if_true, Bool.false_eq_true, if_false, listed_model]
    | mesh modelNode =>
      simp only [if_true, reduceCtorEq, if_false]
      rw [refreshFromNodes_eq children, listed_cons]
      congr 1
      cases h1 : modelNode.shouldRender <;> cases h2 : modelNode.isTransparent <;>
        cases h3 : modelNode.shouldCastShadows <;>
        simp [listed, opaqueAmong, transparentAmong, shadowAmong, lightsAmong, emittersAmong,
          h1, h2, h3]
    | light light =>
      simp only [if_true, reduceCtorEq, if_false]
      rw [refreshFromNodes_eq children, listed_cons]
      congr 1
      simp [listed, opaqueAmong, transparentAmong, shadowAmong, lightsAmong, emittersAmong]
    | emitter emitter =>
      simp only [if_true, reduceCtorEq, if_false]
      rw [refreshFromNodes_eq children, listed_cons]
      congr 1
      simp [listed, opaqueAmong, transparentAmong, shadowAmong, lightsAmong, emittersAmong]
    | other type =>
      simp only [if_true, reduceCtorEq, if_false]
      rw [refreshFromNodes_eq children, listed_cons, listed_other]

/-- The walk over a list of nodes extends the lists by the nodes it reaches. -/
theorem refreshFromNodes_eq : ∀ (children : List SceneTree) (g : SceneGraph),
    refreshFromNodes children g = listed (reachedOfList children) g
  | [], g => by
    rw [refreshFromNodes, reachedOfList, listed_nil]
  | child :: rest, g => by
    rw [refreshFromNodes, reachedOfList, refreshFromNodes_eq rest, refreshFromNode_eq child,
      listed_append]

end

/-- The loop of `refresh` over the model roots extends the lists by the nodes
reached from the roots. -/
theorem foldl_refreshFromNode (roots : List ModelSceneNode) (g : SceneGraph) :
    roots.foldl (fun g root => refreshFromNode (rootTree root) g) g =
      listed (roots.flatMap (fun root => reached (rootTree root))) g := by
  induction roots generalizing g with
  | nil => simp [listed_nil]
  | cons root rest ih =>
    rw [List.foldl_cons, ih, refreshFromNode_eq, List.flatMap_cons, listed_append]

/-- The state after `refresh`: the five lists hold the nodes reached from the
model roots, the other members are as before. -/
theorem refresh_eq (g : SceneGraph) :
    refresh g =
      { g with
        _opaqueMeshes := opaqueAmong (g._modelRoots.flatMap (fun root => reached (rootTree root)))
        _transparentMeshes :=
          transparentAmong (g._modelRoots.flatMap (fun root => reached (rootTree root)))
        _shadowMeshes := shadowAmong (g._modelRoots.flatMap (fun root => reached (rootTree root)))
        _lights := lightsAmong (g._modelRoots.flatMap (fun root => reached (rootTree root)))
        _emitters :=
          emittersAmong (g._modelRoots.flatMap (fun root => reached (rootTree root))) } := by
  unfold refresh
  simp only
  rw [foldl_refreshFromNode]
  simp [listed]

/-- A light is listed as often as the walk reaches it. -/
theorem count_lightsAmong (nodes : List NodeData) (l : LightSceneNode) :
    (lightsAmong nodes).count l = nodes.count (NodeData.light l) := by
  induction nodes with
  | nil => rfl
  | cons d rest ih =>
    unfold lightsAmong at ih ⊢
    cases d with
    | light l' =>
      by_cases h : l' = l
      · subst h
        simp [List.filterMap_cons, ih]
      · have h' : ¬ NodeData.light l' = NodeData.light l := fun e => h (NodeData.light.inj e)
        simp only [List.filterMap_cons, List.count_cons, ih, beq_iff_eq, h, h', if_false]
    | model c => simpa [List.filterMap_cons, List.count_cons] using ih
    | mesh m => simpa [List.filterMap_cons, List.count_cons] using ih
    | emitter e => simpa [List.filterMap_cons, List.count_cons] using ih
    | other t => simpa [List.filterMap_cons, List.count_cons] using ih

/-- An emitter is listed as often as the walk reaches it. -/
theorem count_emittersAmong (nodes : List NodeData) (e : EmitterSceneNode) :
    (emittersAmong nodes).count e = nodes.count (NodeData.emitter e) := by
  induction nodes with
  | nil => rfl
  | cons d rest ih =>
    unfold emittersAmong at ih ⊢
    cases d with
    | emitter e' =>
      by_cases h : e' = e
      · subst h
        simp [List.filterMap_cons, ih]
      · have h' : ¬ NodeData.emitter e' = NodeData.emitter e :=
          fun eq => h (NodeData.emitter.inj eq)
        simp only [List.filterMap_cons, List.count_cons, ih, beq_iff_eq, h, h', if_false]
    | model c => simpa [List.filterMap_cons, List.count_cons] using ih
    | mesh m => simpa [List.filterMap_cons, List.count_cons] using ih
    | light l => simpa [List.filterMap_cons, List.count_cons] using ih
    | other t => simpa [List.filterMap_cons, List.count_cons] using ih

/-- The meshes of the three mesh lists among visited nodes. -/
theorem mem_meshesAmong (nodes : List NodeData) (m : MeshSceneNode) :
    (m ∈ opaqueAmong nodes ↔
      NodeData.mesh m ∈ nodes ∧ m.shouldRender = true ∧ m.isTransparent = false) ∧
    (m ∈ transparentAmong nodes ↔
      NodeData.mesh m ∈ nodes ∧ m.shouldRender = true ∧ m.isTransparent = true) ∧
    (m ∈ shadowAmong nodes ↔ NodeData.mesh m ∈ nodes ∧ m.shouldCastShadows = true) := by
  refine ⟨?_, ?_, ?_⟩
  · unfold opaqueAmong
    rw [List.mem_filterMap]
    constructor
    · rintro ⟨d, hd, hsome⟩
      cases d with
      | mesh node =>
        by_cases hc : (node.shouldRender && !node.isTransparent) = true
        · simp only [hc, if_true, Option.some.injEq] at hsome
          subst hsome
          simp only [Bool.and_eq_true, Bool.not_eq_true'] at hc
          exact ⟨hd, hc.1, hc.2⟩
        · simp [hc] at hsome
      | model c => simp at hsome
      | light l => simp at hsome
      | emitter e => simp at hsome
      | other t => simp at hsome
    · rintro ⟨hd, h1, h2⟩
      exact ⟨NodeData.mesh m, hd, by simp [h1, h2]⟩
  · unfold transparentAmong
    rw [List.mem_filterMap]
    constructor
    · rintro ⟨d, hd, hsome⟩
      cases d with
      | mesh node =>
        by_cases hc : (node.shouldRender && node.isTransparent) = true
        · simp only [hc, if_true, Option.some.injEq] at hsome
          subst hsome
          simp only [Bool.and_eq_true] at hc
          exact ⟨hd, hc.1, hc.2⟩
        · simp [hc] at hsome
      | model c => simp at hsome
      | light l => simp at hsome
      | emitter e => simp at hsome
      | other t => simp at hsome
    · rintro ⟨hd, h1, h2⟩
      exact ⟨NodeData.mesh m, hd, by simp [h1, h2]⟩
  · unfold shadowAmong
    rw [List.mem_filterMap]
    constructor
    · rintro ⟨d, hd, hsome⟩
      cases d with
      | mesh node =>
        by_cases hc : node.shouldCastShadows = true
        · simp only [hc, if_true, Option.some.injEq] at hsome
          subst hsome
          exact ⟨hd, hc⟩
        · simp [hc] at hsome
      | model c => simp at hsome
      | light l => simp at hsome
      | emitter e => simp at hsome
      | other t => simp at hsome
    · rintro ⟨hd, h1⟩
      exact ⟨NodeData.mesh m, hd, by simp [h1]⟩

/-- C23: after `refresh` the opaque, transparent and shadow mesh lists and the
light and emitter lists hold, in the order of the walk, exactly the nodes that a
depth-first walk from the model roots reaches when it does not descend below a
culled model node: a mesh is in the opaque list iff it is reached, should be
rendered and is not transparent, in the transparent list iff it is reached,
should be rendered and is transparent, and in the shadow list iff it is reached
and should cast shadows; a light or an emitter is listed as often as it is
reached; a culled model node adds nothing to any list whatever is below it; and
the lists before the call have no influence on the lists after it. -/
theorem refresh_lists (g : SceneGraph) :
    ((refresh g)._opaqueMeshes =
        opaqueAmong (g._modelRoots.flatMap (fun root => reached (rootTree root))) ∧
      (refresh g)._transparentMeshes =
        transparentAmong (g._modelRoots.flatMap (fun root => reached (rootTree root))) ∧
      (refresh g)._shadowMeshes =
        shadowAmong (g._modelRoots.flatMap (fun root => reached (rootTree root))) ∧
      (refresh g)._lights =
        lightsAmong (g._modelRoots.flatMap (fun root => reached (rootTree root))) ∧
      (refresh g)._emitters =
        emittersAmong (g._modelRoots.flatMap (fun root => reached (rootTree root)))) ∧
    (∀ m : MeshSceneNode,
      (m ∈ (refresh g)._opaqueMeshes ↔
        NodeData.mesh m ∈ g._modelRoots.flatMap (fun root => reached (rootTree root)) ∧
          m.shouldRender = true ∧ m.isTransparent = false) ∧
      (m ∈ (refresh g)._transparentMeshes ↔
        NodeData.mesh m ∈ g._modelRoots.flatMap (fun root => reached (rootTree root)) ∧
          m.shouldRender = true ∧ m.isTransparent = true) ∧
      (m ∈ (refresh g)._shadowMeshes ↔
        NodeData.mesh m ∈ g._modelRoots.flatMap (fun root => reached (rootTree root)) ∧
          m.shouldCastShadows = true)) ∧
    (∀ l : LightSceneNode,
      (refresh g)._lights.count l =
        (g._modelRoots.flatMap (fun root => reached (rootTree root))).count (NodeData.light l)) ∧
    (∀ e : EmitterSceneNode,
      (refresh g)._emitters.count e =
        (g._modelRoots.flatMap (fun root => reached (rootTree root))).count
          (NodeData.emitter e)) ∧
    (∀ (children : List SceneTree) (g0 : SceneGraph),
      refreshFromNode (.mk (.model true) children) g0 = g0) ∧
    (∀ (om tm sm : List MeshSceneNode) (ls : List LightSceneNode) (es : List EmitterSceneNode),
      refresh { g with _opaqueMeshes := om, _transparentMeshes := tm, _shadowMeshes := sm,
                       _lights := ls, _emitters := es } = refresh g) := by
  rw [refresh_eq]
  refine ⟨⟨rfl, rfl, rfl, rfl, rfl⟩, ?_, ?_, ?_, ?_, ?_⟩
  · intro m
    exact mem_meshesAmong _ m
  · intro l
    exact count_lightsAmong _ l
  · intro e
    exact count_emittersAmong _ e
  · intro children g0
    rw [refreshFromNode_eq, reached]
    simp [listed_model]
  · intro om tm sm ls es
    rw [refresh_eq]

end SceneGraph

/-! ## Theorems: the frame update -/

namespace SceneGraph

/-- Without an active camera `update` runs the root updates, if they are
switched on, and nothing else. -/
theorem update_no_camera (X : Externals) (g : SceneGraph) (dt : ℚ)
    (hcam : g._activeCamera = none) :
    update X g dt = if g._updateRoots then updateRoots X g dt else g := by
  unfold update
  cases hu : g._updateRoots
  · simp [hcam]
  · have : (updateRoots X g dt)._activeCamera = none := hcam
    simp [this]

/-- With an active camera `update` runs the root updates, if they are switched
on, and then the stages of the pipeline in their order. -/
theorem update_with_camera (X : Externals) (g : SceneGraph) (dt : ℚ) (camera : CameraSceneNode)
    (hcam : g._activeCamera = some camera) :
    update X g dt =
      prepareTransparentLeafs X.kMaxParticles X.kMaxGrassClusters
        (prepareOpaqueLeafs X.kMaxGrassClusters
          (updateSounds
            (updateFlareLights
              (updateShadowLight
                (updateLighting X.kMaxLights
                  (refresh
                    (cullRoots (if g._updateRoots then updateRoots X g dt else g) camera
                      (X.isInFrustumModel camera)))
                  camera)
                camera dt)
              camera)
            (X.cameraPos camera))
          (X.isInFrustumPoint camera))
        (X.isInFrustumPoint camera) X.typeOf := by
  unfold update
  cases hu : g._updateRoots
  · simp [hcam]
  · have : (updateRoots X g dt)._activeCamera = some camera := hcam
    simp [this]

/-- The root updates do not read the lists that `update` recomputes. -/
theorem updateRoots_forgetDerived (X : Externals) (g : SceneGraph) (dt : ℚ) :
    (if (forgetDerived g)._updateRoots then updateRoots X (forgetDerived g) dt
      else forgetDerived g) =
      forgetDerived (if g._updateRoots then updateRoots X g dt else g) := by
  show (if g._updateRoots then updateRoots X (forgetDerived g) dt else forgetDerived g) = _
  cases g._updateRoots
  · rfl
  · rfl

/-- The culling of the roots does not read the lists that `update` recomputes. -/
theorem cullRoots_forgetDerived (g : SceneGraph) (camera : CameraSceneNode)
    (isInFrustum : ModelSceneNode → Bool) :
    cullRoots (forgetDerived g) camera isInFrustum =
      forgetDerived (cullRoots g camera isInFrustum) := rfl

/-- After `refresh` only the flare lights and the leaf buckets can still show
what the lists held before. -/
theorem refresh_forgetDerived (g : SceneGraph) :
    refresh (forgetDerived g) = forgetFlaresAndLeafs (refresh g) := by
  rw [refresh_eq, refresh_eq]
  rfl

/-- The de-activation loop does not read the flare lights or the leaf buckets. -/
theorem deactivateLoop_forget (todo : List LightSceneNode) :
    ∀ (g : SceneGraph) (lookup : List LightSceneNode),
      deactivateLoop todo (forgetFlaresAndLeafs g, lookup) =
        (forgetFlaresAndLeafs (deactivateLoop todo (g, lookup)).1,
          (deactivateLoop todo (g, lookup)).2) := by
  induction todo with
  | nil =>
    intro g lookup
    rfl
  | cons light rest ih =>
    intro g lookup
    unfold deactivateLoop
    split
    · exact ih (setLightActive g light.id false) lookup
    · exact ih g _

/-- The activation loop does not read the flare lights or the leaf buckets. -/
theorem activateLoop_forget (kMaxLights : Nat) (lookup : List LightSceneNode) :
    ∀ (g : SceneGraph),
      activateLoop kMaxLights lookup (forgetFlaresAndLeafs g) =
        forgetFlaresAndLeafs (activateLoop kMaxLights lookup g) := by
  induction lookup with
  | nil =>
    intro g
    rfl
  | cons light rest ih =>
    intro g
    unfold activateLoop
    show (if g._activeLights.length ≥ kMaxLights then forgetFlaresAndLeafs g else _) = _
    split
    · rfl
    · exact ih
        { setLightActive g light.id true with
          _activeLights := (setLightActive g light.id true)._activeLights ++
            [light.setActive true] }

/-- The stage `updateLighting` does not read the flare lights or the leaf
buckets. -/
theorem updateLighting_forget (kMaxLights : Nat) (g : SceneGraph) (camera : CameraSceneNode) :
    updateLighting kMaxLights (forgetFlaresAndLeafs g) camera =
      forgetFlaresAndLeafs (updateLighting kMaxLights g camera) := by
  rw [updateLighting_eq, updateLighting_eq]
  have hsel : computeClosestLights (forgetFlaresAndLeafs g) camera kMaxLights lightingPred =
      computeClosestLights g camera kMaxLights lightingPred := rfl
  have hact : (forgetFlaresAndLeafs g)._activeLights = g._activeLights := rfl
  rw [hsel, hact, deactivateLoop_forget]
  simp only
  rw [← activateLoop_forget]
  rfl

/-- The stage `updateShadowLight` does not read the flare lights or the leaf
buckets. -/
theorem updateShadowLight_forget (g : SceneGraph) (camera : CameraSceneNode) (dt : ℚ) :
    updateShadowLight (forgetFlaresAndLeafs g) camera dt =
      forgetFlaresAndLeafs (updateShadowLight g camera dt) := by
  have hsel : computeClosestLights (forgetFlaresAndLeafs g) camera 1 shadowPred =
      computeClosestLights g camera 1 shadowPred := rfl
  unfold updateShadowLight
  rw [hsel]
  generalize computeClosestLights g camera 1 shadowPred = closestLights
  have hfa : ∀ x : SceneGraph, (forgetFlaresAndLeafs x)._shadowActive = x._shadowActive :=
    fun _ => rfl
  have hfl : ∀ x : SceneGraph, (forgetFlaresAndLeafs x)._shadowLight = x._shadowLight :=
    fun _ => rfl
  have hfs : ∀ x : SceneGraph, (forgetFlaresAndLeafs x)._shadowStrength = x._shadowStrength :=
    fun _ => rfl
  cases hs : g._shadowLight with
  | none =>
    simp only [hfl, hs]
    cases closestLights.head? <;> rfl
  | some L =>
    simp only [hfl, hs]
    by_cases c1 : (closestLights.isEmpty ||
        some L != closestLights.head?.map (fun (l : LightSceneNode) => l.id)) = true
    · simp only [c1, if_true, Bool.false_eq_true, if_false]
      by_cases c3 : max 0 (g._shadowStrength - kShadowFadeSpeed * dt) = 0
      · simp only [hfs, c3, if_true]
        cases closestLights.head? <;> rfl
      · simp only [hfs, c3, if_false, hs, hfl]
        rfl
    · simp only [c1, Bool.false_eq_true, if_false, hfa]
      by_cases c2 : g._shadowActive = true
      · simp only [c2, if_true, hs, hfl]
        rfl
      · simp only [c2, Bool.false_eq_true, if_false]
        by_cases c3 : max 0 (g._shadowStrength - kShadowFadeSpeed * dt) = 0
        · simp only [hfs, c3, if_true]
          cases closestLights.head? <;> rfl
        · simp only [hfs, c3, if_false, hs, hfl]
          rfl

/-- The stage `updateFlareLights` writes the flare lights without reading them. -/
theorem updateFlareLights_forget (g : SceneGraph) (camera : CameraSceneNode) :
    updateFlareLights (forgetFlaresAndLeafs g) camera =
      forgetLeafs (updateFlareLights g camera) := rfl

/-- The stage `updateSounds` does not read the leaf buckets. -/
theorem updateSounds_forget (g : SceneGraph) (cameraPos : Vec3) :
    updateSounds (forgetLeafs g) cameraPos = forgetLeafs (updateSounds g cameraPos) := rfl

/-- The two last stages write the leaf buckets without reading them. -/
theorem prepareLeafs_forget (kMaxParticles kMaxGrassClusters : Nat) (g : SceneGraph)
    (isInFrustum : Vec3 → Bool) (typeOf : Nat → SceneNodeType) :
    prepareTransparentLeafs kMaxParticles kMaxGrassClusters
        (prepareOpaqueLeafs kMaxGrassClusters (forgetLeafs g) isInFrustum) isInFrustum typeOf =
      prepareTransparentLeafs kMaxParticles kMaxGrassClusters
        (prepareOpaqueLeafs kMaxGrassClusters g isInFrustum) isInFrustum typeOf := by
  unfold prepareTransparentLeafs
  have hl : transparentLeafList (prepareOpaqueLeafs kMaxGrassClusters (forgetLeafs g) isInFrustum)
      isInFrustum =
      transparentLeafList (prepareOpaqueLeafs kMaxGrassClusters g isInFrustum) isInFrustum := rfl
  simp only [hl]
  split <;> rfl

/-- With an active camera `update` does not read the lists that it recomputes. -/
theorem update_forgetDerived (X : Externals) (g : SceneGraph) (dt : ℚ) (camera : CameraSceneNode)
    (hcam : g._activeCamera = some camera) :
    update X (forgetDerived g) dt = update X g dt := by
  rw [update_with_camera X g dt camera hcam,
    update_with_camera X (forgetDerived g) dt camera hcam, updateRoots_forgetDerived,
    cullRoots_forgetDerived, refresh_forgetDerived, updateLighting_forget,
    updateShadowLight_forget, updateFlareLights_forget, updateSounds_forget, prepareLeafs_forget]

/-- The stage `updateShadowLight` leaves the active lights alone. -/
theorem updateShadowLight_activeLights (g : SceneGraph) (camera : CameraSceneNode) (dt : ℚ) :
    (updateShadowLight g camera dt)._activeLights = g._activeLights := by
  unfold updateShadowLight
  generalize computeClosestLights g camera 1 shadowPred = closestLights
  cases hs : g._shadowLight with
  | none =>
    simp only [hs]
    cases closestLights.head? <;> rfl
  | some L =>
    simp only [hs]
    by_cases c1 : (closestLights.isEmpty ||
        some L != closestLights.head?.map (fun (l : LightSceneNode) => l.id)) = true
    · simp only [c1, if_true, Bool.false_eq_true, if_false]
      by_cases c3 : max 0 (g._shadowStrength - kShadowFadeSpeed * dt) = 0
      · simp only [c3, if_true]
        cases closestLights.head? <;> rfl
      · simp only [c3, if_false, hs]
    · simp only [c1, Bool.false_eq_true, if_false]
      by_cases c2 : g._shadowActive = true
      · simp only [c2, if_true, hs]
      · simp only [c2, Bool.false_eq_true, if_false]
        by_cases c3 : max 0 (g._shadowStrength - kShadowFadeSpeed * dt) = 0
        · simp only [c3, if_true]
          cases closestLights.head? <;> rfl
        · simp only [c3, if_false, hs]

/-- The active lights after `update` are the ones left by `updateLighting`. -/
theorem update_activeLights (X : Externals) (g : SceneGraph) (dt : ℚ) (camera : CameraSceneNode)
    (hcam : g._activeCamera = some camera) :
    (update X g dt)._activeLights =
      (updateLighting X.kMaxLights
        (refresh
          (cullRoots (if g._updateRoots then updateRoots X g dt else g) camera
            (X.isInFrustumModel camera)))
        camera)._activeLights := by
  rw [update_with_camera X g dt camera hcam]
  have h1 : ∀ (kP kG : Nat) (x : SceneGraph) (fr : Vec3 → Bool) (ty : Nat → SceneNodeType),
      (prepareTransparentLeafs kP kG x fr ty)._activeLights = x._activeLights := by
    intro kP kG x fr ty
    unfold prepareTransparentLeafs
    simp only
    split <;> rfl
  have h2 : ∀ (kG : Nat) (x : SceneGraph) (fr : Vec3 → Bool),
      (prepareOpaqueLeafs kG x fr)._activeLights = x._activeLights := fun _ _ _ => rfl
  have h3 : ∀ (x : SceneGraph) (p : Vec3), (updateSounds x p)._activeLights = x._activeLights :=
    fun _ _ => rfl
  have h4 : ∀ (x : SceneGraph) (c : CameraSceneNode),
      (updateFlareLights x c)._activeLights = x._activeLights := fun _ _ => rfl
  rw [h1, h2, h3, h4, updateShadowLight_activeLights]

/-- When no light is selected, `updateLighting` de-activates every light of the
active list and removes the ones that have faded out or whose model is
disabled. -/
theorem updateLighting_no_selection (kMaxLights : Nat) (g : SceneGraph)
    (camera : CameraSceneNode)
    (hsel : computeClosestLights g camera kMaxLights lightingPred = []) :
    (updateLighting kMaxLights g camera)._activeLights =
      (g._activeLights.map (fun light => light.setActive false)).filter (fun light =>
        !((!light.active && decide (light.strength = 0)) || !light.modelEnabled)) := by
  rw [updateLighting_eq, hsel]
  simp only [List.foldl_nil]
  have hlk : (deactivateLoop g._activeLights (g, [])).2 = [] :=
    List.eq_nil_iff_forall_not_mem.mpr (fun c hc =>
      List.not_mem_nil c (deactivateLoop_lookup g._activeLights g [] c hc))
  rw [hlk, deactivateLoop_activeLights]
  unfold activateLoop
  simp only
  congr 1
  apply List.map_congr_left
  intro a ha
  have hD := deactivatedIds_of_not_lookup g._activeLights [] a ha
    (fun c hc => absurd hc (List.not_mem_nil c))
  simp [deactivated, hD]

/-- C21: without an active camera `update(dt)` returns after the root updates
and raises no error. The mesh and emitter lists, the shadow light with its
strength and flag and the leaf buckets are exactly as before; the light list,
the active lights and the flare lights hold the same nodes in the same order,
each as its own update left it, and are exactly as before when the root updates
are switched off; a sound is audible after the call iff it was before, given
that the update of a sound node leaves that flag alone. -/
theorem update_without_camera (X : Externals) (g : SceneGraph) (dt : ℚ)
    (hcam : g._activeCamera = none)
    (hid : ∀ light, (X.updateLight dt light).id = light.id)
    (haudible : ∀ root, (X.updateSound dt root).audible = root.audible) :
    (update X g dt)._opaqueMeshes = g._opaqueMeshes ∧
    (update X g dt)._transparentMeshes = g._transparentMeshes ∧
    (update X g dt)._shadowMeshes = g._shadowMeshes ∧
    (update X g dt)._emitters = g._emitters ∧
    (update X g dt)._shadowLight = g._shadowLight ∧
    (update X g dt)._shadowStrength = g._shadowStrength ∧
    (update X g dt)._shadowActive = g._shadowActive ∧
    (update X g dt)._opaqueLeafs = g._opaqueLeafs ∧
    (update X g dt)._transparentLeafs = g._transparentLeafs ∧
    (update X g dt)._lights.map (fun light => light.id) =
      g._lights.map (fun light => light.id) ∧
    (update X g dt)._activeLights.map (fun light => light.id) =
      g._activeLights.map (fun light => light.id) ∧
    (update X g dt)._flareLights.map (fun light => light.id) =
      g._flareLights.map (fun light => light.id) ∧
    (update X g dt)._soundRoots.map (fun root => root.audible) =
      g._soundRoots.map (fun root => root.audible) ∧
    (update X g dt)._activeCamera = none ∧
    (g._updateRoots = false → update X g dt = g) := by
  rw [update_no_camera X g dt hcam]
  have hmap : ∀ lights : List LightSceneNode,
      (lights.map (X.updateLight dt)).map (fun light => light.id) =
        lights.map (fun light => light.id) := by
    intro lights
    rw [List.map_map]
    apply List.map_congr_left
    intro light _
    exact hid light
  have hsound : (g._soundRoots.map (X.updateSound dt)).map (fun root => root.audible) =
      g._soundRoots.map (fun root => root.audible) := by
    rw [List.map_map]
    apply List.map_congr_left
    intro root _
    exact haudible root
  by_cases hu : g._updateRoots = true
  · rw [if_pos hu]
    exact ⟨rfl, rfl, rfl, rfl, rfl, rfl, rfl, rfl, rfl, hmap _, hmap _, hmap _, hsound, hcam,
      fun h => by rw [h] at hu; cases hu⟩
  · rw [if_neg hu]
    exact ⟨rfl, rfl, rfl, rfl, rfl, rfl, rfl, rfl, rfl, rfl, rfl, rfl, rfl, hcam, fun _ => rfl⟩

/-- Witness for C21: the scene `twoLights` has no active camera. -/
theorem update_without_camera_witness :
    Example.twoLights._activeCamera = none ∧
      (update Example.externals Example.twoLights (1 / 60))._activeLights.map
          (fun light => light.id) =
        Example.twoLights._activeLights.map (fun light => light.id) :=
  ⟨rfl, (update_without_camera Example.externals Example.twoLights (1 / 60) rfl
    (fun _ => rfl) (fun _ => rfl)).2.2.2.2.2.2.2.2.2.2.1⟩

/-- C22 fails as stated: the scenes `yard` and `yardFading` have the same roots,
node states and camera and differ only in the active-light list they hold; after
`update` with the same `dt` the active-light list of the first is empty, the
one of the second holds the fading light. -/
theorem update_keeps_fading_active_light :
    Example.yardFading = { Example.yard with _activeLights := [Example.farLight] } ∧
    Example.yard._activeCamera = some ⟨⟨0, 0, 0⟩⟩ ∧
    (update Example.externals Example.yard (1 / 60))._activeLights = [] ∧
    (update Example.externals Example.yardFading (1 / 60))._activeLights =
      [Example.farLight] := by
  have hp : lightingPred Example.farLight
      (Example.farLight.getSquareDistanceTo ⟨⟨0, 0, 0⟩⟩) = false := by
    norm_num [lightingPred, LightSceneNode.getSquareDistanceTo, Vec3.distance2, Vec3.dot,
      Vec3.sub, Example.farLight, kLightRadiusBias2, kLightRadiusBias]
  have hroots : ∀ g : SceneGraph, g._modelRoots = [Example.lampPost] → g._updateRoots = true →
      (refresh (cullRoots (if g._updateRoots then updateRoots Example.externals g (1 / 60) else g)
        ⟨⟨0, 0, 0⟩⟩ (Example.externals.isInFrustumModel ⟨⟨0, 0, 0⟩⟩)))._lights =
        [Example.farLight] ∧
      (refresh (cullRoots (if g._updateRoots then updateRoots Example.externals g (1 / 60) else g)
        ⟨⟨0, 0, 0⟩⟩ (Example.externals.isInFrustumModel ⟨⟨0, 0, 0⟩⟩)))._activeLights =
        g._activeLights := by
    intro g hr hu
    rw [refresh_eq, if_pos hu]
    constructor
    · have hm : (cullRoots (updateRoots Example.externals g (1 / 60)) ⟨⟨0, 0, 0⟩⟩
          (Example.externals.isInFrustumModel ⟨⟨0, 0, 0⟩⟩))._modelRoots =
          [{ Example.lampPost with culled := false }] := by
        simp only [cullRoots, updateRoots, hr, List.map_cons, List.map_nil]
        norm_num [Example.externals, Example.lampPost, Example.model,
          ModelSceneNode.getSquareDistanceTo, Vec3.distance2, Vec3.dot, Vec3.sub]
      simp only [hm]
      simp [Example.lampPost, rootTree, reached, reachedOfList, lightsAmong]
    · show g._activeLights.map (Example.externals.updateLight (1 / 60)) = _
      simp [Example.externals]
  have hnone : ∀ G : SceneGraph, G._lights = [Example.farLight] →
      computeClosestLights G ⟨⟨0, 0, 0⟩⟩ Example.externals.kMaxLights lightingPred = [] := by
    intro G hG
    rw [computeClosestLights_eq, hG]
    simp [List.filterMap_cons, hp]
  refine ⟨rfl, rfl, ?_, ?_⟩
  · obtain ⟨h1, h2⟩ := hroots Example.yard rfl rfl
    rw [update_activeLights _ _ _ ⟨⟨0, 0, 0⟩⟩ rfl,
      updateLighting_no_selection _ _ _ (hnone _ h1), h2]
    rfl
  · obtain ⟨h1, h2⟩ := hroots Example.yardFading rfl rfl
    rw [update_activeLights _ _ _ ⟨⟨0, 0, 0⟩⟩ rfl,
      updateLighting_no_selection _ _ _ (hnone _ h1), h2]
    have ha : Example.yardFading._activeLights = [Example.farLight] := rfl
    rw [ha]
    norm_num [Example.farLight, LightSceneNode.setActive]

/-- C22, amended: with an active camera, `update(dt)` recomputes the opaque,
transparent and shadow mesh lists, the light and emitter lists, the flare
lights and the leaf buckets without reading them: two states that agree on
everything else, the active-light list included, are taken to the same state.
The active-light list is not among these lists: it is carried from frame to
frame. -/
theorem update_recomputes_derived_lists (X : Externals) (g1 g2 : SceneGraph) (dt : ℚ)
    (camera : CameraSceneNode) (hcam : g1._activeCamera = some camera)
    (hsame : forgetDerived g1 = forgetDerived g2) :
    update X g1 dt = update X g2 dt := by
  have hcam2 : g2._activeCamera = some camera := by
    have : (forgetDerived g1)._activeCamera = (forgetDerived g2)._activeCamera := by rw [hsame]
    rw [← hcam]
    exact this.symm
  rw [← update_forgetDerived X g1 dt camera hcam, ← update_forgetDerived X g2 dt camera hcam2,
    hsame]

/-- Witness for C22, amended: `yard` and `yardStale` differ in the flare lights
and the opaque leaf buckets only. -/
theorem update_recomputes_derived_lists_witness :
    Example.yard._activeCamera = some ⟨⟨0, 0, 0⟩⟩ ∧
      forgetDerived Example.yard = forgetDerived Example.yardStale ∧
      update Example.externals Example.yard (1 / 60) =
        update Example.externals Example.yardStale (1 / 60) :=
  ⟨rfl, rfl,
    update_recomputes_derived_lists Example.externals Example.yard Example.yardStale (1 / 60)
      ⟨⟨0, 0, 0⟩⟩ rfl rfl⟩

end SceneGraph

/-! ## Theorems: the shadow light while it is kept and while it fades -/

namespace SceneGraph

/-- A frame in which the shadow light is inactive, or is not the first
candidate, and that does not use up the shadow strength: the light stays the
shadow light, inactive, and the strength drops by `kShadowFadeSpeed * dt`. -/
theorem shadowFrame_fade (s : SceneGraph) (frame : List LightSceneNode × CameraSceneNode × ℚ)
    (L : Nat) (hL : s._shadowLight = some L)
    (hbreak : ¬ (s._shadowActive = true ∧
      (computeClosestLights { s with _lights := frame.1, _activeCamera := some frame.2.1 }
        frame.2.1 1 shadowPred).head?.map (fun l => l.id) = some L))
    (hlt : kShadowFadeSpeed * frame.2.2 < s._shadowStrength) :
    (shadowFrame s frame)._shadowLight = some L ∧ (shadowFrame s frame)._shadowActive = false ∧
      (shadowFrame s frame)._shadowStrength = s._shadowStrength - kShadowFadeSpeed * frame.2.2 := by
  have h := (updateShadowLight_fields
    { s with _lights := frame.1, _activeCamera := some frame.2.1 } frame.2.1 frame.2.2 L hL).2
    hbreak
  have hnot : ¬ s._shadowStrength ≤ kShadowFadeSpeed * frame.2.2 := not_le.mpr hlt
  refine ⟨(h.2.1 hnot).1, (h.2.1 hnot).2, ?_⟩
  show (updateShadowLight _ _ _)._shadowStrength = _
  rw [h.1]
  show max 0 (s._shadowStrength - kShadowFadeSpeed * frame.2.2) = _
  exact max_eq_right (by linarith)

/-- Frames on a fading shadow light that together do not use up the shadow
strength: the light stays the shadow light, inactive, whatever the candidates
of these frames are. -/
theorem shadowFrames_fading (L : Nat)
    (more : List (List LightSceneNode × CameraSceneNode × ℚ)) :
    ∀ s : SceneGraph, s._shadowLight = some L → s._shadowActive = false →
      (∀ f ∈ more, 0 ≤ f.2.2) →
      kShadowFadeSpeed * (more.map (fun f => f.2.2)).sum < s._shadowStrength →
      (shadowFrames s more)._shadowLight = some L ∧
        (shadowFrames s more)._shadowActive = false ∧
        (shadowFrames s more)._shadowStrength =
          s._shadowStrength - kShadowFadeSpeed * (more.map (fun f => f.2.2)).sum := by
  induction more with
  | nil =>
    intro s hL hact _ _
    simp [shadowFrames, hL, hact]
  | cons f rest ih =>
    intro s hL hact hnn hlt
    have hk : (0 : ℚ) ≤ kShadowFadeSpeed := by norm_num [kShadowFadeSpeed]
    have hrest : 0 ≤ (rest.map (fun f => f.2.2)).sum :=
      List.sum_nonneg (by
        intro x hx
        obtain ⟨f', hf', rfl⟩ := List.mem_map.mp hx
        exact hnn f' (List.mem_cons_of_mem _ hf'))
    have hf0 : 0 ≤ f.2.2 := hnn f (List.mem_cons_self _ _)
    simp only [List.map_cons, List.sum_cons, mul_add] at hlt ⊢
    have h1 := shadowFrame_fade s f L hL (by simp [hact])
      (by have := mul_nonneg hk hrest; linarith)
    have h2 := ih (shadowFrame s f) h1.1 h1.2.1 (fun f' hf' => hnn f' (List.mem_cons_of_mem _ hf'))
      (by rw [h1.2.2]; linarith)
    show (shadowFrames (shadowFrame s f) rest)._shadowLight = some L ∧ _
    refine ⟨h2.1, h2.2.1, ?_⟩
    show (shadowFrames (shadowFrame s f) rest)._shadowStrength = _
    rw [h2.2.2, h1.2.2]
    ring

/-- Frames run one after the other. -/
theorem shadowFrames_append (g : SceneGraph)
    (xs ys : List (List LightSceneNode × CameraSceneNode × ℚ)) :
    shadowFrames g (xs ++ ys) = shadowFrames (shadowFrames g xs) ys := by
  simp [shadowFrames, List.foldl_append]

/-- At `(6, 0, 0)` both lights are shadow candidates and `lightA` is the closer one. -/
theorem Example.front_at_six (g : SceneGraph) (h : g._lights = [Example.lightA, Example.lightB]) :
    (computeClosestLights g ⟨⟨6, 0, 0⟩⟩ 1 shadowPred).head? = some Example.lightA := by
  apply computeClosestLights_front
  · rw [h]; exact List.mem_cons_self _ _
  · norm_num [Example.lightA, shadowPred, LightSceneNode.getSquareDistanceTo, Vec3.distance2,
      Vec3.dot, Vec3.sub]
  · intro other hother hne _
    rw [h] at hother
    simp only [List.mem_cons, List.mem_singleton, List.not_mem_nil, or_false] at hother
    rcases hother with h' | h'
    · exact absurd h' hne
    · subst h'
      norm_num [Example.lightA, Example.lightB, lightLess, LightSceneNode.getSquareDistanceTo,
        Vec3.distance2, Vec3.dot, Vec3.sub]

/-- The shadow strength of `litGraph` after one more frame of 1/4 s with the
camera at `(6, 0, 0)` is 1. -/
theorem Example.litGraph_strength_at_six :
    (shadowFrames Example.litGraph
      [([Example.lightA, Example.lightB], ⟨⟨6, 0, 0⟩⟩, 1 / 4)])._shadowStrength = 1 := by
  obtain ⟨h1, h2, h3⟩ := Example.litGraph_shadow
  show (updateShadowLight _ _ _)._shadowStrength = 1
  rw [updateShadowLight_keep_strength
    { Example.litGraph with
      _lights := [Example.lightA, Example.lightB], _activeCamera := some ⟨⟨6, 0, 0⟩⟩ }
    ⟨⟨6, 0, 0⟩⟩ (1 / 4) Example.lightA h1 h2 (Example.front_at_six _ rfl)]
  show min 1 (Example.litGraph._shadowStrength + _) = 1
  rw [h3]
  norm_num [kShadowFadeSpeed]

/-- C7, amended: once a light is the active shadow light, it remains the shadow
light, still active, through a run of frames in each of which it satisfies the
selection predicate and ranks strictly before every other light that satisfies
it, in the order of `computeClosestLights` (directional lights first, then
smaller squared camera distance). A frame after the run in which the light is
not the first candidate makes it fade: through that frame and all frames after
it whose fading together stays below the shadow strength, the light is still
the shadow light but inactive, and the strength has dropped by
`kShadowFadeSpeed` times the time of these frames, whatever the candidates of
the later frames are, the light itself included. -/
theorem shadow_light_kept_while_first (g : SceneGraph) (L : Nat)
    (frames : List (List LightSceneNode × CameraSceneNode × ℚ))
    (hL : g._shadowLight = some L) (hact : g._shadowActive = true)
    (hframes : ∀ frame ∈ frames, ∃ light ∈ frame.1, light.id = L ∧
      shadowPred light (light.getSquareDistanceTo frame.2.1) = true ∧
      ∀ other ∈ frame.1, other ≠ light →
        shadowPred other (other.getSquareDistanceTo frame.2.1) = true →
        lightLess (light, light.getSquareDistanceTo frame.2.1)
          (other, other.getSquareDistanceTo frame.2.1) = true) :
    ((shadowFrames g frames)._shadowLight = some L ∧
      (shadowFrames g frames)._shadowActive = true) ∧
    ∀ (b : List LightSceneNode × CameraSceneNode × ℚ)
      (more : List (List LightSceneNode × CameraSceneNode × ℚ)),
      (computeClosestLights
        { shadowFrames g frames with _lights := b.1, _activeCamera := some b.2.1 }
        b.2.1 1 shadowPred).head?.map (fun l => l.id) ≠ some L →
      (∀ f ∈ b :: more, 0 ≤ f.2.2) →
      kShadowFadeSpeed * ((b :: more).map (fun f => f.2.2)).sum <
        (shadowFrames g frames)._shadowStrength →
      (shadowFrames g (frames ++ b :: more))._shadowLight = some L ∧
        (shadowFrames g (frames ++ b :: more))._shadowActive = false ∧
        (shadowFrames g (frames ++ b :: more))._shadowStrength =
          (shadowFrames g frames)._shadowStrength -
            kShadowFadeSpeed * ((b :: more).map (fun f => f.2.2)).sum := by
  have hrun : (shadowFrames g frames)._shadowLight = some L ∧
      (shadowFrames g frames)._shadowActive = true := by
    clear * - hL hact hframes
    induction frames generalizing g with
    | nil => exact ⟨hL, hact⟩
    | cons frame rest ih =>
      obtain ⟨light, hmem, hid, hpred, hfirst⟩ := hframes frame (List.mem_cons_self _ _)
      have hfront := computeClosestLights_front
        { g with _lights := frame.1, _activeCamera := some frame.2.1 } frame.2.1 shadowPred light
        hmem hpred hfirst
      have hkeep := updateShadowLight_keep
        { g with _lights := frame.1, _activeCamera := some frame.2.1 } frame.2.1 frame.2.2 light
        (by rw [hid]; exact hL) hact hfront
      rw [hid] at hkeep
      exact ih (shadowFrame g frame) hkeep.1 hkeep.2
        (fun f hf => hframes f (List.mem_cons_of_mem _ hf))
  refine ⟨hrun, ?_⟩
  intro b more hbreak hnn hlt
  rw [shadowFrames_append]
  have hk : (0 : ℚ) ≤ kShadowFadeSpeed := by norm_num [kShadowFadeSpeed]
  have hrest : 0 ≤ (more.map (fun f => f.2.2)).sum :=
    List.sum_nonneg (by
      intro x hx
      obtain ⟨f', hf', rfl⟩ := List.mem_map.mp hx
      exact hnn f' (List.mem_cons_of_mem _ hf'))
  simp only [List.map_cons, List.sum_cons, mul_add] at hlt ⊢
  have h1 := shadowFrame_fade (shadowFrames g frames) b L hrun.1 (fun h => hbreak h.2)
    (by have := mul_nonneg hk hrest; linarith)
  have h2 := shadowFrames_fading L more (shadowFrame (shadowFrames g frames) b) h1.1 h1.2.1
    (fun f' hf' => hnn f' (List.mem_cons_of_mem _ hf')) (by rw [h1.2.2]; linarith)
  show (shadowFrames (shadowFrame (shadowFrames g frames) b) more)._shadowLight = some L ∧ _
  refine ⟨h2.1, h2.2.1, ?_⟩
  show (shadowFrames (shadowFrame (shadowFrames g frames) b) more)._shadowStrength = _
  rw [h2.2.2, h1.2.2]
  ring

/-- Witness for C7 (amended): `lightA` stays the active shadow light through a
frame in which `lightB` is valid too but farther from the camera; after a frame
with the camera at `(10, 0, 0)`, where `lightB` is closer, and a frame with the
camera back at the origin, where `lightA` is the first candidate again,
`lightA` is still the shadow light and inactive. -/
theorem shadow_light_kept_while_first_witness :
    (Example.litGraph._shadowLight = some 1 ∧ Example.litGraph._shadowActive = true) ∧
    (computeClosestLights
      { Example.litGraph with _lights := [Example.lightA, Example.lightB] }
      ⟨⟨0, 0, 0⟩⟩ 1 shadowPred).head? = some Example.lightA ∧
    ((shadowFrames Example.litGraph
        [([Example.lightA, Example.lightB], ⟨⟨6, 0, 0⟩⟩, 1 / 4)])._shadowLight = some 1 ∧
      (shadowFrames Example.litGraph
        [([Example.lightA, Example.lightB], ⟨⟨6, 0, 0⟩⟩, 1 / 4)])._shadowActive = true) ∧
    ((shadowFrames Example.litGraph
        ([([Example.lightA, Example.lightB], ⟨⟨6, 0, 0⟩⟩, 1 / 4)] ++
          [([Example.lightA, Example.lightB], ⟨⟨10, 0, 0⟩⟩, 1 / 8),
            ([Example.lightA, Example.lightB], ⟨⟨0, 0, 0⟩⟩, 1 / 8)]))._shadowLight = some 1 ∧
      (shadowFrames Example.litGraph
        ([([Example.lightA, Example.lightB], ⟨⟨6, 0, 0⟩⟩, 1 / 4)] ++
          [([Example.lightA, Example.lightB], ⟨⟨10, 0, 0⟩⟩, 1 / 8),
            ([Example.lightA, Example.lightB], ⟨⟨0, 0, 0⟩⟩, 1 / 8)]))._shadowActive = false) :=
  have h := shadow_light_kept_while_first Example.litGraph 1
    [([Example.lightA, Example.lightB], ⟨⟨6, 0, 0⟩⟩, 1 / 4)]
    Example.litGraph_shadow.1 Example.litGraph_shadow.2.1
    (by
      intro frame hframe
      simp only [List.mem_singleton] at hframe
      subst hframe
      refine ⟨Example.lightA, List.mem_cons_self _ _, rfl, ?_, ?_⟩
      · norm_num [Example.lightA, shadowPred, LightSceneNode.getSquareDistanceTo, Vec3.distance2,
          Vec3.dot, Vec3.sub]
      · intro other hother hne _
        simp only [List.mem_cons, List.mem_singleton, List.not_mem_nil, or_false] at hother
        rcases hother with h | h
        · exact absurd h hne
        · subst h
          norm_num [Example.lightA, Example.lightB, lightLess,
            LightSceneNode.getSquareDistanceTo, Vec3.distance2, Vec3.dot, Vec3.sub])
  have hfade := h.2 ([Example.lightA, Example.lightB], ⟨⟨10, 0, 0⟩⟩, 1 / 8)
    [([Example.lightA, Example.lightB], ⟨⟨0, 0, 0⟩⟩, 1 / 8)]
    (by
      rw [Example.front_at_ten _ rfl]
      simp [Example.lightB])
    (by
      intro f hf
      simp only [List.mem_cons, List.mem_singleton, List.not_mem_nil, or_false] at hf
      rcases hf with rfl | rfl <;> norm_num)
    (by
      rw [Example.litGraph_strength_at_six]
      norm_num [kShadowFadeSpeed])
  ⟨⟨Example.litGraph_shadow.1, Example.litGraph_shadow.2.1⟩, Example.front_at_origin _ rfl, h.1,
    hfade.1, hfade.2.1⟩

end SceneGraph

end reone
